import Mathlib

/-!
# Maze game (`2023CS039/maze_game.c`): shallow embedding and verified properties

The C program keeps one `Game` aggregate that is mutated in place.  Here every
function takes the parts of the aggregate it reads and returns the parts it
writes.  The C `int` is modelled by `Int` (signed overflow is undefined in C, so
the embedding covers every defined execution), `rand()` by an explicit stream of
naturals with a cursor, and the fixed-size arrays with their counters by lists.
A `Player*` argument is always `&game->players[i]`; it is modelled by the seat
`i : Fin 3`, or by the `Player` value when the function touches nothing else.
`printf` calls are dropped: they do not influence the state.

The mutual recursion `check_and_cap_movement_points` / `transport_to_bawana` /
`apply_bawana_effect` is defined as it is written, with a termination proof.
The recursion of `move_player_with_effects` is not well founded, so its model
carries a bound on the recursion depth and returns `none` when the bound is
reached.

Two functions of the older variant `maze_game.c` at the root of the sources are
modelled as well, under names that start with `root_`: the loop that draws the
flag in `initialize_game` and the assignment loop of `initialize_bawana_area`.
-/

namespace MazeGame

/-! ## Constants -/

def MAX_FLOORS : Int := 3

def MAZE_WIDTH : Int := 10

def MAZE_LENGTH : Int := 25

def MAX_PLAYERS : Nat := 3

def INITIAL_MOVEMENT_POINTS : Int := 100

def MAX_MOVEMENT_POINTS : Int := 1000

def BAWANA_CELLS : Nat := 16

def STAIR_DIRECTION_CHANGE_ROUNDS : Int := 5

/-! ## Data model -/

inductive Direction where
  | EMPTY | NORTH | EAST | SOUTH | WEST
  deriving DecidableEq, Repr

inductive CellEffectType where
  | EFFECT_NONE | EFFECT_CONSUMABLE | EFFECT_BONUS_ADD | EFFECT_BONUS_MULTIPLY
  deriving DecidableEq, Repr

inductive BawanaEffect where
  | BAWANA_FOOD_POISONING | BAWANA_DISORIENTED | BAWANA_TRIGGERED | BAWANA_HAPPY
  | BAWANA_RANDOM_POINTS
  deriving DecidableEq, Repr

structure Cell where
  effect_type : CellEffectType
  effect_value : Int
  bawana_effect : BawanaEffect
  deriving DecidableEq, Repr

structure Player where
  name : Char
  floor : Int
  width : Int
  length : Int
  direction : Direction
  in_maze : Bool
  dice_throw_count : Int
  movement_points : Int
  food_poisoning_turns : Int
  disoriented_turns : Int
  triggered : Bool
  in_bawana : Bool
  random_direction : Direction
  deriving DecidableEq, Repr

structure Stair where
  start_floor : Int
  start_width : Int
  start_length : Int
  end_floor : Int
  end_width : Int
  end_length : Int
  up_direction : Bool
  deriving DecidableEq, Repr

structure Pole where
  start_floor : Int
  end_floor : Int
  width : Int
  length : Int
  deriving DecidableEq, Repr

structure Wall where
  floor : Int
  start_width : Int
  start_length : Int
  end_width : Int
  end_length : Int
  deriving DecidableEq, Repr

/-- The cell table `maze[f][w][l]`, read only at in-range indices by the code. -/
abbrev Maze := Int → Int → Int → Cell

/-- The `Game` aggregate: `players[MAX_PLAYERS]`, the obstacle arrays with their
counters (as lists), the cell table, the flag and the end-of-game fields. -/
structure Game where
  players : Fin 3 → Player
  stairs : List Stair
  poles : List Pole
  walls : List Wall
  maze : Maze
  flag_floor : Int
  flag_width : Int
  flag_length : Int
  game_over : Bool
  winner : Char
  round_count : Int

/-- The C library random source: `stream n` is the value of the `n`-th call of
`rand()` and `pos` counts the calls made so far. -/
structure Rng where
  stream : Nat → Nat
  pos : Nat

/-- One call of `rand()`. -/
def rand (r : Rng) : Nat × Rng :=
  (r.stream r.pos, { r with pos := r.pos + 1 })

/-! ## Grid model -/

def is_valid_position (floor width length : Int) : Bool :=
  decide (floor ≥ 0) && decide (floor < MAX_FLOORS) &&
  decide (width ≥ 0) && decide (width < MAZE_WIDTH) &&
  decide (length ≥ 0) && decide (length < MAZE_LENGTH)

def is_floor_accessible (floor width length : Int) : Bool :=
  if !is_valid_position floor width length then false
  else if floor = 0 then true
  else if floor = 1 then
    if length ≥ 0 ∧ length ≤ 7 then true
    else if length ≥ 8 ∧ length ≤ 16 ∧ width ≥ 3 ∧ width ≤ 6 then true
    else if length ≥ 17 ∧ length ≤ 24 then true
    else false
  else if floor = 2 then decide (length ≥ 8 ∧ length ≤ 16)
  else false

def is_in_bawana (width length : Int) : Bool :=
  decide (width ≥ 6) && decide (width ≤ 9) && decide (length ≥ 20) && decide (length ≤ 24)

/-! ## Walls -/

/-- The test made on one wall inside the loop of `is_path_blocked_by_wall`: the
floor filter, the collinearity guard and the interval test. -/
def wall_blocks (wall : Wall) (floor start_w start_l end_w end_l : Int) : Bool :=
  if wall.floor ≠ floor then false
  else if (start_w = end_w ∧ wall.start_width = wall.end_width ∧ wall.start_width = start_w) ∨
          (start_l = end_l ∧ wall.start_length = wall.end_length ∧ wall.start_length = start_l) then
    let min_w := if start_w < end_w then start_w else end_w
    let max_w := if start_w > end_w then start_w else end_w
    let min_l := if start_l < end_l then start_l else end_l
    let max_l := if start_l > end_l then start_l else end_l
    let wall_min_w := if wall.start_width < wall.end_width then wall.start_width else wall.end_width
    let wall_max_w := if wall.start_width > wall.end_width then wall.start_width else wall.end_width
    let wall_min_l := if wall.start_length < wall.end_length then wall.start_length else wall.end_length
    let wall_max_l := if wall.start_length > wall.end_length then wall.start_length else wall.end_length
    !(decide (max_w < wall_min_w) || decide (min_w > wall_max_w) ||
      decide (max_l < wall_min_l) || decide (min_l > wall_max_l))
  else false

/-- The loop over `game->walls[0 .. num_walls)`: the first blocking wall returns
true. -/
def is_path_blocked_by_wall (walls : List Wall) (floor start_w start_l end_w end_l : Int) : Bool :=
  match walls with
  | [] => false
  | wall :: rest =>
    if wall_blocks wall floor start_w start_l end_w end_l then true
    else is_path_blocked_by_wall rest floor start_w start_l end_w end_l

def can_move_single_step (walls : List Wall) (floor from_w from_l to_w to_l : Int) : Bool :=
  if !is_floor_accessible floor to_w to_l then false
  else if is_path_blocked_by_wall walls floor from_w from_l to_w to_l then false
  else true

/-! ## Balance cap, transport and recovery effects -/

/-- The table `bawana_positions` of `transport_to_bawana`. -/
def bawana_positions : List (Int × Int) :=
  [(6,20), (6,21), (6,22), (6,23), (6,24),
   (7,20), (7,21), (7,22), (7,23), (7,24),
   (8,20), (8,21), (8,22), (8,23), (8,24),
   (9,20), (9,21), (9,22), (9,23), (9,24)]

/-- The `switch` of `apply_bawana_effect` on the tag of the player's cell; only
the random-points branch calls `rand()`. -/
def bawana_switch (effect : BawanaEffect) (player : Player) (r : Rng) : Player × Rng :=
  match effect with
  | .BAWANA_FOOD_POISONING => ({ player with food_poisoning_turns := 3 }, r)
  | .BAWANA_DISORIENTED =>
    ({ player with movement_points := player.movement_points + 50, disoriented_turns := 4,
                   floor := 0, width := 9, length := 19, direction := .NORTH }, r)
  | .BAWANA_TRIGGERED =>
    ({ player with movement_points := player.movement_points + 50, triggered := true,
                   floor := 0, width := 9, length := 19, direction := .NORTH }, r)
  | .BAWANA_HAPPY =>
    ({ player with movement_points := player.movement_points + 200,
                   floor := 0, width := 9, length := 19, direction := .NORTH }, r)
  | .BAWANA_RANDOM_POINTS =>
    let (v, r1) := rand r
    let bonus : Int := ((v % 91 + 10 : Nat) : Int)
    ({ player with movement_points := player.movement_points + bonus }, r1)

/-- The first statement of `check_and_cap_movement_points`: the upper clamp. -/
def cap_points (player : Player) : Player :=
  if player.movement_points > MAX_MOVEMENT_POINTS then
    { player with movement_points := MAX_MOVEMENT_POINTS }
  else player

/-- The player as `transport_to_bawana` leaves it just before it calls
`apply_bawana_effect`: on the drawn recovery cell, flagged, balance 10. -/
def transport_place (player : Player) (v : Nat) : Player :=
  let idx := v % 20
  let pos := bawana_positions.getD idx (0, 0)
  { player with floor := 0, width := pos.1, length := pos.2, in_bawana := true,
                movement_points := 10 }

mutual

/-- The model of `check_and_cap_movement_points`: clamp the balance to
`MAX_MOVEMENT_POINTS`, then transport the player when the balance is not
positive. -/
def check_and_cap_movement_points (maze : Maze) (player : Player) (r : Rng) : Player × Rng :=
  if (cap_points player).movement_points ≤ 0 then
    transport_to_bawana maze (cap_points player) r
  else (cap_points player, r)
termination_by (if player.movement_points ≤ 0 then 4 else 0 : Nat)
decreasing_by
  simp_wf
  rename_i h
  have h1 : player.movement_points ≤ 0 := by
    unfold cap_points MAX_MOVEMENT_POINTS at h
    split at h
    · simp at h
    · exact h
  simp [h1]

/-- The model of `transport_to_bawana`: one draw chooses the recovery cell, the
player is placed there with balance 10, and the recovery effect is applied. -/
def transport_to_bawana (maze : Maze) (player : Player) (r : Rng) : Player × Rng :=
  apply_bawana_effect maze (transport_place player (rand r).1) (rand r).2
termination_by (3 : Nat)
decreasing_by simp_wf; simp [transport_place]

/-- The model of `apply_bawana_effect`: nothing outside the recovery rectangle;
inside, the switch on the tag of `maze[0][width][length]`, the balance check, and
`in_bawana = false`. -/
def apply_bawana_effect (maze : Maze) (player : Player) (r : Rng) : Player × Rng :=
  if !is_in_bawana player.width player.length then (player, r)
  else
    let cell := maze 0 player.width player.length
    let res := check_and_cap_movement_points maze (bawana_switch cell.bawana_effect player r).1
      (bawana_switch cell.bawana_effect player r).2
    ({ res.1 with in_bawana := false }, res.2)
termination_by (if player.movement_points ≤ 0 then 5 else 1 : Nat)
decreasing_by
  simp_wf
  have : player.movement_points ≤
      (bawana_switch (maze 0 player.width player.length).bawana_effect
        player r).1.movement_points := by
    cases (maze 0 player.width player.length).bawana_effect <;>
      simp only [bawana_switch, rand] <;> omega
  split <;> split <;> omega

end

/-! ## Cell effects -/

/-- The model of `apply_cell_effects`: the new player, the value stored in
`*cost`, and the random source. -/
def apply_cell_effects (maze : Maze) (player : Player) (floor width length : Int) (r : Rng) :
    Player × Int × Rng :=
  if !is_valid_position floor width length then (player, 0, r)
  else
    let cell := maze floor width length
    match cell.effect_type with
    | .EFFECT_CONSUMABLE =>
      let res := check_and_cap_movement_points maze
        { player with movement_points := player.movement_points - cell.effect_value } r
      (res.1, cell.effect_value, res.2)
    | .EFFECT_BONUS_ADD =>
      let res := check_and_cap_movement_points maze
        { player with movement_points := player.movement_points + cell.effect_value } r
      (res.1, 0, res.2)
    | .EFFECT_BONUS_MULTIPLY =>
      let res := check_and_cap_movement_points maze
        (if player.movement_points ≤ 100 then
          { player with movement_points := player.movement_points * cell.effect_value }
         else
          { player with movement_points := player.movement_points + cell.effect_value * 20 }) r
      (res.1, 0, res.2)
    | .EFFECT_NONE =>
      let res := check_and_cap_movement_points maze player r
      (res.1, 0, res.2)

/-! ## Stairs and poles -/

/-- The pole loop of `check_and_use_stairs_poles`. -/
def use_poles (poles : List Pole) (player : Player) : Player × Bool :=
  match poles with
  | [] => (player, false)
  | pole :: rest =>
    if player.width = pole.width ∧ player.length = pole.length ∧
       player.floor > pole.end_floor ∧ player.floor ≤ pole.start_floor then
      ({ player with floor := pole.end_floor }, true)
    else use_poles rest player

/-- The stair loop of `check_and_use_stairs_poles`, followed by the pole loop
when no stair fires. -/
def use_stairs (stairs : List Stair) (poles : List Pole) (player : Player) : Player × Bool :=
  match stairs with
  | [] => use_poles poles player
  | stair :: rest =>
    if player.floor = stair.start_floor ∧ player.width = stair.start_width ∧
       player.length = stair.start_length ∧ stair.up_direction = true then
      ({ player with floor := stair.end_floor, width := stair.end_width,
                     length := stair.end_length }, true)
    else if player.floor = stair.end_floor ∧ player.width = stair.end_width ∧
       player.length = stair.end_length ∧ stair.up_direction = false then
      ({ player with floor := stair.start_floor, width := stair.start_width,
                     length := stair.start_length }, true)
    else use_stairs rest poles player

def check_and_use_stairs_poles (stairs : List Stair) (poles : List Pole) (player : Player) :
    Player × Bool :=
  use_stairs stairs poles player

/-! ## Capture -/

/-- Write `p` into `players[i]`. -/
def Game.setPlayer (g : Game) (i : Fin 3) (p : Player) : Game :=
  { g with players := Function.update g.players i p }

/-- The reset that `capture_player` applies to `players[captured_index]`. -/
def capture_reset (captured : Player) : Player :=
  let c := { captured with in_maze := false, dice_throw_count := 0, floor := 0 }
  let c :=
    if c.name = 'A' then { c with width := 6, length := 12, direction := Direction.NORTH }
    else if c.name = 'B' then { c with width := 9, length := 8, direction := Direction.WEST }
    else if c.name = 'C' then { c with width := 9, length := 16, direction := Direction.EAST }
    else c
  { c with food_poisoning_turns := 0, disoriented_turns := 0, triggered := false,
           in_bawana := false }

def capture_player (g : Game) (_capturer_index captured_index : Fin 3) : Game :=
  g.setPlayer captured_index (capture_reset (g.players captured_index))

/-- The capture loop that ends `move_player_with_effects`, over the seats still
to be scanned; the mover is `players[idx]`. -/
def capture_scan_from (g : Game) (idx : Fin 3) : List (Fin 3) → Game
  | [] => g
  | i :: rest =>
    if i ≠ idx ∧ (g.players i).in_maze = true ∧
       (g.players i).floor = (g.players idx).floor ∧
       (g.players i).width = (g.players idx).width ∧
       (g.players i).length = (g.players idx).length then
      capture_player g idx i
    else capture_scan_from g idx rest

def capture_scan (g : Game) (idx : Fin 3) : Game :=
  capture_scan_from g idx [0, 1, 2]

/-! ## Movement resolver -/

/-- The `switch (dir)` of the step loop: the offset on (width, length), or
`none` for the `default: return` branch. -/
def step_offset : Direction → Option (Int × Int)
  | .NORTH => some (0, -1)
  | .SOUTH => some (0, 1)
  | .EAST => some (1, 0)
  | .WEST => some (-1, 0)
  | .EMPTY => none

/-- The test `player at flag` made twice in the step loop. -/
def at_flag (g : Game) (p : Player) : Bool :=
  decide (p.floor = g.flag_floor) && decide (p.width = g.flag_width) &&
  decide (p.length = g.flag_length)

/-- The result of a call of `move_player_with_effects`: the game, the random
source, and a ghost counter of the unit steps committed (`cells_moved++`) by the
call and by the calls it makes. -/
abbrev MoveResult := Game × Rng × Nat

/-- The `for (step = 0; step < effective_steps; step++)` loop of
`move_player_with_effects` followed by the capture scan.  `n` is the number of
iterations left, `step` the loop variable, `moved` the ghost counter, and
`recur` the recursive call of `move_player_with_effects` with the same player
and direction.  A `break` leads to the capture scan, a `return` does not.  The
locals `total_cost` and `cells_moved` only feed the final `printf`. -/
def move_loop (recur : Game → Rng → Int → Option MoveResult) (idx : Fin 3) (dir : Direction)
    (effective_steps : Int) : Nat → Int → Game → Rng → Nat → Option MoveResult
  | 0, _, g, r, moved => some (capture_scan g idx, r, moved)
  | n + 1, step, g, r, moved =>
    let player := g.players idx
    let old_width := player.width
    let old_length := player.length
    match step_offset dir with
    | none => some (g, r, moved)
    | some (dw, dl) =>
      let new_width := old_width + dw
      let new_length := old_length + dl
      if !can_move_single_step g.walls player.floor old_width old_length new_width new_length then
        if step = 0 then
          let res := check_and_cap_movement_points g.maze
            { player with movement_points := player.movement_points - 2 } r
          some (capture_scan (g.setPlayer idx res.1) idx, res.2, moved)
        else some (capture_scan g idx, r, moved)
      else
        let p1 := { player with width := new_width, length := new_length }
        let eff := apply_cell_effects g.maze p1 p1.floor p1.width p1.length r
        let p2 := eff.1
        let r2 := eff.2.2
        let g2 := g.setPlayer idx p2
        if at_flag g p2 then
          some ({ g2 with game_over := true, winner := p2.name }, r2, moved + 1)
        else if p2.movement_points ≤ 0 then
          some (capture_scan g2 idx, r2, moved + 1)
        else
          let sp := check_and_use_stairs_poles g.stairs g.poles p2
          let p3 := sp.1
          let g3 := g.setPlayer idx p3
          if sp.2 = true ∧ at_flag g p3 = true then
            some ({ g3 with game_over := true, winner := p3.name }, r2, moved + 1)
          else if sp.2 = true ∧ effective_steps - step - 1 > 0 then
            (recur g3 r2 (effective_steps - step - 1)).map
              (fun res => (res.1, res.2.1, moved + 1 + res.2.2))
          else if is_in_bawana p3.width p3.length then
            let b := apply_bawana_effect g.maze p3 r2
            some (capture_scan (g.setPlayer idx b.1) idx, b.2, moved + 1)
          else
            move_loop recur idx dir effective_steps n (step + 1) g3 r2 (moved + 1)

/-- The model of `move_player_with_effects(game, &game->players[idx], dir, steps)`.
`fuel` bounds the depth of the recursion that resumes the movement after a stair
or pole; `none` means that the bound was reached. -/
def move_player_with_effects : Nat → Game → Rng → Fin 3 → Direction → Int → Option MoveResult
  | 0, _, _, _, _, _ => none
  | fuel + 1, g, r, idx, dir, steps =>
    let effective_steps := if (g.players idx).triggered then steps * 2 else steps
    move_loop (fun g1 r1 s1 => move_player_with_effects fuel g1 r1 idx dir s1) idx dir
      effective_steps effective_steps.toNat 0 g r 0

/-! ## Dice -/

/-- The model of `roll_movement_dice`: `(rand() % 6) + 1`. -/
def roll_movement_dice (r : Rng) : Int × Rng :=
  ((((rand r).1 % 6 + 1 : Nat) : Int), (rand r).2)

/-- The `switch (roll)` of `roll_direction_dice`. -/
def direction_face (roll : Nat) : Direction :=
  if roll = 0 then .EMPTY
  else if roll = 1 then .NORTH
  else if roll = 2 then .EAST
  else if roll = 3 then .SOUTH
  else if roll = 4 then .WEST
  else .EMPTY

/-- The model of `roll_direction_dice`: the face for `rand() % 6`. -/
def roll_direction_dice (r : Rng) : Direction × Rng :=
  (direction_face ((rand r).1 % 6), (rand r).2)

/-- The model of `get_random_direction`: `dirs[rand() % 4]`. -/
def get_random_direction (r : Rng) : Direction × Rng :=
  ([Direction.NORTH, Direction.EAST, Direction.SOUTH, Direction.WEST].getD ((rand r).1 % 4)
    Direction.NORTH, (rand r).2)

/-! ## Turn controller -/

/-- The `switch (player->name)` of the entry branch of `play_turn`. -/
def entry_cell (p : Player) : Player :=
  if p.name = 'A' then { p with width := 5, length := 12 }
  else if p.name = 'B' then { p with width := 9, length := 7 }
  else if p.name = 'C' then { p with width := 9, length := 17 }
  else p

/-- The last statement of the in-maze branch of `play_turn`: the triggered flag
is cleared when the throw count is a multiple of 4. -/
def clear_trigger (idx : Fin 3) (s : Game × Rng) : Game × Rng :=
  if (s.1.players idx).triggered = true ∧ (s.1.players idx).dice_throw_count % 4 = 0 then
    (s.1.setPlayer idx { s.1.players idx with triggered := false }, s.2)
  else s

/-- The tail of the not-disoriented branch of `play_turn`: the candidate cell
from `switch (movement_dir)` (unchanged for a non-cardinal value), then either
the 2-point penalty with the balance check or `move_player_with_effects`. -/
def guarded_move (fuel : Nat) (g : Game) (r : Rng) (idx : Fin 3) (movement_dir : Direction)
    (movement_roll : Int) : Option (Game × Rng) :=
  let player := g.players idx
  let off := (step_offset movement_dir).getD (0, 0)
  let new_width := player.width + off.1
  let new_length := player.length + off.2
  if !can_move_single_step g.walls player.floor player.width player.length
      new_width new_length then
    let c := check_and_cap_movement_points g.maze
      { player with movement_points := player.movement_points - 2 } r
    some (g.setPlayer idx c.1, c.2)
  else
    (move_player_with_effects fuel g r idx movement_dir movement_roll).map
      (fun res => (res.1, res.2.1))

/-- The in-maze branch of `play_turn` up to the final clearing of the triggered
flag: movement roll, throw count, choice of the direction, movement. -/
def in_maze_turn (fuel : Nat) (g : Game) (r : Rng) (idx : Fin 3) : Option (Game × Rng) :=
  let player := g.players idx
  let roll := roll_movement_dice r
  let p1 := { player with dice_throw_count := player.dice_throw_count + 1 }
  if p1.disoriented_turns > 0 then
    let d := get_random_direction roll.2
    let p2 := { p1 with disoriented_turns := p1.disoriented_turns - 1 }
    (move_player_with_effects fuel (g.setPlayer idx p2) d.2 idx d.1 roll.1).map
      (fun res => (res.1, res.2.1))
  else if p1.dice_throw_count % 4 = 0 then
    let dr := roll_direction_dice roll.2
    if dr.1 ≠ Direction.EMPTY then
      guarded_move fuel (g.setPlayer idx { p1 with direction := dr.1 }) dr.2 idx dr.1 roll.1
    else
      guarded_move fuel (g.setPlayer idx p1) dr.2 idx p1.direction roll.1
  else
    guarded_move fuel (g.setPlayer idx p1) roll.2 idx p1.direction roll.1

/-- The model of `play_turn(game, idx)`.  `fuel` is the bound passed to
`move_player_with_effects`; the branches that do not move return for every
bound. -/
def play_turn (fuel : Nat) (g : Game) (r : Rng) (idx : Fin 3) : Option (Game × Rng) :=
  let player := g.players idx
  if player.food_poisoning_turns > 0 then
    let p1 := { player with food_poisoning_turns := player.food_poisoning_turns - 1 }
    if p1.food_poisoning_turns = 0 then
      let t := transport_to_bawana g.maze p1 r
      some (g.setPlayer idx t.1, t.2)
    else some (g.setPlayer idx p1, r)
  else if player.in_bawana = true then
    let b := apply_bawana_effect g.maze player r
    some (g.setPlayer idx b.1, b.2)
  else if player.in_maze = false then
    let roll := roll_movement_dice r
    if roll.1 = 6 then
      let p1 := entry_cell { player with in_maze := true, dice_throw_count := 1 }
      let e := apply_cell_effects g.maze p1 p1.floor p1.width p1.length roll.2
      some (g.setPlayer idx e.1, e.2.2)
    else
      let c := check_and_cap_movement_points g.maze
        { player with movement_points := player.movement_points - 2 } roll.2
      some (g.setPlayer idx c.1, c.2)
  else
    (in_maze_turn fuel g r idx).map (clear_trigger idx)

/-! ## Round scheduler -/

/-- The model of `change_stair_directions`: one draw per stair, in order. -/
def change_stair_directions : List Stair → Rng → List Stair × Rng
  | [], r => ([], r)
  | s :: rest, r =>
    let tail := change_stair_directions rest (rand r).2
    ({ s with up_direction := decide ((rand r).1 % 2 = 0) } :: tail.1, tail.2)

/-- The head of the body of the `while` loop of `play_game`: the round counter
and the periodic change of the stair directions. -/
def round_start (g : Game) (r : Rng) : Game × Rng :=
  let g1 := { g with round_count := g.round_count + 1 }
  if g1.round_count % STAIR_DIRECTION_CHANGE_ROUNDS = 0 then
    let c := change_stair_directions g1.stairs r
    ({ g1 with stairs := c.1 }, c.2)
  else (g1, r)

/-- The `for` loop of `play_game` over the seats still to play: it stops when
`game_over` is set, before a turn (loop condition) or after it (`break`). -/
def play_seats (fuel : Nat) : List (Fin 3) → Game × Rng → Option (Game × Rng)
  | [], s => some s
  | i :: rest, s =>
    if s.1.game_over = true then some s
    else
      match play_turn fuel s.1 s.2 i with
      | none => none
      | some s1 => if s1.1.game_over = true then some s1 else play_seats fuel rest s1

/-- One iteration of the `while` loop of `play_game`. -/
def play_round (fuel : Nat) (g : Game) (r : Rng) : Option (Game × Rng) :=
  play_seats fuel [0, 1, 2] (round_start g r)

/-- The model of the `while (!game->game_over)` loop of `play_game`, for at most
`rounds` iterations; `none` when the bound on the rounds or the bound `fuel` of a
move is reached. -/
def play_game (fuel : Nat) : Nat → Game → Rng → Option (Game × Rng)
  | 0, g, r => if g.game_over = true then some (g, r) else none
  | rounds + 1, g, r =>
    if g.game_over = true then some (g, r)
    else
      match play_round fuel g r with
      | none => none
      | some s => play_game fuel rounds s.1 s.2

/-! ## Setup of the players -/

/-- The model of `initialize_players`: every field of the three players except
`random_direction`, which the function does not write. -/
def initialize_players (g : Game) : Game :=
  { g with players := fun i =>
      if i = 0 then
        { g.players 0 with
            name := 'A', floor := 0, width := 6, length := 12, direction := .NORTH,
            in_maze := false, dice_throw_count := 0,
            movement_points := INITIAL_MOVEMENT_POINTS, food_poisoning_turns := 0,
            disoriented_turns := 0, triggered := false, in_bawana := false }
      else if i = 1 then
        { g.players 1 with
            name := 'B', floor := 0, width := 9, length := 8, direction := .WEST,
            in_maze := false, dice_throw_count := 0,
            movement_points := INITIAL_MOVEMENT_POINTS, food_poisoning_turns := 0,
            disoriented_turns := 0, triggered := false, in_bawana := false }
      else
        { g.players 2 with
            name := 'C', floor := 0, width := 9, length := 16, direction := .EAST,
            in_maze := false, dice_throw_count := 0,
            movement_points := INITIAL_MOVEMENT_POINTS, food_poisoning_turns := 0,
            disoriented_turns := 0, triggered := false, in_bawana := false } }

/-! ## Setup of the cell table -/

/-- Store `c` at `maze[f][w][l]`. -/
def set_cell (maze : Maze) (f w l : Int) (c : Cell) : Maze :=
  fun f1 w1 l1 => if f1 = f ∧ w1 = w ∧ l1 = l then c else maze f1 w1 l1

/-- The body of the innermost loop of `initialize_maze_cells`: the cell it
writes, from one bucket draw and (outside the first bucket) one value draw. -/
def draw_cell (r : Rng) : Cell × Rng :=
  let rand_val := (rand r).1 % 100
  let r1 := (rand r).2
  if rand_val < 25 then
    (⟨.EFFECT_CONSUMABLE, 0, .BAWANA_RANDOM_POINTS⟩, r1)
  else if rand_val < 60 then
    (⟨.EFFECT_CONSUMABLE, (((rand r1).1 % 4 + 1 : Nat) : Int), .BAWANA_RANDOM_POINTS⟩, (rand r1).2)
  else if rand_val < 85 then
    (⟨.EFFECT_BONUS_ADD, (((rand r1).1 % 2 + 1 : Nat) : Int), .BAWANA_RANDOM_POINTS⟩, (rand r1).2)
  else if rand_val < 95 then
    (⟨.EFFECT_BONUS_ADD, (((rand r1).1 % 3 + 3 : Nat) : Int), .BAWANA_RANDOM_POINTS⟩, (rand r1).2)
  else
    (⟨.EFFECT_BONUS_MULTIPLY, (((rand r1).1 % 2 + 2 : Nat) : Int), .BAWANA_RANDOM_POINTS⟩, (rand r1).2)

/-- One iteration of the innermost loop of `initialize_maze_cells`. -/
def init_cell_step (f w : Nat) (s : Maze × Rng) (l : Nat) : Maze × Rng :=
  (set_cell s.1 f w l (draw_cell s.2).1, (draw_cell s.2).2)

/-- The three nested loops of `initialize_maze_cells`, over `f < MAX_FLOORS`,
`w < MAZE_WIDTH`, `l < MAZE_LENGTH`. -/
def initialize_maze_cells (maze : Maze) (r : Rng) : Maze × Rng :=
  (List.range 3).foldl (fun s f =>
    (List.range 10).foldl (fun s w =>
      (List.range 25).foldl (init_cell_step f w) s) s) (maze, r)

/-- The array `effects` of `initialize_bawana_area` as filled by its first two
loops. -/
def initial_effects : List BawanaEffect :=
  let e := (List.range 2).foldl (fun e _ =>
    e ++ [BawanaEffect.BAWANA_FOOD_POISONING, BawanaEffect.BAWANA_DISORIENTED,
          BawanaEffect.BAWANA_TRIGGERED, BawanaEffect.BAWANA_HAPPY]) []
  (List.range 8).foldl (fun e _ => e ++ [BawanaEffect.BAWANA_RANDOM_POINTS]) e

/-- The three statements that exchange `effects[i]` and `effects[j]`. -/
def swap_effects (e : List BawanaEffect) (i j : Nat) : List BawanaEffect :=
  let temp := e.getD i .BAWANA_RANDOM_POINTS
  (e.set i (e.getD j .BAWANA_RANDOM_POINTS)).set j temp

/-- The shuffle loop of `initialize_bawana_area`. -/
def shuffle_effects (e : List BawanaEffect) (r : Rng) : List BawanaEffect × Rng :=
  (List.range BAWANA_CELLS).foldl (fun s i =>
    (swap_effects s.1 i ((rand s.2).1 % BAWANA_CELLS), (rand s.2).2)) (e, r)

/-- The cells on which the assignment loop of `initialize_bawana_area` reaches
its guarded assignment: `w` from 6 to 9, `l` from 20 to 24, in loop order,
without those skipped by `if (w == 9 && l == 19) continue`. -/
def assignment_cells : List (Int × Int) :=
  ((List.range' 6 4).flatMap (fun w => (List.range' 20 5).map (fun l => ((w : Int), (l : Int))))).filter
    (fun c => !(decide (c.1 = 9) && decide (c.2 = 19)))

/-- Store a recovery tag in `maze[0][w][l].bawana_effect`. -/
def set_bawana_effect (maze : Maze) (w l : Int) (e : BawanaEffect) : Maze :=
  fun f1 w1 l1 =>
    if f1 = 0 ∧ w1 = w ∧ l1 = l then { maze f1 w1 l1 with bawana_effect := e } else maze f1 w1 l1

/-- The guarded assignment `if (idx < BAWANA_CELLS) ... = effects[idx++]`; the
state is the cell table and `idx`. -/
def assign_step (effects : List BawanaEffect) (s : Maze × Nat) (c : Int × Int) : Maze × Nat :=
  if s.2 < BAWANA_CELLS then
    (set_bawana_effect s.1 c.1 c.2 (effects.getD s.2 .BAWANA_RANDOM_POINTS), s.2 + 1)
  else s

def initialize_bawana_area (maze : Maze) (r : Rng) : Maze × Rng :=
  let sh := shuffle_effects initial_effects r
  ((assignment_cells.foldl (assign_step sh.1) (maze, 0)).1, sh.2)

/-! ## Specification-side predicates -/

/-- Closed intervals `[lo1, hi1]` and `[lo2, hi2]` have a common point. -/
def intervals_overlap (lo1 hi1 lo2 hi2 : Int) : Prop :=
  lo1 ≤ hi2 ∧ lo2 ≤ hi1

instance (lo1 hi1 lo2 hi2 : Int) : Decidable (intervals_overlap lo1 hi1 lo2 hi2) := by
  unfold intervals_overlap; infer_instance

/-- The blocking condition in the words of the specification: the wall is on
the floor, and its closed width and length intervals overlap those of the
step. -/
def wall_overlaps_step (wall : Wall) (floor from_w from_l to_w to_l : Int) : Prop :=
  wall.floor = floor ∧
  intervals_overlap (min wall.start_width wall.end_width) (max wall.start_width wall.end_width)
    (min from_w to_w) (max from_w to_w) ∧
  intervals_overlap (min wall.start_length wall.end_length) (max wall.start_length wall.end_length)
    (min from_l to_l) (max from_l to_l)

instance (wall : Wall) (floor from_w from_l to_w to_l : Int) :
    Decidable (wall_overlaps_step wall floor from_w from_l to_w to_l) := by
  unfold wall_overlaps_step; infer_instance

/-- The guard of `is_path_blocked_by_wall`: the step keeps its width and the
wall lies at that single width, or the step keeps its length and the wall lies
at that single length. -/
def wall_collinear_with_step (wall : Wall) (from_w from_l to_w to_l : Int) : Prop :=
  (from_w = to_w ∧ wall.start_width = wall.end_width ∧ wall.start_width = from_w) ∨
  (from_l = to_l ∧ wall.start_length = wall.end_length ∧ wall.start_length = from_l)

instance (wall : Wall) (from_w from_l to_w to_l : Int) :
    Decidable (wall_collinear_with_step wall from_w from_l to_w to_l) := by
  unfold wall_collinear_with_step; infer_instance

/-- A single unit step between axis-adjacent cells. -/
def unit_step (from_w from_l to_w to_l : Int) : Prop :=
  (from_w = to_w ∧ (to_l = from_l + 1 ∨ to_l = from_l - 1)) ∨
  (from_l = to_l ∧ (to_w = from_w + 1 ∨ to_w = from_w - 1))

instance (from_w from_l to_w to_l : Int) : Decidable (unit_step from_w from_l to_w to_l) := by
  unfold unit_step; infer_instance

/-- The floor-0 cells with `6 ≤ width ≤ 9` and `20 ≤ length ≤ 24` whose recovery
tag in `maze` is `e`. -/
def recovery_cells_tagged (maze : Maze) (e : BawanaEffect) : Finset (Int × Int) :=
  (Finset.Icc (6 : Int) 9 ×ˢ Finset.Icc (20 : Int) 24).filter
    (fun c => (maze 0 c.1 c.2).bawana_effect = e)

/-! ## Concrete games used to run the model -/

/-- A layout of recovery tags as `initialize_bawana_area` can leave it: on floor
0 the cells (6,20)..(6,24) carry happy, poisoning, disoriented, triggered,
poisoning, the cells (7,20)..(7,22) carry disoriented, triggered, happy, and
every other cell carries random-points. -/
def demo_tags (f w l : Int) : BawanaEffect :=
  if f = 0 ∧ w = 6 then
    if l = 20 then .BAWANA_HAPPY
    else if l = 21 then .BAWANA_FOOD_POISONING
    else if l = 22 then .BAWANA_DISORIENTED
    else if l = 23 then .BAWANA_TRIGGERED
    else if l = 24 then .BAWANA_FOOD_POISONING
    else .BAWANA_RANDOM_POINTS
  else if f = 0 ∧ w = 7 then
    if l = 20 then .BAWANA_DISORIENTED
    else if l = 21 then .BAWANA_TRIGGERED
    else if l = 22 then .BAWANA_HAPPY
    else .BAWANA_RANDOM_POINTS
  else .BAWANA_RANDOM_POINTS

/-- A concrete cell table: every cell consumes 1 point; the recovery tags are
`demo_tags`. -/
def demo_maze : Maze := fun f w l => ⟨.EFFECT_CONSUMABLE, 1, demo_tags f w l⟩

/-- Player `A` in the maze at floor 0, width 3, length 3 with balance 1. -/
def demo_player : Player :=
  ⟨'A', 0, 3, 3, .NORTH, true, 0, 1, 0, 0, false, false, .NORTH⟩

/-- The random source that always returns 0. -/
def zero_rng : Rng := ⟨fun _ => 0, 0⟩

/-- The wall of the blocked-step scenario: floor 0, widths 0..9 at length 10. -/
def row_wall : Wall := ⟨0, 0, 10, 9, 10⟩

/-- A game with the wall `row_wall`, no stairs or poles, the flag at floor 2,
width 5, length 10, and mover `A` at floor 0, width 3, length 10 with balance
100. -/
def wall_game : Game :=
  { players := fun i =>
      if i = 0 then ⟨'A', 0, 3, 10, .EAST, true, 1, 100, 0, 0, false, false, .NORTH⟩
      else if i = 1 then ⟨'B', 0, 9, 8, .WEST, false, 0, 100, 0, 0, false, false, .NORTH⟩
      else ⟨'C', 0, 9, 16, .EAST, false, 0, 100, 0, 0, false, false, .NORTH⟩
    stairs := [], poles := [], walls := [row_wall], maze := demo_maze
    flag_floor := 2, flag_width := 5, flag_length := 10
    game_over := false, winner := '\x00', round_count := 0 }

/-- A cell table on which every cell consumes 0 points; the recovery tags are
`demo_tags`. -/
def free_maze : Maze := fun f w l => ⟨.EFFECT_CONSUMABLE, 0, demo_tags f w l⟩

/-- Seat `B` waiting on its start pad, as `initialize_players` leaves it. -/
def idle_B : Player := ⟨'B', 0, 9, 8, .WEST, false, 0, 100, 0, 0, false, false, .NORTH⟩

/-- Seat `C` waiting on its start pad, as `initialize_players` leaves it. -/
def idle_C : Player := ⟨'C', 0, 9, 16, .EAST, false, 0, 100, 0, 0, false, false, .NORTH⟩

/-- A triggered mover `A` at floor 0, width 0, length 5 with balance 100; one
stair from (0,1,5) up to (1,0,5); no walls or poles; flag at (2,5,10). -/
def stair_game : Game :=
  { players := fun i =>
      if i = 0 then ⟨'A', 0, 0, 5, .EAST, true, 1, 100, 0, 0, true, false, .NORTH⟩
      else if i = 1 then idle_B else idle_C
    stairs := [⟨0, 1, 5, 1, 0, 5, true⟩], poles := [], walls := [], maze := free_maze
    flag_floor := 2, flag_width := 5, flag_length := 10
    game_over := false, winner := '\x00', round_count := 0 }

/-- Mover `A` at floor 0, width 3, length 3 with balance 1, not triggered; the
flag on the next cell to the SOUTH, (0,3,4); every cell consumes 1 point and
the recovery cell (6,20) carries the happy tag; no stairs, poles or walls. -/
def flag_game : Game :=
  { players := fun i => if i = 0 then demo_player else if i = 1 then idle_B else idle_C
    stairs := [], poles := [], walls := [], maze := demo_maze
    flag_floor := 0, flag_width := 3, flag_length := 4
    game_over := false, winner := '\x00', round_count := 0 }

/-- Mover `A` at floor 0, width 3, length 3 with balance 1, not triggered; every
cell consumes 1 point and the recovery cell (6,20) carries the happy tag; a
stair from the entrance (0,9,19) up to (1,5,20); the flag at (2,5,10). -/
def depletion_game : Game :=
  { players := fun i => if i = 0 then demo_player else if i = 1 then idle_B else idle_C
    stairs := [⟨0, 9, 19, 1, 5, 20, true⟩], poles := [], walls := [], maze := demo_maze
    flag_floor := 2, flag_width := 5, flag_length := 10
    game_over := false, winner := '\x00', round_count := 0 }

/-- The two stairs of the looping scenario: from (0,5,5) up to (1,4,5) and from
(1,5,5) down to (0,4,5), both with `up_direction = true` as
`load_stairs_from_file` sets it. -/
def loop_stairs : List Stair := [⟨0, 5, 5, 1, 4, 5, true⟩, ⟨1, 5, 5, 0, 4, 5, true⟩]

/-- The triggered mover `A` of the looping scenario on the given floor, at
width 4, length 5, with balance 100. -/
def loop_mover (floor : Int) : Player :=
  ⟨'A', floor, 4, 5, .EAST, true, 1, 100, 0, 0, true, false, .NORTH⟩

/-- The looping scenario: the stairs `loop_stairs`, no poles or walls, every
cell consuming 0 points, the flag at (2,5,10), and the triggered mover on the
given floor. -/
def loop_game (floor : Int) : Game :=
  { players := fun i => if i = 0 then loop_mover floor else if i = 1 then idle_B else idle_C
    stairs := loop_stairs, poles := [], walls := [], maze := free_maze
    flag_floor := 2, flag_width := 5, flag_length := 10
    game_over := false, winner := '\x00', round_count := 0 }

/-! ## Specification-side predicates: stairs, poles and capture -/

/-- The player stands on the start cell of the stair. -/
def at_stair_start (s : Stair) (p : Player) : Prop :=
  p.floor = s.start_floor ∧ p.width = s.start_width ∧ p.length = s.start_length

/-- The player stands on the end cell of the stair. -/
def at_stair_end (s : Stair) (p : Player) : Prop :=
  p.floor = s.end_floor ∧ p.width = s.end_width ∧ p.length = s.end_length

instance (s : Stair) (p : Player) : Decidable (at_stair_start s p) := by
  unfold at_stair_start; infer_instance

instance (s : Stair) (p : Player) : Decidable (at_stair_end s p) := by
  unfold at_stair_end; infer_instance

/-- The stair can be used from the player's cell under its current direction
flag: from the start when the flag is true, from the end when it is false. -/
def stair_matches (s : Stair) (p : Player) : Bool :=
  decide ((at_stair_start s p ∧ s.up_direction = true) ∨
          (at_stair_end s p ∧ s.up_direction = false))

/-- The transition of a stair: to the end cell when the flag is true, to the
start cell when it is false. -/
def stair_transition (s : Stair) (p : Player) : Player :=
  if s.up_direction = true then
    { p with floor := s.end_floor, width := s.end_width, length := s.end_length }
  else
    { p with floor := s.start_floor, width := s.start_width, length := s.start_length }

/-- The pole can be used from the player's cell: the player is at the column of
the pole, strictly above its end floor and at or below its start floor. -/
def pole_matches (q : Pole) (p : Player) : Bool :=
  decide (p.width = q.width ∧ p.length = q.length ∧
          q.end_floor < p.floor ∧ p.floor ≤ q.start_floor)

/-- The transition of a pole: down to its end floor. -/
def pole_transition (q : Pole) (p : Player) : Player :=
  { p with floor := q.end_floor }

/-- The transition in the words of the specification: the first stair in
registration order that matches, else the first pole that matches, else none. -/
def first_match_transition (stairs : List Stair) (poles : List Pole) (p : Player) :
    Player × Bool :=
  match stairs.find? (fun s => stair_matches s p) with
  | some s => (stair_transition s p, true)
  | none =>
    match poles.find? (fun q => pole_matches q p) with
    | some q => (pole_transition q p, true)
    | none => (p, false)

/-- The lowest seat other than `idx` whose player is in the maze on the cell of
the player `m`, if there is one. -/
def first_other_at (players : Fin 3 → Player) (m : Player) (idx : Fin 3) : Option (Fin 3) :=
  [(0 : Fin 3), 1, 2].find? (fun i =>
    decide (i ≠ idx ∧ (players i).in_maze = true ∧ (players i).floor = m.floor ∧
      (players i).width = m.width ∧ (players i).length = m.length))

/-! ## Further concrete stairs, poles and games -/

/-- The stair from (0,1,5) up to (1,0,5) with its flag set. -/
def demo_stair : Stair := ⟨0, 1, 5, 1, 0, 5, true⟩

/-- The pole at column (4,5) from floor 2 down to floor 0. -/
def demo_pole : Pole := ⟨2, 0, 4, 5⟩

/-- Mover `A` at floor 0, width 0, length 5 with balance 100, not triggered; one
stair from (0,1,5) up to (1,9,5), the last cell of its row; every cell consumes
0 points; no walls or poles; flag at (2,5,10). -/
def resume_game : Game :=
  { players := fun i =>
      if i = 0 then ⟨'A', 0, 0, 5, .EAST, true, 1, 100, 0, 0, false, false, .NORTH⟩
      else if i = 1 then idle_B else idle_C
    stairs := [⟨0, 1, 5, 1, 9, 5, true⟩], poles := [], walls := [], maze := free_maze
    flag_floor := 2, flag_width := 5, flag_length := 10
    game_over := false, winner := '\x00', round_count := 0 }

/-- Mover `A` on floor 1 at width 5, length 20 with balance 100, not triggered;
every cell consumes 0 points and the floor-0 cell (6,20) carries the happy tag;
no stairs, poles or walls; flag at (2,5,10). -/
def upper_floor_game : Game :=
  { players := fun i =>
      if i = 0 then ⟨'A', 1, 5, 20, .EAST, true, 1, 100, 0, 0, false, false, .NORTH⟩
      else if i = 1 then idle_B else idle_C
    stairs := [], poles := [], walls := [], maze := free_maze
    flag_floor := 2, flag_width := 5, flag_length := 10
    game_over := false, winner := '\x00', round_count := 0 }

/-- Mover `A` at floor 0, width 3, length 3 with balance 100 and player `B` in
the maze on the next cell to the EAST, (0,4,3); every cell consumes 0 points; no
stairs, poles or walls; flag at (2,5,10). -/
def capture_game : Game :=
  { players := fun i =>
      if i = 0 then ⟨'A', 0, 3, 3, .EAST, true, 1, 100, 0, 0, false, false, .NORTH⟩
      else if i = 1 then ⟨'B', 0, 4, 3, .WEST, true, 2, 100, 0, 0, false, false, .NORTH⟩
      else idle_C
    stairs := [], poles := [], walls := [], maze := free_maze
    flag_floor := 2, flag_width := 5, flag_length := 10
    game_over := false, winner := '\x00', round_count := 0 }

/-- The accessibility condition in the words of the specification. -/
def accessible_spec (f w l : Int) : Prop :=
  is_valid_position f w l = true ∧
  (f = 0 ∨ (f = 1 ∧ (l ≤ 7 ∨ l ≥ 17 ∨ (3 ≤ w ∧ w ≤ 6))) ∨ (f = 2 ∧ 8 ≤ l ∧ l ≤ 16))

/-- The accessible cells of floor `f`. -/
def accessible_cells (f : Int) : Finset (Int × Int) :=
  (Finset.Icc (0 : Int) 9 ×ˢ Finset.Icc (0 : Int) 24).filter
    (fun c => is_floor_accessible f c.1 c.2 = true)

/-- The branch of the `if` chain of `initialize_maze_cells` taken for the value
`rand_val` of the bucket draw, numbered from 0. -/
def draw_bucket (rand_val : Nat) : Nat :=
  if rand_val < 25 then 0
  else if rand_val < 60 then 1
  else if rand_val < 85 then 2
  else if rand_val < 95 then 3
  else 4

/-- The effect kinds and value ranges that the setup can give a cell: consume
0..4, add 1..5, multiply 2..3. -/
def cell_in_setup_ranges (c : Cell) : Prop :=
  (c.effect_type = .EFFECT_CONSUMABLE ∧ 0 ≤ c.effect_value ∧ c.effect_value ≤ 4) ∨
  (c.effect_type = .EFFECT_BONUS_ADD ∧ 1 ≤ c.effect_value ∧ c.effect_value ≤ 5) ∨
  (c.effect_type = .EFFECT_BONUS_MULTIPLY ∧ 2 ≤ c.effect_value ∧ c.effect_value ≤ 3)

/-- What no step of a turn changes in the player it acts on: the name, `in_maze`
and the throw count are kept, and a set triggered flag stays set. -/
def mover_kept (p q : Player) : Prop :=
  q.name = p.name ∧ q.in_maze = p.in_maze ∧ q.dice_throw_count = p.dice_throw_count ∧
  (p.triggered = true → q.triggered = true)

/-- Mover `A` at floor 0, width 0, length 5 with balance 100, not triggered; one
stair from (0,1,5) up to the flag cell (2,5,10); every cell consumes 0 points;
no walls or poles. -/
def stair_flag_game : Game :=
  { players := fun i =>
      if i = 0 then ⟨'A', 0, 0, 5, .EAST, true, 1, 100, 0, 0, false, false, .NORTH⟩
      else if i = 1 then idle_B else idle_C
    stairs := [⟨0, 1, 5, 2, 5, 10, true⟩], poles := [], walls := [], maze := free_maze
    flag_floor := 2, flag_width := 5, flag_length := 10
    game_over := false, winner := '\x00', round_count := 0 }

/-- Player `A` with one poisoned turn left, elsewhere as `demo_player`; seats `B`
and `C` idle; every cell consumes 1 point; no stairs, poles or walls; flag at
(2,5,10). -/
def poisoned_game : Game :=
  { players := fun i =>
      if i = 0 then { demo_player with food_poisoning_turns := 1 }
      else if i = 1 then idle_B else idle_C
    stairs := [], poles := [], walls := [], maze := demo_maze
    flag_floor := 2, flag_width := 5, flag_length := 10
    game_over := false, winner := '\x00', round_count := 0 }

/-- The three players on their start pads as `initialize_players` leaves them;
every cell consumes 1 point; no stairs, poles or walls; flag at (2,5,10). -/
def start_game : Game :=
  { players := fun i =>
      if i = 0 then ⟨'A', 0, 6, 12, .NORTH, false, 0, 100, 0, 0, false, false, .NORTH⟩
      else if i = 1 then idle_B else idle_C
    stairs := [], poles := [], walls := [], maze := demo_maze
    flag_floor := 2, flag_width := 5, flag_length := 10
    game_over := false, winner := '\x00', round_count := 0 }

/-- A triggered mover `A` at floor 0, width 3, length 10 facing EAST along the
wall `row_wall`, with three throws made and balance 100; flag at (2,5,10). -/
def trigger_game : Game :=
  { players := fun i =>
      if i = 0 then ⟨'A', 0, 3, 10, .EAST, true, 3, 100, 0, 0, true, false, .NORTH⟩
      else if i = 1 then idle_B else idle_C
    stairs := [], poles := [], walls := [row_wall], maze := demo_maze
    flag_floor := 2, flag_width := 5, flag_length := 10
    game_over := false, winner := '\x00', round_count := 0 }

/-- The turns of the listed seats, one after the other, with no test of
`game_over` in between (specification side of the `for` loop of `play_game`). -/
def turns_in_order (fuel : Nat) : List (Fin 3) → Game × Rng → Option (Game × Rng)
  | [], s => some s
  | i :: rest, s => (play_turn fuel s.1 s.2 i).bind (turns_in_order fuel rest)

/-- The game `start_game` with a stair from (0,1,5) to (1,0,5) whose flag is
false and with four rounds played. -/
def fifth_round_game : Game :=
  { start_game with stairs := [⟨0, 1, 5, 1, 0, 5, false⟩], round_count := 4 }

/-! ## Root variant (`src/maze_game.c`): the flag and the recovery area

The functions `is_valid_position`, `is_floor_accessible` and `is_in_bawana` of
the root variant have the text of the canonical ones, and so have the shuffle
loop and the two `for` loops over the recovery cells; the definitions above are
used for them. -/

/-- One iteration of the body of the `do ... while` loop of the root variant's
`initialize_game`: the flag (floor, width, length) it draws. -/
def root_draw_flag (r : Rng) : (Int × Int × Int) × Rng :=
  let flag_floor : Int := (((rand r).1 % 3 : Nat) : Int)
  let r1 := (rand r).2
  if flag_floor = 0 then
    let r2 := (rand r1).2
    ((flag_floor, (((rand r1).1 % 10 : Nat) : Int), (((rand r2).1 % 25 : Nat) : Int)),
      (rand r2).2)
  else if flag_floor = 1 then
    let r2 := (rand r1).2
    let r3 := (rand r2).2
    if (rand r1).1 % 2 = 0 then
      ((flag_floor, (((rand r2).1 % 10 : Nat) : Int), (((rand r3).1 % 8 : Nat) : Int)),
        (rand r3).2)
    else
      ((flag_floor, (((rand r2).1 % 10 : Nat) : Int), ((17 + (rand r3).1 % 8 : Nat) : Int)),
        (rand r3).2)
  else
    let r2 := (rand r1).2
    ((flag_floor, (((rand r1).1 % 10 : Nat) : Int), ((8 + (rand r2).1 % 9 : Nat) : Int)),
      (rand r2).2)

/-- The `do ... while (flag_floor == 0 && is_in_bawana(flag_width, flag_length))`
loop of the root variant's `initialize_game`, for at most `fuel` iterations;
`none` when the bound is reached. -/
def root_generate_flag : Nat → Rng → Option ((Int × Int × Int) × Rng)
  | 0, _ => none
  | fuel + 1, r =>
    let d := root_draw_flag r
    if d.1.1 = 0 ∧ is_in_bawana d.1.2.1 d.1.2.2 = true then root_generate_flag fuel d.2
    else some d

/-- The array `effects` of the root variant's `initialize_bawana_area` as filled
by its first two loops: 3 of each special tag, then 4 random-points tags. -/
def root_initial_effects : List BawanaEffect :=
  let e := (List.range 3).foldl (fun e _ =>
    e ++ [BawanaEffect.BAWANA_FOOD_POISONING, BawanaEffect.BAWANA_DISORIENTED,
          BawanaEffect.BAWANA_TRIGGERED, BawanaEffect.BAWANA_HAPPY]) []
  (List.range 4).foldl (fun e _ => e ++ [BawanaEffect.BAWANA_RANDOM_POINTS]) e

/-- The assignment `maze[0][w][l].bawana_effect = effects[idx++]` of the root
variant, which has no guard on `idx`; the state is the cell table and `idx`, and
`none` is a read outside the array. -/
def root_assign_step (effects : List BawanaEffect) (s : Option (Maze × Nat)) (c : Int × Int) :
    Option (Maze × Nat) :=
  match s with
  | none => none
  | some (maze, idx) =>
    match effects.get? idx with
    | none => none
    | some e => some (set_bawana_effect maze c.1 c.2 e, idx + 1)

/-- The values of `idx` at the reads `effects[idx++]` of the root variant's
assignment loop, in order (ghost trace of the loop counter). -/
def root_read_indices : List Nat :=
  (assignment_cells.foldl (fun (s : List Nat × Nat) _ => (s.1 ++ [s.2], s.2 + 1)) ([], 0)).1

/-- The model of the root variant's `initialize_bawana_area`; `none` when a read
of `effects` is outside the array. -/
def root_initialize_bawana_area (maze : Maze) (r : Rng) : Option (Maze × Rng) :=
  let sh := shuffle_effects root_initial_effects r
  ((assignment_cells.foldl (root_assign_step sh.1) (some (maze, 0))).map
    (fun s => (s.1, sh.2)))

/-! ## Frames and invariants of a turn (specification side) -/

/-- The part of the game that a turn only reads is the same in `h` as in `g`:
stairs (cells and flags), poles, walls, cell table, flag position and round
counter. -/
def same_board (g h : Game) : Prop :=
  h.stairs = g.stairs ∧ h.poles = g.poles ∧ h.walls = g.walls ∧ h.maze = g.maze ∧
  h.flag_floor = g.flag_floor ∧ h.flag_width = g.flag_width ∧
  h.flag_length = g.flag_length ∧ h.round_count = g.round_count

/-- A relation `R` between a player before and after is closed under what a turn
on the board of `g` can do to a player: it is transitive, holds when name,
position, balance and `in_bawana` are kept, and holds for the 2-point penalty
with its balance check, a step onto an accessible cell, the cell effect at the
player's own cell, a stair or pole transition, the recovery effect, a transport,
the reset of a captured player and the placing on the entry cell. -/
structure turn_closed (g : Game) (R : Player → Player → Prop) : Prop where
  chain : ∀ p q s : Player, R p q → R q s → R p s
  fields : ∀ p q : Player, q.name = p.name → q.floor = p.floor → q.width = p.width →
    q.length = p.length → q.movement_points = p.movement_points →
    q.in_bawana = p.in_bawana → R p q
  penalty : ∀ (p : Player) (r : Rng),
    R p (check_and_cap_movement_points g.maze
      { p with movement_points := p.movement_points - 2 } r).1
  walk : ∀ (p : Player) (w l : Int), is_floor_accessible p.floor w l = true →
    R p { p with width := w, length := l }
  effect : ∀ (p : Player) (r : Rng),
    R p (apply_cell_effects g.maze p p.floor p.width p.length r).1
  transition : ∀ p : Player, R p (check_and_use_stairs_poles g.stairs g.poles p).1
  recovery : ∀ (p : Player) (r : Rng), R p (apply_bawana_effect g.maze p r).1
  transport : ∀ (p : Player) (r : Rng), R p (transport_to_bawana g.maze p r).1
  reset : ∀ p : Player, R p (capture_reset p)
  entry : ∀ p : Player, R p (entry_cell p)

/-- The state `h` inside a turn that started in `g`: same board, `game_over`
and `winner` untouched so far, every player related to the one before. -/
def linked (g : Game) (R : Player → Player → Prop) (h : Game) : Prop :=
  same_board g h ∧ h.game_over = g.game_over ∧ h.winner = g.winner ∧
  ∀ j, R (g.players j) (h.players j)

/-- The state `h` at the end of a turn of seat `idx` that started in `g`: same
board, every player related to the one before, and either `game_over` and
`winner` are untouched or the turn has set them with the mover on the flag. -/
def turn_result (g : Game) (R : Player → Player → Prop) (idx : Fin 3) (h : Game) : Prop :=
  same_board g h ∧ (∀ j, R (g.players j) (h.players j)) ∧
  ((h.game_over = g.game_over ∧ h.winner = g.winner) ∨
   (h.game_over = true ∧ h.winner = (h.players idx).name ∧
    at_flag h (h.players idx) = true))

/-- The balance lies in [1, 1000]. -/
def points_in_range (p : Player) : Prop :=
  1 ≤ p.movement_points ∧ p.movement_points ≤ 1000

/-- The player's cell is a valid position. -/
def on_grid (p : Player) : Prop :=
  is_valid_position p.floor p.width p.length = true

/-- Every stair has two valid end cells and every pole a valid cell on its end
floor. -/
def obstacles_on_grid (stairs : List Stair) (poles : List Pole) : Prop :=
  (∀ s ∈ stairs, is_valid_position s.start_floor s.start_width s.start_length = true ∧
    is_valid_position s.end_floor s.end_width s.end_length = true) ∧
  (∀ q ∈ poles, is_valid_position q.end_floor q.width q.length = true)

/-- The states reached from `s0` by calls of `play_turn` (any seat, any bound
on the recursion, the random source handed on) and by heads of rounds. -/
inductive after_turns (s0 : Game × Rng) : Game × Rng → Prop
  | start : after_turns s0 s0
  | turn (s s1 : Game × Rng) (fuel : Nat) (idx : Fin 3) :
      after_turns s0 s → play_turn fuel s.1 s.2 idx = some s1 → after_turns s0 s1
  | round (s : Game × Rng) : after_turns s0 s → after_turns s0 (round_start s.1 s.2)

/-- The model of `initialize_game` (canonical variant): no stairs, poles or
walls, `game_over = false`, `winner = '\0'`, `round_count = 0`, then the players,
the cell table and the recovery tags.  The flag fields are not written. -/
def initialize_game (g : Game) (r : Rng) : Game × Rng :=
  let g1 := { g with
    stairs := [], poles := [], walls := [], game_over := false, winner := '\x00',
    round_count := 0 }
  let g2 := initialize_players g1
  let m := initialize_maze_cells g2.maze r
  let b := initialize_bawana_area m.1 m.2
  ({ g2 with maze := b.1 }, b.2)

/-- The state `h` differs from `g` at most in what the four loaders of `main`
write after `initialize_game`: stairs, poles, walls and the flag position. -/
def loaded_from (g h : Game) : Prop :=
  h.players = g.players ∧ h.maze = g.maze ∧ h.game_over = g.game_over ∧
  h.winner = g.winner ∧ h.round_count = g.round_count

/-- Mover `A` at floor 0, width 3, length 3 facing SOUTH with balance 100; the
flag on the next cell to the SOUTH, (0,3,4); every cell consumes 1 point; no
stairs, poles or walls. -/
def win_game : Game :=
  { players := fun i =>
      if i = 0 then ⟨'A', 0, 3, 3, .SOUTH, true, 0, 100, 0, 0, false, false, .NORTH⟩
      else if i = 1 then idle_B else idle_C
    stairs := [], poles := [], walls := [], maze := demo_maze
    flag_floor := 0, flag_width := 3, flag_length := 4
    game_over := false, winner := '\x00', round_count := 0 }

/-- The loop `for (i = 0; i < game->num_walls; i++)` of `is_path_blocked_by_wall`
from the loop variable `i` on: `game->walls[i]` is read from the current game,
a blocking wall returns true, and the loop ends with false when `i` reaches
`num_walls`.  `n` bounds the iterations left. -/
def wall_scan_call (floor start_w start_l end_w end_l : Int) : Nat → Nat → Game → Bool × Game
  | 0, _, g => (false, g)
  | n + 1, i, g =>
    match g.walls.get? i with
    | none => (false, g)
    | some wall =>
      if wall_blocks wall floor start_w start_l end_w end_l then (true, g)
      else wall_scan_call floor start_w start_l end_w end_l n (i + 1) g

/-- A call `is_path_blocked_by_wall(game, floor, start_w, start_l, end_w, end_l)`:
the answer and the game after the call. -/
def is_path_blocked_by_wall_call (g : Game) (floor start_w start_l end_w end_l : Int) :
    Bool × Game :=
  wall_scan_call floor start_w start_l end_w end_l g.walls.length 0 g

/-- A call `can_move_single_step(game, floor, from_w, from_l, to_w, to_l)`: the
answer and the game after the call. -/
def can_move_single_step_call (g : Game) (floor from_w from_l to_w to_l : Int) : Bool × Game :=
  if !is_floor_accessible floor to_w to_l then (false, g)
  else
    let b := is_path_blocked_by_wall_call g floor from_w from_l to_w to_l
    if b.1 then (false, b.2) else (true, b.2)

/-! ## Walls: characterisation of the blocking test -/

theorem wall_blocks_iff (wall : Wall) (floor from_w from_l to_w to_l : Int) :
    wall_blocks wall floor from_w from_l to_w to_l = true ↔
      wall_collinear_with_step wall from_w from_l to_w to_l ∧
      wall_overlaps_step wall floor from_w from_l to_w to_l := by
  unfold wall_blocks wall_collinear_with_step wall_overlaps_step intervals_overlap
  by_cases hf : wall.floor = floor
  · by_cases hc : (from_w = to_w ∧ wall.start_width = wall.end_width ∧ wall.start_width = from_w) ∨
          (from_l = to_l ∧ wall.start_length = wall.end_length ∧ wall.start_length = from_l)
    · simp only [hf, ne_eq, not_true_eq_false, if_false, hc, if_true, true_and]
      simp only [Bool.not_eq_true', Bool.or_eq_false_iff, decide_eq_false_iff_not, not_lt,
        gt_iff_lt]
      omega
    · simp [hf, hc]
  · simp [hf]

theorem is_path_blocked_by_wall_iff (walls : List Wall) (floor from_w from_l to_w to_l : Int) :
    is_path_blocked_by_wall walls floor from_w from_l to_w to_l = true ↔
      ∃ wall ∈ walls, wall_blocks wall floor from_w from_l to_w to_l = true := by
  induction walls with
  | nil => simp [is_path_blocked_by_wall]
  | cons wall rest ih =>
    unfold is_path_blocked_by_wall
    by_cases h : wall_blocks wall floor from_w from_l to_w to_l = true
    · simp [h]
    · simp [h, ih]

/-- C1 (as stated, refuted): the unit step SOUTH from length 9 to length 10 at
width 3 overlaps the wall with widths 0..9 at length 10 on floor 0 in both closed
intervals, yet `is_path_blocked_by_wall` does not report it as blocked. -/
theorem C1_perpendicular_step_not_blocked :
    unit_step 3 9 3 10 ∧
    ¬ (is_path_blocked_by_wall [⟨0, 0, 10, 9, 10⟩] 0 3 9 3 10 = true ↔
        ∃ wall ∈ [(⟨0, 0, 10, 9, 10⟩ : Wall)], wall_overlaps_step wall 0 3 9 3 10) := by
  decide

/-- C1 (amended): `is_path_blocked_by_wall` returns true exactly when some wall
on the floor is collinear with the step and has closed width and length
intervals that overlap those of the step. -/
theorem C1_blocked_iff_collinear_overlap (walls : List Wall)
    (floor from_w from_l to_w to_l : Int) :
    is_path_blocked_by_wall walls floor from_w from_l to_w to_l = true ↔
      ∃ wall ∈ walls, wall_collinear_with_step wall from_w from_l to_w to_l ∧
        wall_overlaps_step wall floor from_w from_l to_w to_l := by
  rw [is_path_blocked_by_wall_iff]
  simp only [wall_blocks_iff]

/-! ## Balance cap, transport and recovery effects: closed forms and bounds -/

theorem bawana_switch_points_ge (effect : BawanaEffect) (player : Player) (r : Rng) :
    player.movement_points ≤ (bawana_switch effect player r).1.movement_points := by
  cases effect <;> simp only [bawana_switch, rand] <;> omega

theorem cap_points_le (p : Player) : (cap_points p).movement_points ≤ MAX_MOVEMENT_POINTS := by
  unfold cap_points
  split
  · exact le_refl _
  · omega

theorem cap_points_of_le (p : Player) (h : p.movement_points ≤ MAX_MOVEMENT_POINTS) :
    cap_points p = p := by
  unfold cap_points
  rw [if_neg (by omega)]

theorem cap_points_pos (p : Player) (h : 0 < p.movement_points) :
    0 < (cap_points p).movement_points := by
  unfold cap_points MAX_MOVEMENT_POINTS
  split
  · show (0:Int) < 1000
    decide
  · exact h

/-- With a positive balance `check_and_cap_movement_points` only clamps. -/
theorem check_and_cap_of_pos (maze : Maze) (p : Player) (r : Rng) (h : 0 < p.movement_points) :
    check_and_cap_movement_points maze p r = (cap_points p, r) := by
  rw [check_and_cap_movement_points]
  have := cap_points_pos p h
  rw [if_neg (by omega)]

/-- With a positive balance inside the recovery rectangle `apply_bawana_effect`
applies the switch, clamps, and clears the flag. -/
theorem apply_bawana_effect_of_pos (maze : Maze) (p : Player) (r : Rng)
    (h : 0 < p.movement_points) (hb : is_in_bawana p.width p.length = true) :
    apply_bawana_effect maze p r =
      ({ cap_points (bawana_switch (maze 0 p.width p.length).bawana_effect p r).1 with
          in_bawana := false },
       (bawana_switch (maze 0 p.width p.length).bawana_effect p r).2) := by
  rw [apply_bawana_effect]
  have := bawana_switch_points_ge (maze 0 p.width p.length).bawana_effect p r
  simp only [hb, Bool.not_true, Bool.false_eq_true, if_false]
  rw [check_and_cap_of_pos _ _ _ (by omega)]

theorem apply_bawana_effect_outside (maze : Maze) (p : Player) (r : Rng)
    (hb : is_in_bawana p.width p.length = false) :
    apply_bawana_effect maze p r = (p, r) := by
  rw [apply_bawana_effect]
  simp [hb]

theorem transport_place_in_bawana (p : Player) (v : Nat) :
    is_in_bawana (transport_place p v).width (transport_place p v).length = true := by
  have h : v % 20 < 20 := Nat.mod_lt _ (by decide)
  unfold transport_place
  generalize v % 20 = i at h
  interval_cases i <;> rfl

theorem transport_place_points (p : Player) (v : Nat) :
    (transport_place p v).movement_points = 10 := rfl

/-- Closed form of `transport_to_bawana`. -/
theorem transport_to_bawana_eq (maze : Maze) (p : Player) (r : Rng) :
    transport_to_bawana maze p r =
      ({ cap_points (bawana_switch
            (maze 0 (transport_place p (rand r).1).width
              (transport_place p (rand r).1).length).bawana_effect
            (transport_place p (rand r).1) (rand r).2).1 with in_bawana := false },
       (bawana_switch
            (maze 0 (transport_place p (rand r).1).width
              (transport_place p (rand r).1).length).bawana_effect
            (transport_place p (rand r).1) (rand r).2).2) := by
  rw [transport_to_bawana]
  rw [apply_bawana_effect_of_pos _ _ _ (by rw [transport_place_points]; decide)
    (transport_place_in_bawana _ _)]

theorem check_and_cap_of_nonpos (maze : Maze) (p : Player) (r : Rng)
    (h : p.movement_points ≤ 0) :
    check_and_cap_movement_points maze p r = transport_to_bawana maze p r := by
  rw [check_and_cap_movement_points]
  have h1 : cap_points p = p := cap_points_of_le p (by unfold MAX_MOVEMENT_POINTS; omega)
  rw [h1, if_pos h]

theorem check_and_cap_points_le (maze : Maze) (p : Player) (r : Rng) :
    (check_and_cap_movement_points maze p r).1.movement_points ≤ MAX_MOVEMENT_POINTS := by
  by_cases h : 0 < p.movement_points
  · rw [check_and_cap_of_pos _ _ _ h]
    exact cap_points_le p
  · rw [check_and_cap_of_nonpos _ _ _ (by omega), transport_to_bawana_eq]
    exact cap_points_le _

theorem apply_cell_effects_points_le (maze : Maze) (p : Player) (f w l : Int) (r : Rng)
    (h : p.movement_points ≤ MAX_MOVEMENT_POINTS) :
    (apply_cell_effects maze p f w l r).1.movement_points ≤ MAX_MOVEMENT_POINTS := by
  unfold apply_cell_effects
  split
  · exact h
  · dsimp only
    split <;> exact check_and_cap_points_le _ _ _

theorem apply_bawana_effect_points_le (maze : Maze) (p : Player) (r : Rng)
    (hb : is_in_bawana p.width p.length = true) :
    (apply_bawana_effect maze p r).1.movement_points ≤ MAX_MOVEMENT_POINTS := by
  rw [apply_bawana_effect]
  simp only [hb, Bool.not_true, Bool.false_eq_true, if_false]
  exact check_and_cap_points_le _ _ _

/-- C5: the balance never exceeds `MAX_MOVEMENT_POINTS` on return from
`check_and_cap_movement_points` (for every starting balance), and for a player
that starts with at most `MAX_MOVEMENT_POINTS` it does not exceed it on return
from `apply_cell_effects` nor, when the player stands in the recovery rectangle,
from `apply_bawana_effect`. -/
theorem C5_balance_capped (maze : Maze) (p : Player) (r : Rng) (f w l : Int) :
    MAX_MOVEMENT_POINTS = 1000 ∧
    (check_and_cap_movement_points maze p r).1.movement_points ≤ 1000 ∧
    (p.movement_points ≤ 1000 →
      (apply_cell_effects maze p f w l r).1.movement_points ≤ 1000) ∧
    (p.movement_points ≤ 1000 → is_in_bawana p.width p.length = true →
      (apply_bawana_effect maze p r).1.movement_points ≤ 1000) :=
  ⟨rfl, check_and_cap_points_le maze p r,
   fun h => apply_cell_effects_points_le maze p f w l r h,
   fun _ hb => apply_bawana_effect_points_le maze p r hb⟩

/-- The witness of C5: the claim at a concrete player, cell table and draw. -/
theorem C5_balance_capped_witness :
    MAX_MOVEMENT_POINTS = 1000 ∧
    (check_and_cap_movement_points demo_maze demo_player zero_rng).1.movement_points ≤ 1000 ∧
    (apply_cell_effects demo_maze demo_player 0 3 4 zero_rng).1.movement_points ≤ 1000 ∧
    (apply_bawana_effect demo_maze { demo_player with width := 6, length := 20 }
      zero_rng).1.movement_points ≤ 1000 :=
  ⟨(C5_balance_capped demo_maze demo_player zero_rng 0 3 4).1,
   (C5_balance_capped demo_maze demo_player zero_rng 0 3 4).2.1,
   (C5_balance_capped demo_maze demo_player zero_rng 0 3 4).2.2.1 (by decide),
   (C5_balance_capped demo_maze { demo_player with width := 6, length := 20 } zero_rng
      0 3 4).2.2.2 (by decide) (by decide)⟩

/-! ## A depleting consume effect -/

theorem bawana_switch_points_le (effect : BawanaEffect) (player : Player) (r : Rng) :
    (bawana_switch effect player r).1.movement_points ≤ player.movement_points + 200 := by
  cases effect <;> simp only [bawana_switch, rand] <;> omega

theorem bawana_switch_position (effect : BawanaEffect) (player : Player) (r : Rng) :
    ((bawana_switch effect player r).1.floor = player.floor ∧
     (bawana_switch effect player r).1.width = player.width ∧
     (bawana_switch effect player r).1.length = player.length) ∨
    ((bawana_switch effect player r).1.floor = 0 ∧
     (bawana_switch effect player r).1.width = 9 ∧
     (bawana_switch effect player r).1.length = 19) := by
  cases effect <;> simp [bawana_switch]

/-- C8: a consume effect that takes the whole positive balance sends the player
to the recovery cell drawn by `rand() % 20` with balance 10, applies the recovery
effect of that cell, clears `in_bawana` and reports the consumed amount; the
player ends on floor 0 in the recovery rectangle or at its entrance (9,19). -/
theorem C8_depleting_consume_transports (maze : Maze) (p : Player) (f w l : Int) (r : Rng)
    (_hb : 0 < p.movement_points) (hv : is_valid_position f w l = true)
    (ht : (maze f w l).effect_type = .EFFECT_CONSUMABLE)
    (hval : (maze f w l).effect_value = p.movement_points) :
    ∃ cw cl : Int, bawana_positions.get? ((rand r).1 % 20) = some (cw, cl) ∧
      is_in_bawana cw cl = true ∧
      (apply_cell_effects maze p f w l r).1 =
        { (bawana_switch (maze 0 cw cl).bawana_effect
            { p with
                floor := 0, width := cw, length := cl, in_bawana := true,
                movement_points := 10 } (rand r).2).1 with in_bawana := false } ∧
      (apply_cell_effects maze p f w l r).2.2 =
        (bawana_switch (maze 0 cw cl).bawana_effect
            { p with
                floor := 0, width := cw, length := cl, in_bawana := true,
                movement_points := 10 } (rand r).2).2 ∧
      (apply_cell_effects maze p f w l r).2.1 = p.movement_points ∧
      (apply_cell_effects maze p f w l r).1.floor = 0 ∧
      (is_in_bawana (apply_cell_effects maze p f w l r).1.width
          (apply_cell_effects maze p f w l r).1.length = true ∨
        ((apply_cell_effects maze p f w l r).1.width = 9 ∧
         (apply_cell_effects maze p f w l r).1.length = 19)) ∧
      (apply_cell_effects maze p f w l r).1.in_bawana = false := by
  have hlt : (rand r).1 % 20 < bawana_positions.length := Nat.mod_lt _ (by decide)
  obtain ⟨q, hq⟩ : ∃ q : Player, q = { p with movement_points := p.movement_points - p.movement_points } :=
    ⟨_, rfl⟩
  have hplace := transport_place_in_bawana q (rand r).1
  have hsw := bawana_switch_points_le
    (maze 0 (transport_place q (rand r).1).width (transport_place q (rand r).1).length).bawana_effect
    (transport_place q (rand r).1) (rand r).2
  have hpos := bawana_switch_position
    (maze 0 (transport_place q (rand r).1).width (transport_place q (rand r).1).length).bawana_effect
    (transport_place q (rand r).1) (rand r).2
  have happ : apply_cell_effects maze p f w l r =
      ((transport_to_bawana maze q r).1, p.movement_points, (transport_to_bawana maze q r).2) := by
    unfold apply_cell_effects
    simp only [hv, Bool.not_true, Bool.false_eq_true, if_false, ht, hval]
    rw [check_and_cap_of_nonpos _ _ _ (by simp), hq]
  have hget : bawana_positions.get? ((rand r).1 % 20) =
      some ((transport_place q (rand r).1).width, (transport_place q (rand r).1).length) := by
    rw [List.get?_eq_get hlt]
    simp [transport_place, List.getD_eq_getElem?_getD, List.getElem?_eq_getElem hlt]
  have hpl : transport_place q (rand r).1 =
      { p with floor := 0, width := (transport_place q (rand r).1).width,
               length := (transport_place q (rand r).1).length, in_bawana := true,
               movement_points := 10 } := by
    rw [hq]; rfl
  refine ⟨(transport_place q (rand r).1).width, (transport_place q (rand r).1).length, hget,
    hplace, ?_⟩
  rw [happ, transport_to_bawana_eq]
  rw [cap_points_of_le _ (by
    rw [transport_place_points] at hsw; unfold MAX_MOVEMENT_POINTS; omega)]
  rw [← hpl]
  refine ⟨rfl, rfl, rfl, ?_, ?_, rfl⟩
  · rcases hpos with h | h
    · exact h.1
    · exact h.1
  · rcases hpos with h | h
    · left
      show is_in_bawana (bawana_switch _ _ _).1.width (bawana_switch _ _ _).1.length = true
      rw [h.2.1, h.2.2]; exact hplace
    · right
      exact ⟨h.2.1, h.2.2⟩

/-- The witness of C8: balance 1 on a cell that consumes 1. -/
theorem C8_depleting_consume_transports_witness :
    ∃ cw cl : Int, bawana_positions.get? ((rand zero_rng).1 % 20) = some (cw, cl) ∧
      is_in_bawana cw cl = true ∧
      (apply_cell_effects demo_maze demo_player 0 3 4 zero_rng).1 =
        { (bawana_switch (demo_maze 0 cw cl).bawana_effect
            { demo_player with
                floor := 0, width := cw, length := cl, in_bawana := true,
                movement_points := 10 } (rand zero_rng).2).1 with in_bawana := false } ∧
      (apply_cell_effects demo_maze demo_player 0 3 4 zero_rng).2.2 =
        (bawana_switch (demo_maze 0 cw cl).bawana_effect
            { demo_player with
                floor := 0, width := cw, length := cl, in_bawana := true,
                movement_points := 10 } (rand zero_rng).2).2 ∧
      (apply_cell_effects demo_maze demo_player 0 3 4 zero_rng).2.1 = demo_player.movement_points ∧
      (apply_cell_effects demo_maze demo_player 0 3 4 zero_rng).1.floor = 0 ∧
      (is_in_bawana (apply_cell_effects demo_maze demo_player 0 3 4 zero_rng).1.width
          (apply_cell_effects demo_maze demo_player 0 3 4 zero_rng).1.length = true ∨
        ((apply_cell_effects demo_maze demo_player 0 3 4 zero_rng).1.width = 9 ∧
         (apply_cell_effects demo_maze demo_player 0 3 4 zero_rng).1.length = 19)) ∧
      (apply_cell_effects demo_maze demo_player 0 3 4 zero_rng).1.in_bawana = false :=
  C8_depleting_consume_transports demo_maze demo_player 0 3 4 zero_rng (by decide) (by decide)
    rfl rfl

/-! ## Movement resolver: blocked first step -/

theorem setPlayer_players_same (g : Game) (i : Fin 3) (p : Player) :
    (g.setPlayer i p).players i = p := by
  simp [Game.setPlayer]

theorem setPlayer_players_other (g : Game) (i j : Fin 3) (p : Player) (h : j ≠ i) :
    (g.setPlayer i p).players j = g.players j := by
  simp [Game.setPlayer, Function.update_noteq h]

theorem capture_scan_from_mover (g : Game) (idx : Fin 3) (seats : List (Fin 3)) :
    (capture_scan_from g idx seats).players idx = g.players idx := by
  induction seats with
  | nil => rfl
  | cons i rest ih =>
    unfold capture_scan_from
    split
    · rename_i h
      unfold capture_player
      exact setPlayer_players_other _ _ _ _ (Ne.symm h.1)
    · exact ih

/-- The capture scan never changes the mover. -/
theorem capture_scan_mover (g : Game) (idx : Fin 3) :
    (capture_scan g idx).players idx = g.players idx :=
  capture_scan_from_mover g idx _

/-- A blocked first step: the call charges 2 points, runs the balance check and
the capture scan, and commits no step. -/
theorem move_blocked_first_step (fuel : Nat) (g : Game) (r : Rng) (idx : Fin 3)
    (dir : Direction) (steps : Int) (dw dl : Int)
    (hdir : step_offset dir = some (dw, dl)) (hs : 1 ≤ steps)
    (hblocked : can_move_single_step g.walls (g.players idx).floor (g.players idx).width
      (g.players idx).length ((g.players idx).width + dw) ((g.players idx).length + dl) = false) :
    move_player_with_effects (fuel + 1) g r idx dir steps =
      some (capture_scan (g.setPlayer idx (check_and_cap_movement_points g.maze
          { g.players idx with movement_points := (g.players idx).movement_points - 2 } r).1) idx,
        (check_and_cap_movement_points g.maze
          { g.players idx with movement_points := (g.players idx).movement_points - 2 } r).2, 0) := by
  unfold move_player_with_effects
  obtain ⟨n, hn⟩ : ∃ n, (if (g.players idx).triggered = true then steps * 2 else steps).toNat = n + 1 := by
    refine Nat.exists_eq_succ_of_ne_zero ?_
    split <;> omega
  simp only [hn]
  unfold move_loop
  simp only [hdir, hblocked, Bool.not_false, if_true]

/-- C10: when the first step is blocked and the balance `b` satisfies
`3 ≤ b ≤ 1000`, the call returns with the mover's floor, width and length
unchanged and the balance `b - 2`. -/
theorem C10_blocked_first_step_penalty (fuel : Nat) (g : Game) (r : Rng) (idx : Fin 3)
    (dir : Direction) (steps : Int) (dw dl : Int)
    (hdir : step_offset dir = some (dw, dl)) (hs : 1 ≤ steps)
    (hblocked : can_move_single_step g.walls (g.players idx).floor (g.players idx).width
      (g.players idx).length ((g.players idx).width + dw) ((g.players idx).length + dl) = false)
    (hlo : 3 ≤ (g.players idx).movement_points) (hhi : (g.players idx).movement_points ≤ 1000) :
    ∃ res : MoveResult, move_player_with_effects (fuel + 1) g r idx dir steps = some res ∧
      (res.1.players idx).floor = (g.players idx).floor ∧
      (res.1.players idx).width = (g.players idx).width ∧
      (res.1.players idx).length = (g.players idx).length ∧
      (res.1.players idx).movement_points = (g.players idx).movement_points - 2 := by
  refine ⟨_, move_blocked_first_step fuel g r idx dir steps dw dl hdir hs hblocked, ?_⟩
  simp only [capture_scan_mover, setPlayer_players_same]
  rw [check_and_cap_of_pos _ _ _ (by show 0 < (g.players idx).movement_points - 2; omega)]
  rw [cap_points_of_le _ (by
    show (g.players idx).movement_points - 2 ≤ MAX_MOVEMENT_POINTS
    unfold MAX_MOVEMENT_POINTS; omega)]
  exact ⟨rfl, rfl, rfl, rfl⟩

/-- The witness of C10: the mover at (0,3,10) moving EAST along the wall with
widths 0..9 at length 10. -/
theorem C10_blocked_first_step_penalty_witness :
    ∃ res : MoveResult, move_player_with_effects 1 wall_game zero_rng 0 .EAST 3 = some res ∧
      (res.1.players 0).floor = (wall_game.players 0).floor ∧
      (res.1.players 0).width = (wall_game.players 0).width ∧
      (res.1.players 0).length = (wall_game.players 0).length ∧
      (res.1.players 0).movement_points = (wall_game.players 0).movement_points - 2 :=
  C10_blocked_first_step_penalty 0 wall_game zero_rng 0 .EAST 3 1 0 rfl (by decide) (by decide)
    (by decide) (by decide)

/-! ## Movement resolver: executions on concrete games -/

/-- C2 (code at the failing input): the first step SOUTH is allowed and commits
mover `A` (balance 1) onto the flag cell (0,3,4), whose effect consumes 1; the
call returns with `game_over` still false and no winner, after committing a
second step, with the mover in the recovery area at (0,9,20). -/
theorem C2_flag_cell_depletion_no_win (fuel : Nat) :
    can_move_single_step flag_game.walls 0 3 3 3 4 = true ∧
    (flag_game.flag_floor, flag_game.flag_width, flag_game.flag_length) = (0, 3, 4) ∧
    (move_player_with_effects (fuel + 1) flag_game zero_rng 0 .SOUTH 2).map
      (fun res => (res.1.game_over, res.1.winner, res.2.2, (res.1.players 0).floor,
        (res.1.players 0).width, (res.1.players 0).length)) =
      some (false, '\x00', 2, 0, 9, 20) := by
  refine ⟨by decide, rfl, ?_⟩
  simp [move_player_with_effects, move_loop, flag_game, demo_player, step_offset,
    can_move_single_step, is_floor_accessible, is_valid_position, is_path_blocked_by_wall,
    MAX_FLOORS, MAZE_WIDTH, MAZE_LENGTH, apply_cell_effects, demo_maze, demo_tags, check_and_cap_of_pos,
    check_and_cap_of_nonpos, transport_to_bawana_eq, transport_place, rand, zero_rng,
    bawana_positions, bawana_switch, apply_bawana_effect_of_pos, cap_points,
    MAX_MOVEMENT_POINTS, at_flag, check_and_use_stairs_poles, use_stairs, use_poles,
    Game.setPlayer, is_in_bawana, capture_scan, capture_scan_from, idle_B, idle_C]

/-- C3 (code at the failing input): a triggered mover asked for 2 steps commits 7
unit steps, more than 2 * 2: after the stair taken on the first step the 3
remaining steps are doubled again by the resumed call. -/
theorem C3_triggered_resumption_commits_seven (fuel : Nat) :
    (stair_game.players 0).triggered = true ∧
    (move_player_with_effects (fuel + 2) stair_game zero_rng 0 .EAST 2).map
      (fun res => (res.2.2, (res.1.players 0).floor, (res.1.players 0).width,
        (res.1.players 0).length)) = some (7, 1, 6, 5) := by
  refine ⟨rfl, ?_⟩
  simp [move_player_with_effects, move_loop, stair_game, step_offset, can_move_single_step,
    is_floor_accessible, is_valid_position, is_path_blocked_by_wall, MAX_FLOORS, MAZE_WIDTH,
    MAZE_LENGTH, apply_cell_effects, free_maze, demo_tags, check_and_cap_of_pos, cap_points,
    MAX_MOVEMENT_POINTS, at_flag, check_and_use_stairs_poles, use_stairs, use_poles,
    Game.setPlayer, is_in_bawana, capture_scan, capture_scan_from, idle_B, idle_C]

/-- C9 (code at the failing input): the first step EAST consumes the mover's last
point, so the transport fires inside `apply_cell_effects`; the call nevertheless
takes the stair at the entrance, commits a second step and applies a second
recovery effect: 2 steps are committed and the balance ends at
10 + 200 - 1 + 200 = 409. -/
theorem C9_loop_continues_after_transport (fuel : Nat) :
    (apply_cell_effects depletion_game.maze
      { depletion_game.players 0 with width := 4 } 0 4 3 zero_rng).1.movement_points = 210 ∧
    (move_player_with_effects (fuel + 2) depletion_game zero_rng 0 .EAST 2).map
      (fun res => (res.2.2, (res.1.players 0).movement_points, (res.1.players 0).floor,
        (res.1.players 0).width, (res.1.players 0).length)) = some (2, 409, 0, 9, 19) := by
  constructor
  · simp [depletion_game, demo_player, is_valid_position,
      MAX_FLOORS, MAZE_WIDTH, MAZE_LENGTH, apply_cell_effects, demo_maze, demo_tags, check_and_cap_of_pos,
      check_and_cap_of_nonpos, transport_to_bawana_eq, transport_place, rand, zero_rng,
      bawana_positions, bawana_switch, cap_points, MAX_MOVEMENT_POINTS]
  · simp [move_player_with_effects, move_loop, depletion_game, demo_player, step_offset,
      can_move_single_step, is_floor_accessible, is_valid_position, is_path_blocked_by_wall,
      MAX_FLOORS, MAZE_WIDTH, MAZE_LENGTH, apply_cell_effects, demo_maze, demo_tags, check_and_cap_of_pos,
      check_and_cap_of_nonpos, transport_to_bawana_eq, transport_place, rand, zero_rng,
      bawana_positions, bawana_switch, apply_bawana_effect_of_pos, cap_points,
      MAX_MOVEMENT_POINTS, at_flag, check_and_use_stairs_poles, use_stairs, use_poles,
      Game.setPlayer, is_in_bawana, capture_scan, capture_scan_from, idle_B, idle_C]

/-! ## Movement resolver: a call that never returns -/

theorem loop_game_setPlayer (a b : Int) :
    (loop_game a).setPlayer 0 (loop_mover b) = loop_game b := by
  unfold loop_game Game.setPlayer
  congr 1
  funext i
  by_cases h : i = 0
  · subst h; simp
  · simp [Function.update_noteq h, h]

/-- One call from floor 0 resumes, after the stair, with the same request on
floor 1. -/
theorem loop_game_step_floor0 (fuel : Nat) (r : Rng) :
    move_player_with_effects (fuel + 1) (loop_game 0) r 0 .EAST 1 =
      (move_player_with_effects fuel (loop_game 1) r 0 .EAST 1).map
        (fun res => (res.1, res.2.1, 0 + 1 + res.2.2)) := by
  rw [← loop_game_setPlayer 0 1]
  simp [move_player_with_effects, move_loop, loop_game, loop_mover, loop_stairs, step_offset,
    can_move_single_step, is_floor_accessible, is_valid_position, is_path_blocked_by_wall,
    MAX_FLOORS, MAZE_WIDTH, MAZE_LENGTH, apply_cell_effects, free_maze, demo_tags, check_and_cap_of_pos,
    cap_points, MAX_MOVEMENT_POINTS, at_flag, check_and_use_stairs_poles, use_stairs, use_poles,
    Game.setPlayer, is_in_bawana]

theorem loop_game_step_floor1 (fuel : Nat) (r : Rng) :
    move_player_with_effects (fuel + 1) (loop_game 1) r 0 .EAST 1 =
      (move_player_with_effects fuel (loop_game 0) r 0 .EAST 1).map
        (fun res => (res.1, res.2.1, 0 + 1 + res.2.2)) := by
  rw [← loop_game_setPlayer 1 0]
  simp [move_player_with_effects, move_loop, loop_game, loop_mover, loop_stairs, step_offset,
    can_move_single_step, is_floor_accessible, is_valid_position, is_path_blocked_by_wall,
    MAX_FLOORS, MAZE_WIDTH, MAZE_LENGTH, apply_cell_effects, free_maze, demo_tags, check_and_cap_of_pos,
    cap_points, MAX_MOVEMENT_POINTS, at_flag, check_and_use_stairs_poles, use_stairs, use_poles,
    Game.setPlayer, is_in_bawana]

theorem loop_game_never_returns (fuel : Nat) (r : Rng) :
    move_player_with_effects fuel (loop_game 0) r 0 .EAST 1 = none ∧
    move_player_with_effects fuel (loop_game 1) r 0 .EAST 1 = none := by
  induction fuel with
  | zero => exact ⟨rfl, rfl⟩
  | succ n ih =>
    rw [loop_game_step_floor0, loop_game_step_floor1, ih.1, ih.2]
    exact ⟨rfl, rfl⟩

/-- C4 (code at the failing input): with two stairs that lead back to the cell
before the first one, a triggered mover asked for 1 step never returns: the call
reaches every recursion bound, for every random source. -/
theorem C4_triggered_stair_cycle_diverges (fuel : Nat) (r : Rng) :
    move_player_with_effects fuel (loop_game 0) r 0 .EAST 1 = none :=
  (loop_game_never_returns fuel r).1

/-! ## Setup of the cell table: loop invariants -/

theorem foldl_invariant {σ α : Type} (step : σ → α → σ) (Q : σ → Prop)
    (hpres : ∀ s a, Q s → Q (step s a)) (xs : List α) (s : σ) (h : Q s) :
    Q (xs.foldl step s) := by
  induction xs generalizing s with
  | nil => exact h
  | cons a rest ih => exact ih _ (hpres s a h)

theorem foldl_establishes {σ α : Type} (step : σ → α → σ) (Q : σ → Prop) (T : α → Prop)
    (hpres : ∀ s a, Q s → Q (step s a)) (hest : ∀ s a, T a → Q (step s a))
    (xs : List α) (s : σ) (h : ∃ a ∈ xs, T a) : Q (xs.foldl step s) := by
  induction xs generalizing s with
  | nil => simp at h
  | cons a rest ih =>
    rcases h with ⟨b, hb, hT⟩
    rcases List.mem_cons.mp hb with rfl | hmem
    · exact foldl_invariant step Q hpres rest _ (hest s b hT)
    · exact ih _ ⟨b, hmem, hT⟩

theorem draw_cell_tag (r : Rng) : (draw_cell r).1.bawana_effect = .BAWANA_RANDOM_POINTS := by
  unfold draw_cell
  dsimp only
  repeat' split
  all_goals rfl

theorem init_cell_step_keeps (f w : Nat) (s : Maze × Rng) (l : Nat) (f1 w1 l1 : Int)
    (h : (s.1 f1 w1 l1).bawana_effect = .BAWANA_RANDOM_POINTS) :
    ((init_cell_step f w s l).1 f1 w1 l1).bawana_effect = .BAWANA_RANDOM_POINTS := by
  unfold init_cell_step set_cell
  dsimp only
  split
  · exact draw_cell_tag _
  · exact h

theorem init_cell_step_sets (f w : Nat) (s : Maze × Rng) (l : Nat) :
    ((init_cell_step f w s l).1 f w l).bawana_effect = .BAWANA_RANDOM_POINTS := by
  unfold init_cell_step set_cell
  simp [draw_cell_tag]

/-- After `initialize_maze_cells` every cell of the grid carries the
random-points recovery tag. -/
theorem initialize_maze_cells_tag (maze : Maze) (r : Rng) (f w l : Nat)
    (hf : f < 3) (hw : w < 10) (hl : l < 25) :
    ((initialize_maze_cells maze r).1 f w l).bawana_effect = .BAWANA_RANDOM_POINTS := by
  unfold initialize_maze_cells
  refine foldl_establishes _ (fun (s : Maze × Rng) => (s.1 (f : Int) w l).bawana_effect = .BAWANA_RANDOM_POINTS)
    (fun a => a = f) ?_ ?_ _ _ ⟨f, List.mem_range.mpr hf, rfl⟩
  · intro s a hs
    refine foldl_invariant _ (fun (s : Maze × Rng) => (s.1 (f : Int) w l).bawana_effect = .BAWANA_RANDOM_POINTS)
      ?_ _ _ hs
    intro s b hs
    refine foldl_invariant _ (fun (s : Maze × Rng) => (s.1 (f : Int) w l).bawana_effect = .BAWANA_RANDOM_POINTS)
      ?_ _ _ hs
    intro s c hs
    exact init_cell_step_keeps _ _ _ _ _ _ _ hs
  · intro s a ha
    subst ha
    refine foldl_establishes _ (fun (s : Maze × Rng) => (s.1 (a : Int) w l).bawana_effect = .BAWANA_RANDOM_POINTS)
      (fun b => b = w) ?_ ?_ _ _ ⟨w, List.mem_range.mpr hw, rfl⟩
    · intro s b hs
      refine foldl_invariant _ (fun (s : Maze × Rng) => (s.1 (a : Int) w l).bawana_effect = .BAWANA_RANDOM_POINTS)
        ?_ _ _ hs
      intro s c hs
      exact init_cell_step_keeps _ _ _ _ _ _ _ hs
    · intro s b hb
      subst hb
      refine foldl_establishes _
        (fun (s : Maze × Rng) => (s.1 (a : Int) b l).bawana_effect = .BAWANA_RANDOM_POINTS)
        (fun c => c = l) ?_ ?_ _ _ ⟨l, List.mem_range.mpr hl, rfl⟩
      · intro s c hs
        exact init_cell_step_keeps _ _ _ _ _ _ _ hs
      · intro s c hc
        subst hc
        exact init_cell_step_sets _ _ _ _

/-! ### The shuffle permutes -/

theorem swap_effects_length (e : List BawanaEffect) (i j : Nat) :
    (swap_effects e i j).length = e.length := by
  simp [swap_effects]

theorem swap_effects_count (e : List BawanaEffect) (i j : Nat) (hi : i < e.length)
    (hj : j < e.length) (a : BawanaEffect) :
    (swap_effects e i j).count a = e.count a := by
  unfold swap_effects
  rw [List.getD_eq_getElem _ _ hi, List.getD_eq_getElem _ _ hj]
  have hj1 : j < (e.set i e[j]).length := by simpa using hj
  rw [List.count_set _ _ _ _ hj1, List.count_set _ _ _ _ hi]
  have h1 : (e.set i e[j])[j] = e[j] := by
    rw [List.getElem_set]
    split <;> rfl
  rw [h1]
  have h2 := List.boole_getElem_le_countP (fun x => x == a) e i hi
  rw [← List.count_eq_countP] at h2
  simp only [beq_iff_eq] at h2 ⊢
  split <;> split <;> simp_all

theorem shuffle_effects_invariant (e : List BawanaEffect) (r : Rng) (h : e.length = BAWANA_CELLS) :
    (shuffle_effects e r).1.length = BAWANA_CELLS ∧
    ∀ a, (shuffle_effects e r).1.count a = e.count a := by
  unfold shuffle_effects
  have key : ∀ (xs : List Nat) (s : List BawanaEffect × Rng),
      (∀ i ∈ xs, i < BAWANA_CELLS) → s.1.length = BAWANA_CELLS →
      (xs.foldl (fun s i => (swap_effects s.1 i ((rand s.2).1 % BAWANA_CELLS), (rand s.2).2))
          s).1.length = BAWANA_CELLS ∧
      ∀ a, (xs.foldl (fun s i => (swap_effects s.1 i ((rand s.2).1 % BAWANA_CELLS), (rand s.2).2))
          s).1.count a = s.1.count a := by
    intro xs
    induction xs with
    | nil => intro s _ hs; exact ⟨hs, fun _ => rfl⟩
    | cons i rest ih =>
      intro s hxs hs
      have hi : i < s.1.length := by rw [hs]; exact hxs i (List.mem_cons_self _ _)
      have hj : (rand s.2).1 % BAWANA_CELLS < s.1.length := by
        rw [hs]; exact Nat.mod_lt _ (by decide)
      have := ih (swap_effects s.1 i ((rand s.2).1 % BAWANA_CELLS), (rand s.2).2)
        (fun k hk => hxs k (List.mem_cons_of_mem _ hk))
        (by rw [swap_effects_length]; exact hs)
      refine ⟨this.1, fun a => ?_⟩
      rw [List.foldl_cons, this.2 a]
      exact swap_effects_count _ _ _ hi hj a
  exact key _ (e, r) (fun i hi => List.mem_range.mp hi) h

/-! ### The assignment loop -/

theorem assignment_cells_eq : assignment_cells = bawana_positions := by decide

theorem list_of_length_sixteen (e : List BawanaEffect) (h : e.length = 16) :
    ∃ a0 a1 a2 a3 a4 a5 a6 a7 a8 a9 a10 a11 a12 a13 a14 a15 : BawanaEffect,
      e = [a0, a1, a2, a3, a4, a5, a6, a7, a8, a9, a10, a11, a12, a13, a14, a15] := by
  rcases e with _ | ⟨a0, e⟩
  · simp at h
  rcases e with _ | ⟨a1, e⟩
  · simp at h
  rcases e with _ | ⟨a2, e⟩
  · simp at h
  rcases e with _ | ⟨a3, e⟩
  · simp at h
  rcases e with _ | ⟨a4, e⟩
  · simp at h
  rcases e with _ | ⟨a5, e⟩
  · simp at h
  rcases e with _ | ⟨a6, e⟩
  · simp at h
  rcases e with _ | ⟨a7, e⟩
  · simp at h
  rcases e with _ | ⟨a8, e⟩
  · simp at h
  rcases e with _ | ⟨a9, e⟩
  · simp at h
  rcases e with _ | ⟨a10, e⟩
  · simp at h
  rcases e with _ | ⟨a11, e⟩
  · simp at h
  rcases e with _ | ⟨a12, e⟩
  · simp at h
  rcases e with _ | ⟨a13, e⟩
  · simp at h
  rcases e with _ | ⟨a14, e⟩
  · simp at h
  rcases e with _ | ⟨a15, e⟩
  · simp at h
  rcases e with _ | ⟨b, e⟩
  · exact ⟨a0, a1, a2, a3, a4, a5, a6, a7, a8, a9, a10, a11, a12, a13, a14, a15, rfl⟩
  · simp at h

/-- The tags found on the visited cells after the assignment loop: the 16
entries of `effects` on the first 16 cells, the previous tags on the last 4. -/
theorem assignment_tags (effects : List BawanaEffect) (h : effects.length = BAWANA_CELLS)
    (maze : Maze) :
    assignment_cells.map (fun c =>
        ((assignment_cells.foldl (assign_step effects) (maze, 0)).1 0 c.1 c.2).bawana_effect) =
      effects ++ (assignment_cells.drop BAWANA_CELLS).map (fun c => (maze 0 c.1 c.2).bawana_effect) := by
  obtain ⟨a0, a1, a2, a3, a4, a5, a6, a7, a8, a9, a10, a11, a12, a13, a14, a15, rfl⟩ := list_of_length_sixteen effects h
  rw [assignment_cells_eq]
  simp [bawana_positions, assign_step, set_bawana_effect, BAWANA_CELLS]

/-! ### Tag counts in the recovery rectangle -/

theorem recovery_rectangle_eq :
    Finset.Icc (6 : Int) 9 ×ˢ Finset.Icc (20 : Int) 24 = assignment_cells.toFinset := by
  decide

theorem assignment_cells_nodup : assignment_cells.Nodup := by decide

theorem recovery_cells_tagged_card (maze : Maze) (e : BawanaEffect) :
    (recovery_cells_tagged maze e).card =
      (assignment_cells.map (fun c => (maze 0 c.1 c.2).bawana_effect)).count e := by
  unfold recovery_cells_tagged
  have h : Finset.filter (fun c : Int × Int => (maze 0 c.1 c.2).bawana_effect = e)
      assignment_cells.toFinset =
      (assignment_cells.filter
        (fun c => decide ((maze 0 c.1 c.2).bawana_effect = e))).toFinset := by
    ext c
    simp
  rw [recovery_rectangle_eq, h, List.toFinset_card_of_nodup (assignment_cells_nodup.filter _),
    List.count_eq_countP, List.countP_map, List.countP_eq_length_filter]
  congr 1

theorem initial_effects_length : initial_effects.length = BAWANA_CELLS := by decide

theorem initialize_bawana_area_maze (maze : Maze) (r : Rng) :
    (initialize_bawana_area maze r).1 =
      (assignment_cells.foldl (assign_step (shuffle_effects initial_effects r).1) (maze, 0)).1 := by
  rw [initialize_bawana_area]

/-- The tags on the visited cells after the two setup functions: the shuffled
multiset followed by four random-points tags. -/
theorem setup_tags (maze : Maze) (r : Rng) :
    assignment_cells.map (fun c =>
        ((initialize_bawana_area (initialize_maze_cells maze r).1
            (initialize_maze_cells maze r).2).1 0 c.1 c.2).bawana_effect) =
      (shuffle_effects initial_effects (initialize_maze_cells maze r).2).1 ++
        List.replicate 4 BawanaEffect.BAWANA_RANDOM_POINTS := by
  rw [initialize_bawana_area_maze,
    assignment_tags _ (shuffle_effects_invariant _ _ initial_effects_length).1]
  have hd : assignment_cells.drop BAWANA_CELLS = [(9, 21), (9, 22), (9, 23), (9, 24)] := by
    decide
  have h21 := initialize_maze_cells_tag maze r 0 9 21 (by decide) (by decide) (by decide)
  have h22 := initialize_maze_cells_tag maze r 0 9 22 (by decide) (by decide) (by decide)
  have h23 := initialize_maze_cells_tag maze r 0 9 23 (by decide) (by decide) (by decide)
  have h24 := initialize_maze_cells_tag maze r 0 9 24 (by decide) (by decide) (by decide)
  simp only [Nat.cast_ofNat, Nat.cast_zero] at h21 h22 h23 h24
  rw [hd]
  simp only [List.map_cons, List.map_nil, h21, h22, h23, h24]
  rfl

/-- C6: after `initialize_maze_cells` followed by `initialize_bawana_area`, for
every previous cell table and every random source, among the 20 floor-0 cells
with `6 ≤ width ≤ 9` and `20 ≤ length ≤ 24` exactly 2 carry each of the tags
food-poisoning, disoriented, triggered and happy, and the 12 others carry
random-points. -/
theorem C6_recovery_tag_counts (maze : Maze) (r : Rng) :
    (recovery_cells_tagged (initialize_bawana_area (initialize_maze_cells maze r).1
      (initialize_maze_cells maze r).2).1 .BAWANA_FOOD_POISONING).card = 2 ∧
    (recovery_cells_tagged (initialize_bawana_area (initialize_maze_cells maze r).1
      (initialize_maze_cells maze r).2).1 .BAWANA_DISORIENTED).card = 2 ∧
    (recovery_cells_tagged (initialize_bawana_area (initialize_maze_cells maze r).1
      (initialize_maze_cells maze r).2).1 .BAWANA_TRIGGERED).card = 2 ∧
    (recovery_cells_tagged (initialize_bawana_area (initialize_maze_cells maze r).1
      (initialize_maze_cells maze r).2).1 .BAWANA_HAPPY).card = 2 ∧
    (recovery_cells_tagged (initialize_bawana_area (initialize_maze_cells maze r).1
      (initialize_maze_cells maze r).2).1 .BAWANA_RANDOM_POINTS).card = 12 ∧
    (Finset.Icc (6 : Int) 9 ×ˢ Finset.Icc (20 : Int) 24).card = 20 := by
  have hc := (shuffle_effects_invariant initial_effects (initialize_maze_cells maze r).2
    initial_effects_length).2
  simp only [recovery_cells_tagged_card, setup_tags, List.count_append, hc]
  decide

/-- C7 (as stated, refuted): the multiset has `BAWANA_CELLS = 16` entries while
the assignment loop visits 20 cells; the entrance (9,19) is not among the cells
of the loop, so the skip removes none. -/
theorem C7_multiset_smaller_than_loop :
    initial_effects.length = 16 ∧ BAWANA_CELLS = 16 ∧ assignment_cells.length = 20 ∧
    ¬ (BAWANA_CELLS = assignment_cells.length) := by
  decide

/-- C7 (amended): the multiset has `BAWANA_CELLS` entries, the assignment loop
visits `BAWANA_CELLS + 4` cells, and for every cell table and random source the
guard `idx < BAWANA_CELLS` gives the shuffled entries, in order, to the first
`BAWANA_CELLS` visited cells and leaves the last 4 with the tag they had. -/
theorem C7_first_sixteen_cells_assigned (maze : Maze) (r : Rng) :
    initial_effects.length = BAWANA_CELLS ∧
    (shuffle_effects initial_effects r).1.length = BAWANA_CELLS ∧
    assignment_cells.length = BAWANA_CELLS + 4 ∧
    assignment_cells.map (fun c => ((initialize_bawana_area maze r).1 0 c.1 c.2).bawana_effect) =
      (shuffle_effects initial_effects r).1 ++
        (assignment_cells.drop BAWANA_CELLS).map (fun c => (maze 0 c.1 c.2).bawana_effect) := by
  refine ⟨initial_effects_length, (shuffle_effects_invariant _ _ initial_effects_length).1,
    by decide, ?_⟩
  rw [initialize_bawana_area_maze]
  exact assignment_tags _ (shuffle_effects_invariant _ _ initial_effects_length).1 maze

/-! ## Stairs and poles -/

theorem use_poles_eq (poles : List Pole) (p : Player) :
    use_poles poles p =
      match poles.find? (fun q => pole_matches q p) with
      | some q => (pole_transition q p, true)
      | none => (p, false) := by
  induction poles with
  | nil => rfl
  | cons q rest ih =>
    unfold use_poles
    by_cases h : pole_matches q p = true
    · have h1 := h
      simp only [pole_matches, decide_eq_true_eq] at h1
      rw [List.find?_cons]; simp only [h]
      have h2 : p.width = q.width ∧ p.length = q.length ∧
          p.floor > q.end_floor ∧ p.floor ≤ q.start_floor := ⟨h1.1, h1.2.1, h1.2.2.1, h1.2.2.2⟩
      rw [if_pos h2]
      rfl
    · have h1 := h
      simp only [pole_matches, decide_eq_true_eq] at h1
      rw [List.find?_cons]; simp only [h]
      have h2 : ¬ (p.width = q.width ∧ p.length = q.length ∧
          p.floor > q.end_floor ∧ p.floor ≤ q.start_floor) := fun hc =>
        h1 ⟨hc.1, hc.2.1, hc.2.2.1, hc.2.2.2⟩
      rw [if_neg h2]
      exact ih

theorem use_stairs_eq (stairs : List Stair) (poles : List Pole) (p : Player) :
    use_stairs stairs poles p = first_match_transition stairs poles p := by
  induction stairs with
  | nil =>
    unfold use_stairs first_match_transition
    rw [use_poles_eq]
    rfl
  | cons s rest ih =>
    unfold use_stairs first_match_transition
    by_cases hup : s.up_direction = true
    · by_cases hs : at_stair_start s p
      · have hm : stair_matches s p = true := by
          simp only [stair_matches, decide_eq_true_eq]; exact Or.inl ⟨hs, hup⟩
        rw [List.find?_cons]; simp only [hm]
        have h2 : p.floor = s.start_floor ∧ p.width = s.start_width ∧
            p.length = s.start_length ∧ s.up_direction = true := ⟨hs.1, hs.2.1, hs.2.2, hup⟩
        rw [if_pos h2]
        simp only [stair_transition, hup, if_true]
      · have hm : ¬ stair_matches s p = true := by
          simp only [stair_matches, decide_eq_true_eq]
          rintro (⟨h, _⟩ | ⟨_, h⟩)
          · exact hs h
          · rw [hup] at h; exact Bool.noConfusion h
        rw [List.find?_cons]; simp only [hm]
        have h2 : ¬ (p.floor = s.start_floor ∧ p.width = s.start_width ∧
            p.length = s.start_length ∧ s.up_direction = true) := fun hc =>
          hs ⟨hc.1, hc.2.1, hc.2.2.1⟩
        have h3 : ¬ (p.floor = s.end_floor ∧ p.width = s.end_width ∧
            p.length = s.end_length ∧ s.up_direction = false) := fun hc => by
          rw [hup] at hc; exact Bool.noConfusion hc.2.2.2
        rw [if_neg h2, if_neg h3, ih]
        rfl
    · have hup2 : s.up_direction = false := by
        cases h : s.up_direction
        · rfl
        · exact absurd h hup
      have h2 : ¬ (p.floor = s.start_floor ∧ p.width = s.start_width ∧
          p.length = s.start_length ∧ s.up_direction = true) := fun hc => hup hc.2.2.2
      rw [if_neg h2]
      by_cases hs : at_stair_end s p
      · have hm : stair_matches s p = true := by
          simp only [stair_matches, decide_eq_true_eq]; exact Or.inr ⟨hs, hup2⟩
        rw [List.find?_cons]; simp only [hm]
        have h3 : p.floor = s.end_floor ∧ p.width = s.end_width ∧
            p.length = s.end_length ∧ s.up_direction = false := ⟨hs.1, hs.2.1, hs.2.2, hup2⟩
        rw [if_pos h3]
        simp only [stair_transition, hup2, Bool.false_eq_true, if_false]
      · have hm : ¬ stair_matches s p = true := by
          simp only [stair_matches, decide_eq_true_eq]
          rintro (⟨_, h⟩ | ⟨h, _⟩)
          · exact hup h
          · exact hs h
        rw [List.find?_cons]; simp only [hm]
        have h3 : ¬ (p.floor = s.end_floor ∧ p.width = s.end_width ∧
            p.length = s.end_length ∧ s.up_direction = false) := fun hc =>
          hs ⟨hc.1, hc.2.1, hc.2.2.1⟩
        rw [if_neg h3, ih]
        rfl

/-- C13: `check_and_use_stairs_poles` applies exactly the transition of the
first stair in registration order that matches the player's cell and direction
flag; when no stair matches, exactly that of the first matching pole; it applies
one transition only; it returns true exactly when some stair or pole matches and
leaves the player unchanged when it returns false, in particular with no stairs
and no poles. -/
theorem C13_first_match_wins (stairs : List Stair) (poles : List Pole) (p : Player) :
    check_and_use_stairs_poles stairs poles p = first_match_transition stairs poles p ∧
    ((check_and_use_stairs_poles stairs poles p).2 = true ↔
      (∃ s ∈ stairs, stair_matches s p = true) ∨ (∃ q ∈ poles, pole_matches q p = true)) ∧
    ((check_and_use_stairs_poles stairs poles p).2 = false →
      (check_and_use_stairs_poles stairs poles p).1 = p) ∧
    check_and_use_stairs_poles [] [] p = (p, false) := by
  have heq : check_and_use_stairs_poles stairs poles p =
      first_match_transition stairs poles p := use_stairs_eq stairs poles p
  refine ⟨heq, ?_, ?_, rfl⟩
  · rw [heq]
    unfold first_match_transition
    cases h1 : stairs.find? (fun s => stair_matches s p) with
    | some s =>
      simp only [true_iff]
      have hm := List.find?_some h1
      exact Or.inl ⟨s, List.mem_of_find?_eq_some h1, hm⟩
    | none =>
      have hn := List.find?_eq_none.mp h1
      cases h2 : poles.find? (fun q => pole_matches q p) with
      | some q =>
        simp only [true_iff]
        have hm := List.find?_some h2
        exact Or.inr ⟨q, List.mem_of_find?_eq_some h2, hm⟩
      | none =>
        have hn2 := List.find?_eq_none.mp h2
        simp only [Bool.false_eq_true, false_iff, not_or, not_exists, not_and]
        exact ⟨fun s hs => hn s hs, fun q hq => hn2 q hq⟩
  · rw [heq]
    unfold first_match_transition
    cases h1 : stairs.find? (fun s => stair_matches s p) with
    | some s => simp
    | none =>
      cases h2 : poles.find? (fun q => pole_matches q p) with
      | some q => simp
      | none => simp

theorem stairs_find_none (stairs : List Stair) (p : Player)
    (hst : ∀ s ∈ stairs, stair_matches s p = false) :
    stairs.find? (fun s => stair_matches s p) = none := by
  rw [List.find?_eq_none]
  intro s hs
  simp [hst s hs]

theorem poles_find_first (pre post : List Pole) (q : Pole) (p : Player)
    (hpre : ∀ q1 ∈ pre, pole_matches q1 p = false) (hq : pole_matches q p = true) :
    (pre ++ q :: post).find? (fun q => pole_matches q p) = some q := by
  induction pre with
  | nil => simp [hq]
  | cons a rest ih =>
    rw [List.cons_append, List.find?_cons]
    simp only [hpre a (List.mem_cons_self _ _)]
    exact ih (fun q1 h => hpre q1 (List.mem_cons_of_mem _ h))

theorem pole_matches_iff (q : Pole) (p : Player) :
    pole_matches q p = true ↔
      (p.width = q.width ∧ p.length = q.length ∧ q.end_floor < p.floor ∧
        p.floor ≤ q.start_floor) := by
  simp [pole_matches]

theorem first_match_fires_iff (stairs : List Stair) (poles : List Pole) (p : Player) :
    (check_and_use_stairs_poles stairs poles p).2 = true ↔
      (∃ s ∈ stairs, stair_matches s p = true) ∨ (∃ q ∈ poles, pole_matches q p = true) := by
  have heq : check_and_use_stairs_poles stairs poles p =
      first_match_transition stairs poles p := use_stairs_eq stairs poles p
  rw [heq]
  unfold first_match_transition
  cases h1 : stairs.find? (fun s => stair_matches s p) with
  | some s =>
    simp only [true_iff]
    have hm := List.find?_some h1
    exact Or.inl ⟨s, List.mem_of_find?_eq_some h1, hm⟩
  | none =>
    have hn := List.find?_eq_none.mp h1
    cases h2 : poles.find? (fun q => pole_matches q p) with
    | some q =>
      simp only [true_iff]
      have hm := List.find?_some h2
      exact Or.inr ⟨q, List.mem_of_find?_eq_some h2, hm⟩
    | none =>
      have hn2 := List.find?_eq_none.mp h2
      simp only [Bool.false_eq_true, false_iff, not_or, not_exists, not_and]
      exact ⟨fun s hs => hn s hs, fun q hq => hn2 q hq⟩

/-- C14: when no stair matches, some pole fires in `check_and_use_stairs_poles`
exactly when some registered pole has the player at its column with
`end_floor < floor ≤ start_floor`; the first such pole in registration order is
the one that fires: the floor becomes its `end_floor`, a strict decrease, nothing
else changes, and the same pole does not fire on the resulting player. -/
theorem C14_pole_fires_iff_between_floors (stairs : List Stair) (poles : List Pole)
    (p : Player) (hst : ∀ s ∈ stairs, stair_matches s p = false) :
    ((check_and_use_stairs_poles stairs poles p).2 = true ↔
      ∃ q ∈ poles, p.width = q.width ∧ p.length = q.length ∧ q.end_floor < p.floor ∧
        p.floor ≤ q.start_floor) ∧
    (∀ (pre post : List Pole) (q : Pole), poles = pre ++ q :: post →
      (∀ q1 ∈ pre, ¬ (p.width = q1.width ∧ p.length = q1.length ∧ q1.end_floor < p.floor ∧
        p.floor ≤ q1.start_floor)) →
      (p.width = q.width ∧ p.length = q.length ∧ q.end_floor < p.floor ∧
        p.floor ≤ q.start_floor) →
      check_and_use_stairs_poles stairs poles p = ({ p with floor := q.end_floor }, true) ∧
      q.end_floor < p.floor ∧
      check_and_use_stairs_poles [] [q] { p with floor := q.end_floor } =
        ({ p with floor := q.end_floor }, false)) := by
  have hnone := stairs_find_none stairs p hst
  constructor
  · rw [first_match_fires_iff stairs poles p]
    constructor
    · rintro (⟨s, hs, hm⟩ | ⟨q1, hq1, hm⟩)
      · rw [hst s hs] at hm; exact Bool.noConfusion hm
      · exact ⟨q1, hq1, (pole_matches_iff q1 p).mp hm⟩
    · rintro ⟨q1, hq1, hc⟩
      exact Or.inr ⟨q1, hq1, (pole_matches_iff q1 p).mpr hc⟩
  · intro pre post q hpoles hpre hc
    have hm := (pole_matches_iff q p).mpr hc
    have hpre1 : ∀ q1 ∈ pre, pole_matches q1 p = false := by
      intro q1 hq1
      cases h : pole_matches q1 p
      · rfl
      · exact absurd ((pole_matches_iff q1 p).mp h) (hpre q1 hq1)
    refine ⟨?_, hc.2.2.1, ?_⟩
    · show use_stairs stairs poles p = _
      rw [use_stairs_eq, hpoles]
      unfold first_match_transition
      rw [hnone, poles_find_first pre post q p hpre1 hm]
      rfl
    · show use_stairs [] [q] _ = _
      unfold use_stairs use_poles use_poles
      rw [if_neg]
      intro h
      exact absurd h.2.2.1 (lt_irrefl _)

/-- The witness of C14: the pole from floor 2 to floor 0 at column (4,5), alone,
with a player on floor 1 at that column. -/
theorem C14_pole_fires_iff_between_floors_witness :
    (∀ s ∈ [demo_stair],
      stair_matches s { demo_player with floor := 1, width := 4, length := 5 } = false) ∧
    check_and_use_stairs_poles [demo_stair] [demo_pole]
        { demo_player with floor := 1, width := 4, length := 5 } =
      ({ demo_player with floor := demo_pole.end_floor, width := 4, length := 5 }, true) :=
  ⟨by decide,
   ((C14_pole_fires_iff_between_floors [demo_stair] [demo_pole]
      { demo_player with floor := 1, width := 4, length := 5 } (by decide)).2
      [] [] demo_pole rfl (by decide) (by decide)).1⟩

/-- C12: a stair with distinct start and end cells, registered alone with no
poles, moves the player from start to end exactly when the player is at the
start and the flag is true, from end to start exactly when the player is at the
end and the flag is false, and otherwise leaves the player unchanged; it is
never usable in both directions under one value of the flag. -/
theorem C12_stair_one_way (s : Stair) (p : Player)
    (hd : ¬ (s.start_floor = s.end_floor ∧ s.start_width = s.end_width ∧
      s.start_length = s.end_length)) :
    ((at_stair_start s p ∧ (check_and_use_stairs_poles [s] [] p).2 = true ∧
        at_stair_end s (check_and_use_stairs_poles [s] [] p).1) ↔
      (at_stair_start s p ∧ s.up_direction = true)) ∧
    ((at_stair_end s p ∧ (check_and_use_stairs_poles [s] [] p).2 = true ∧
        at_stair_start s (check_and_use_stairs_poles [s] [] p).1) ↔
      (at_stair_end s p ∧ s.up_direction = false)) ∧
    (at_stair_start s p ∧ s.up_direction = true →
      check_and_use_stairs_poles [s] [] p =
        ({ p with floor := s.end_floor, width := s.end_width, length := s.end_length }, true)) ∧
    (at_stair_end s p ∧ s.up_direction = false →
      check_and_use_stairs_poles [s] [] p =
        ({ p with
            floor := s.start_floor, width := s.start_width, length := s.start_length }, true)) ∧
    (¬ (at_stair_start s p ∧ s.up_direction = true) →
      ¬ (at_stair_end s p ∧ s.up_direction = false) →
      check_and_use_stairs_poles [s] [] p = (p, false)) ∧
    (∀ p1 p2 : Player,
      ¬ ((at_stair_start s p1 ∧ (check_and_use_stairs_poles [s] [] p1).2 = true ∧
            at_stair_end s (check_and_use_stairs_poles [s] [] p1).1) ∧
         (at_stair_end s p2 ∧ (check_and_use_stairs_poles [s] [] p2).2 = true ∧
            at_stair_start s (check_and_use_stairs_poles [s] [] p2).1))) := by
  have hup : ∀ p : Player, at_stair_start s p ∧ s.up_direction = true →
      check_and_use_stairs_poles [s] [] p =
        ({ p with floor := s.end_floor, width := s.end_width, length := s.end_length },
          true) := by
    intro p h
    show use_stairs [s] [] p = _
    unfold use_stairs
    rw [if_pos ⟨h.1.1, h.1.2.1, h.1.2.2, h.2⟩]
  have hdown : ∀ p : Player, at_stair_end s p ∧ s.up_direction = false →
      check_and_use_stairs_poles [s] [] p =
        ({ p with
            floor := s.start_floor, width := s.start_width, length := s.start_length },
          true) := by
    intro p h
    show use_stairs [s] [] p = _
    unfold use_stairs
    rw [if_neg (fun hc => by rw [h.2] at hc; exact Bool.noConfusion hc.2.2.2),
      if_pos ⟨h.1.1, h.1.2.1, h.1.2.2, h.2⟩]
  have hnone : ∀ p : Player, ¬ (at_stair_start s p ∧ s.up_direction = true) →
      ¬ (at_stair_end s p ∧ s.up_direction = false) →
      check_and_use_stairs_poles [s] [] p = (p, false) := by
    intro p h1 h2
    show use_stairs [s] [] p = _
    unfold use_stairs
    rw [if_neg (fun hc => h1 ⟨⟨hc.1, hc.2.1, hc.2.2.1⟩, hc.2.2.2⟩),
      if_neg (fun hc => h2 ⟨⟨hc.1, hc.2.1, hc.2.2.1⟩, hc.2.2.2⟩)]
    rfl
  have hdist : ∀ p : Player, ¬ (at_stair_start s p ∧ at_stair_end s p) := by
    intro p h
    apply hd
    unfold at_stair_start at_stair_end at h
    exact ⟨h.1.1.symm.trans h.2.1, h.1.2.1.symm.trans h.2.2.1, h.1.2.2.symm.trans h.2.2.2⟩
  have hfwd : ∀ p : Player, (at_stair_start s p ∧ (check_and_use_stairs_poles [s] [] p).2 = true ∧
        at_stair_end s (check_and_use_stairs_poles [s] [] p).1) ↔
      (at_stair_start s p ∧ s.up_direction = true) := by
    intro p
    constructor
    · rintro ⟨hs, ht, _⟩
      refine ⟨hs, ?_⟩
      by_contra hup1
      have hn := hnone p (fun h => hup1 h.2) (fun h => hdist p ⟨hs, h.1⟩)
      rw [hn] at ht
      exact Bool.noConfusion ht
    · intro h
      rw [hup p h]
      exact ⟨h.1, rfl, rfl, rfl, rfl⟩
  have hbwd : ∀ p : Player, (at_stair_end s p ∧ (check_and_use_stairs_poles [s] [] p).2 = true ∧
        at_stair_start s (check_and_use_stairs_poles [s] [] p).1) ↔
      (at_stair_end s p ∧ s.up_direction = false) := by
    intro p
    constructor
    · rintro ⟨hs, ht, _⟩
      refine ⟨hs, ?_⟩
      by_contra hup1
      have hn := hnone p (fun h => hdist p ⟨h.1, hs⟩) (fun h => hup1 h.2)
      rw [hn] at ht
      exact Bool.noConfusion ht
    · intro h
      rw [hdown p h]
      exact ⟨h.1, rfl, rfl, rfl, rfl⟩
  refine ⟨hfwd p, hbwd p, hup p, hdown p, hnone p, ?_⟩
  intro p1 p2 h
  have h1 := ((hfwd p1).mp h.1).2
  have h2 := ((hbwd p2).mp h.2).2
  rw [h1] at h2
  exact Bool.noConfusion h2

/-- The witness of C12: the stair from (0,1,5) to (1,0,5) with its flag set and a
player on its start cell. -/
theorem C12_stair_one_way_witness :
    ¬ (demo_stair.start_floor = demo_stair.end_floor ∧
       demo_stair.start_width = demo_stair.end_width ∧
       demo_stair.start_length = demo_stair.end_length) ∧
    ((at_stair_start demo_stair { demo_player with width := 1, length := 5 } ∧
        (check_and_use_stairs_poles [demo_stair] []
          { demo_player with width := 1, length := 5 }).2 = true ∧
        at_stair_end demo_stair (check_and_use_stairs_poles [demo_stair] []
          { demo_player with width := 1, length := 5 }).1) ↔
      (at_stair_start demo_stair { demo_player with width := 1, length := 5 } ∧
        demo_stair.up_direction = true)) :=
  ⟨by decide,
   (C12_stair_one_way demo_stair { demo_player with width := 1, length := 5 } (by decide)).1⟩

/-! ## Capture -/

/-- C15: for a captured player that bears the name `initialize_players` gives to
seat `k` ('A', 'B' or 'C'), `capture_player` resets floor, width, length,
direction, `in_maze`, `dice_throw_count`, `food_poisoning_turns`,
`disoriented_turns`, `triggered` and `in_bawana` to the values
`initialize_players` gives that seat, and leaves the captured player's name and
balance and every other player unchanged. -/
theorem C15_capture_resets_to_start_pad (g g0 : Game) (capturer captured k : Fin 3)
    (hname : (g.players captured).name = ((initialize_players g0).players k).name) :
    ((capture_player g capturer captured).players captured).floor =
        ((initialize_players g0).players k).floor ∧
    ((capture_player g capturer captured).players captured).width =
        ((initialize_players g0).players k).width ∧
    ((capture_player g capturer captured).players captured).length =
        ((initialize_players g0).players k).length ∧
    ((capture_player g capturer captured).players captured).direction =
        ((initialize_players g0).players k).direction ∧
    ((capture_player g capturer captured).players captured).in_maze =
        ((initialize_players g0).players k).in_maze ∧
    ((capture_player g capturer captured).players captured).dice_throw_count =
        ((initialize_players g0).players k).dice_throw_count ∧
    ((capture_player g capturer captured).players captured).food_poisoning_turns =
        ((initialize_players g0).players k).food_poisoning_turns ∧
    ((capture_player g capturer captured).players captured).disoriented_turns =
        ((initialize_players g0).players k).disoriented_turns ∧
    ((capture_player g capturer captured).players captured).triggered =
        ((initialize_players g0).players k).triggered ∧
    ((capture_player g capturer captured).players captured).in_bawana =
        ((initialize_players g0).players k).in_bawana ∧
    ((capture_player g capturer captured).players captured).name =
        (g.players captured).name ∧
    ((capture_player g capturer captured).players captured).movement_points =
        (g.players captured).movement_points ∧
    (∀ j : Fin 3, j ≠ captured →
      (capture_player g capturer captured).players j = g.players j) ∧
    (((initialize_players g0).players 0).name, ((initialize_players g0).players 0).floor,
      ((initialize_players g0).players 0).width, ((initialize_players g0).players 0).length) =
        ('A', 0, 6, 12) ∧
    (((initialize_players g0).players 1).name, ((initialize_players g0).players 1).floor,
      ((initialize_players g0).players 1).width, ((initialize_players g0).players 1).length) =
        ('B', 0, 9, 8) ∧
    (((initialize_players g0).players 2).name, ((initialize_players g0).players 2).floor,
      ((initialize_players g0).players 2).width, ((initialize_players g0).players 2).length) =
        ('C', 0, 9, 16) := by
  have hother : ∀ j : Fin 3, j ≠ captured →
      (capture_player g capturer captured).players j = g.players j := fun j hj =>
    setPlayer_players_other _ _ _ _ hj
  have hsame : (capture_player g capturer captured).players captured =
      capture_reset (g.players captured) := setPlayer_players_same _ _ _
  rw [hsame]
  fin_cases k
  · have hn : (g.players captured).name = 'A' := hname
    simp [capture_reset, hn, initialize_players]
    exact fun j hj => hother j hj
  · have hn : (g.players captured).name = 'B' := hname
    simp [capture_reset, hn, initialize_players]
    exact fun j hj => hother j hj
  · have hn : (g.players captured).name = 'C' := hname
    simp [capture_reset, hn, initialize_players]
    exact fun j hj => hother j hj

/-- The witness of C15: seat 1 of `wall_game`, named 'B', captured by seat 0. -/
theorem C15_capture_resets_to_start_pad_witness :
    (wall_game.players 1).name = ((initialize_players wall_game).players 1).name ∧
    ((capture_player wall_game 0 1).players 1).width =
        ((initialize_players wall_game).players 1).width :=
  ⟨by decide, (C15_capture_resets_to_start_pad wall_game wall_game 0 1 1 (by decide)).2.1⟩

/-! ## Recovery effects -/

theorem cap_points_eq_min (p : Player) :
    cap_points p = { p with movement_points := min p.movement_points 1000 } := by
  unfold cap_points MAX_MOVEMENT_POINTS
  split
  · rw [min_eq_right (by omega)]
  · rw [min_eq_left (by omega)]

theorem bawana_positions_nodup : bawana_positions.Nodup := by decide

theorem mem_bawana_positions_iff (w l : Int) :
    (w, l) ∈ bawana_positions ↔ is_in_bawana w l = true := by
  constructor
  · intro h
    simp only [bawana_positions, List.mem_cons, Prod.mk.injEq, List.mem_singleton,
      List.not_mem_nil, or_false] at h
    rcases h with h | h | h | h | h | h | h | h | h | h | h | h | h | h | h | h | h | h | h | h <;>
      (rw [h.1, h.2]; decide)
  · intro h
    simp only [is_in_bawana, ge_iff_le, Bool.and_eq_true, decide_eq_true_eq] at h
    obtain ⟨⟨⟨h1, h2⟩, h3⟩, h4⟩ := h
    interval_cases w <;> interval_cases l <;> decide

/-- C20: the cell on which `transport_to_bawana` places the player before it
resolves the recovery effect is `bawana_positions[r mod 20]` for the drawn `r`;
it is on floor 0, inside the recovery rectangle and not the entrance (9,19); and
every cell of the rectangle is chosen by exactly one residue below 20. -/
theorem C20_transport_cell (maze : Maze) (p : Player) (r : Rng) :
    (∃ c : Int × Int, bawana_positions.get? ((rand r).1 % 20) = some c ∧
      transport_to_bawana maze p r =
        apply_bawana_effect maze
          { p with
              floor := 0, width := c.1, length := c.2, in_bawana := true,
              movement_points := 10 } (rand r).2 ∧
      is_in_bawana c.1 c.2 = true ∧ c ≠ (9, 19)) ∧
    (∀ w l : Int, is_in_bawana w l = true →
      ∃! k : Nat, k < 20 ∧ bawana_positions.get? k = some (w, l)) := by
  constructor
  · have hlt : (rand r).1 % 20 < bawana_positions.length := Nat.mod_lt _ (by decide)
    have hin := transport_place_in_bawana p (rand r).1
    refine ⟨((transport_place p (rand r).1).width, (transport_place p (rand r).1).length),
      ?_, ?_, hin, ?_⟩
    · rw [List.get?_eq_get hlt]
      simp [transport_place, List.getD_eq_getElem?_getD, List.getElem?_eq_getElem hlt]
    · rw [transport_to_bawana]
      rfl
    · intro hc
      have h1 : (transport_place p (rand r).1).width = 9 := congrArg Prod.fst hc
      have h2 : (transport_place p (rand r).1).length = 19 := congrArg Prod.snd hc
      rw [h1, h2] at hin
      exact absurd hin (by decide)
  · intro w l h
    obtain ⟨k, hk⟩ := List.mem_iff_get?.mp ((mem_bawana_positions_iff w l).mpr h)
    have hklt : k < bawana_positions.length := by
      by_contra hge
      rw [List.get?_eq_none.mpr (by omega)] at hk
      exact Option.noConfusion hk
    refine ⟨k, ⟨hklt, hk⟩, ?_⟩
    rintro j ⟨hj, hjk⟩
    have hjlt : j < bawana_positions.length := hj
    rw [List.get?_eq_get hjlt] at hjk
    rw [List.get?_eq_get hklt] at hk
    have heq : bawana_positions.get ⟨j, hjlt⟩ = bawana_positions.get ⟨k, hklt⟩ :=
      Option.some.inj (hjk.trans hk.symm)
    have := (bawana_positions_nodup.get_inj_iff).mp heq
    exact Fin.mk.inj this

/-- The witness of C20: the recovery cell (7,22) is chosen by the residue 7. -/
theorem C20_transport_cell_witness :
    is_in_bawana 7 22 = true ∧
    ∃! k : Nat, k < 20 ∧ bawana_positions.get? k = some (7, 22) :=
  ⟨by decide, (C20_transport_cell demo_maze demo_player zero_rng).2 7 22 (by decide)⟩

/-! ## Movement resolver: penalty after a resumption, recovery effect above floor 0 -/

/-- C11 (code at the failing input): the first step of the roll is committed and
leads to a stair; the resumed call finds its next step blocked and, its own
`step` being 0, charges the 2-point penalty: 1 step is committed and the balance
goes from 100 to 98. -/
theorem C11_penalty_after_committed_step (fuel : Nat) :
    (resume_game.players 0).movement_points = 100 ∧
    (move_player_with_effects (fuel + 2) resume_game zero_rng 0 .EAST 2).map
      (fun res => (res.2.2, (res.1.players 0).movement_points, (res.1.players 0).floor,
        (res.1.players 0).width, (res.1.players 0).length)) = some (1, 98, 1, 9, 5) := by
  refine ⟨rfl, ?_⟩
  simp [move_player_with_effects, move_loop, resume_game, step_offset, can_move_single_step,
    is_floor_accessible, is_valid_position, is_path_blocked_by_wall, MAX_FLOORS, MAZE_WIDTH,
    MAZE_LENGTH, apply_cell_effects, free_maze, demo_tags, check_and_cap_of_pos, cap_points,
    MAX_MOVEMENT_POINTS, at_flag, check_and_use_stairs_poles, use_stairs, use_poles,
    Game.setPlayer, is_in_bawana, capture_scan, capture_scan_from, idle_B, idle_C]

/-- C17 (code at the failing input): a mover on floor 1 steps EAST onto (1,6,20);
the code applies the recovery effect of the floor-0 cell (6,20) and relocates
the mover to the entrance (0,9,19) with balance 100 + 200. -/
theorem C17_recovery_effect_on_floor_one (fuel : Nat) :
    (upper_floor_game.players 0).floor = 1 ∧
    can_move_single_step upper_floor_game.walls 1 5 20 6 20 = true ∧
    (move_player_with_effects (fuel + 1) upper_floor_game zero_rng 0 .EAST 1).map
      (fun res => (res.2.2, (res.1.players 0).movement_points, (res.1.players 0).floor,
        (res.1.players 0).width, (res.1.players 0).length)) = some (1, 300, 0, 9, 19) := by
  refine ⟨rfl, by decide, ?_⟩
  simp [move_player_with_effects, move_loop, upper_floor_game, step_offset,
    can_move_single_step, is_floor_accessible, is_valid_position, is_path_blocked_by_wall,
    MAX_FLOORS, MAZE_WIDTH, MAZE_LENGTH, apply_cell_effects, free_maze, demo_tags,
    check_and_cap_of_pos, bawana_switch, apply_bawana_effect_of_pos, cap_points,
    MAX_MOVEMENT_POINTS, at_flag, check_and_use_stairs_poles, use_stairs, use_poles,
    Game.setPlayer, is_in_bawana, capture_scan, capture_scan_from, idle_B, idle_C]

/-! ## Movement resolver: the capture scan -/

theorem capture_scan_from_eq (g : Game) (idx : Fin 3) (seats : List (Fin 3)) :
    capture_scan_from g idx seats =
      match seats.find? (fun i =>
        decide (i ≠ idx ∧ (g.players i).in_maze = true ∧
          (g.players i).floor = (g.players idx).floor ∧
          (g.players i).width = (g.players idx).width ∧
          (g.players i).length = (g.players idx).length)) with
      | some i => capture_player g idx i
      | none => g := by
  induction seats with
  | nil => rfl
  | cons i rest ih =>
    unfold capture_scan_from
    rw [List.find?_cons]
    by_cases h : i ≠ idx ∧ (g.players i).in_maze = true ∧
        (g.players i).floor = (g.players idx).floor ∧
        (g.players i).width = (g.players idx).width ∧
        (g.players i).length = (g.players idx).length
    · rw [if_pos h]
      simp only [h, ne_eq, not_false_eq_true, and_self, decide_True]
    · rw [if_neg h, ih]
      simp only [h, decide_False]

/-- The players after the capture scan: the lowest other seat in the maze on the
mover's cell is reset, every other seat is unchanged. -/
theorem capture_scan_players (g : Game) (idx j : Fin 3) :
    (capture_scan g idx).players j =
      if first_other_at g.players (g.players idx) idx = some j then capture_reset (g.players j)
      else g.players j := by
  unfold capture_scan first_other_at
  rw [capture_scan_from_eq]
  cases h : [(0 : Fin 3), 1, 2].find? (fun i =>
        decide (i ≠ idx ∧ (g.players i).in_maze = true ∧
          (g.players i).floor = (g.players idx).floor ∧
          (g.players i).width = (g.players idx).width ∧
          (g.players i).length = (g.players idx).length)) with
  | none => simp
  | some i =>
    simp only [Option.some.injEq]
    by_cases hij : i = j
    · subst hij
      rw [if_pos rfl]
      exact setPlayer_players_same _ _ _
    · rw [if_neg hij]
      exact setPlayer_players_other _ _ _ _ (Ne.symm hij)

theorem first_other_at_congr (players1 players2 : Fin 3 → Player) (m : Player) (idx : Fin 3)
    (h : ∀ j, j ≠ idx → players1 j = players2 j) :
    first_other_at players1 m idx = first_other_at players2 m idx := by
  unfold first_other_at
  congr 1
  funext i
  by_cases hi : i = idx
  · simp [hi]
  · rw [h i hi]

/-- The step loop, when it ends without setting `game_over`, ends in the capture
scan of a game that differs from the initial one at most at the mover. -/
theorem move_loop_ends_in_scan (g : Game) (recur : Game → Rng → Int → Option MoveResult)
    (idx : Fin 3) (dir : Direction) (eff : Int) (d : Int × Int)
    (hdir : step_offset dir = some d)
    (hrec : ∀ g2 r2 s2 res2, (∀ j, j ≠ idx → g2.players j = g.players j) →
      recur g2 r2 s2 = some res2 → res2.1.game_over = false →
      ∃ g3 : Game, res2.1 = capture_scan g3 idx ∧ ∀ j, j ≠ idx → g3.players j = g.players j)
    (n : Nat) : ∀ (step : Int) (g1 : Game) (r : Rng) (moved : Nat) (res : MoveResult),
      (∀ j, j ≠ idx → g1.players j = g.players j) →
      move_loop recur idx dir eff n step g1 r moved = some res →
      res.1.game_over = false →
      ∃ g3 : Game, res.1 = capture_scan g3 idx ∧ ∀ j, j ≠ idx → g3.players j = g.players j := by
  induction n with
  | zero =>
    intro step g1 r moved res hg h _
    unfold move_loop at h
    exact ⟨g1, by rw [← Option.some.inj h], hg⟩
  | succ n ih =>
    intro step g1 r moved res hg h hno
    have hset : ∀ q : Player, ∀ j, j ≠ idx → (g1.setPlayer idx q).players j = g.players j :=
      fun q j hj => by rw [setPlayer_players_other _ _ _ _ hj]; exact hg j hj
    unfold move_loop at h
    simp only [hdir] at h
    split at h
    · split at h
      · exact ⟨_, by rw [← Option.some.inj h], hset _⟩
      · exact ⟨g1, by rw [← Option.some.inj h], hg⟩
    · split at h
      · rw [← Option.some.inj h] at hno
        exact absurd hno (by simp)
      · split at h
        · exact ⟨_, by rw [← Option.some.inj h], hset _⟩
        · split at h
          · rw [← Option.some.inj h] at hno
            exact absurd hno (by simp)
          · split at h
            · rw [Option.map_eq_some'] at h
              obtain ⟨res2, hr, hres⟩ := h
              have hres1 : res.1 = res2.1 := by rw [← hres]
              rw [hres1] at hno ⊢
              exact hrec _ _ _ res2 (hset _) hr hno
            · split at h
              · exact ⟨_, by rw [← Option.some.inj h], hset _⟩
              · exact ih _ _ _ _ res (hset _) h hno

theorem move_ends_in_scan (idx : Fin 3) (dir : Direction) (d : Int × Int)
    (hdir : step_offset dir = some d) (fuel : Nat) :
    ∀ (g : Game) (r : Rng) (steps : Int) (res : MoveResult),
      move_player_with_effects fuel g r idx dir steps = some res →
      res.1.game_over = false →
      ∃ g3 : Game, res.1 = capture_scan g3 idx ∧ ∀ j, j ≠ idx → g3.players j = g.players j := by
  induction fuel with
  | zero =>
    intro g r steps res h
    exact Option.noConfusion h
  | succ fuel ih =>
    intro g r steps res h hno
    unfold move_player_with_effects at h
    refine move_loop_ends_in_scan g _ idx dir _ d hdir ?_ _ _ g r 0 res (fun _ _ => rfl) h hno
    intro g2 r2 s2 res2 hg2 hr hno2
    obtain ⟨g3, h3, hg3⟩ := ih g2 r2 s2 res2 hr hno2
    exact ⟨g3, h3, fun j hj => (hg3 j hj).trans (hg2 j hj)⟩

/-- C16: when `move_player_with_effects` with a cardinal direction returns without
setting `game_over`, its result is the capture scan of a game that differs from
the initial one at most at the mover; the mover is as it was before the scan;
among the other seats exactly the lowest one whose player is in the maze on the
mover's final cell is reset by `capture_player`, and every other one is
unchanged. -/
theorem C16_capture_scan_on_final_cell (fuel : Nat) (g : Game) (r : Rng) (idx : Fin 3)
    (dir : Direction) (steps : Int) (d : Int × Int) (res : MoveResult)
    (hdir : step_offset dir = some d)
    (h : move_player_with_effects fuel g r idx dir steps = some res)
    (hno : res.1.game_over = false) :
    (∃ g3 : Game, res.1 = capture_scan g3 idx ∧
      (∀ j, j ≠ idx → g3.players j = g.players j) ∧
      res.1.players idx = g3.players idx) ∧
    (∀ j, j ≠ idx →
      res.1.players j =
        if first_other_at g.players (res.1.players idx) idx = some j then
          capture_reset (g.players j)
        else g.players j) := by
  obtain ⟨g3, h3, hg3⟩ := move_ends_in_scan idx dir d hdir fuel g r steps res h hno
  have hm : res.1.players idx = g3.players idx := by rw [h3]; exact capture_scan_mover g3 idx
  refine ⟨⟨g3, h3, hg3, hm⟩, ?_⟩
  intro j hj
  rw [hm, h3, capture_scan_players, first_other_at_congr g3.players g.players _ idx hg3,
    hg3 j hj]

/-- The witness of C16: mover `A` steps onto the cell of the in-maze player `B`,
which is reset to its start pad. -/
theorem C16_capture_scan_on_final_cell_witness :
    ∃ res : MoveResult,
      move_player_with_effects 1 capture_game zero_rng 0 .EAST 1 = some res ∧
      res.1.game_over = false ∧
      res.1.players 1 = capture_reset (capture_game.players 1) ∧
      res.1.players 2 = capture_game.players 2 := by
  have hev : ∃ res : MoveResult,
      move_player_with_effects 1 capture_game zero_rng 0 .EAST 1 = some res ∧
      res.1.game_over = false ∧
      first_other_at capture_game.players (res.1.players 0) 0 = some 1 := by
    simp [move_player_with_effects, move_loop, capture_game, step_offset,
      can_move_single_step, is_floor_accessible, is_valid_position, is_path_blocked_by_wall,
      MAX_FLOORS, MAZE_WIDTH, MAZE_LENGTH, apply_cell_effects, free_maze, demo_tags,
      check_and_cap_of_pos, cap_points, MAX_MOVEMENT_POINTS, at_flag,
      check_and_use_stairs_poles, use_stairs, use_poles, Game.setPlayer, is_in_bawana,
      capture_scan, capture_scan_from, capture_player, idle_C, first_other_at]
  obtain ⟨res, h, hno, ht⟩ := hev
  have hc := (C16_capture_scan_on_final_cell 1 capture_game zero_rng 0 .EAST 1 (1, 0) res rfl
    h hno).2
  refine ⟨res, h, hno, ?_, ?_⟩
  · have h1 := hc 1 (by decide)
    rw [ht] at h1
    simpa using h1
  · have h2 := hc 2 (by decide)
    rw [ht] at h2
    simpa using h2

/-! ## Grid model -/

theorem is_valid_position_iff (f w l : Int) :
    is_valid_position f w l = true ↔
      (0 ≤ f ∧ f < 3 ∧ 0 ≤ w ∧ w < 10 ∧ 0 ≤ l ∧ l < 25) := by
  simp only [is_valid_position, MAX_FLOORS, MAZE_WIDTH, MAZE_LENGTH, ge_iff_le,
    Bool.and_eq_true, decide_eq_true_eq]
  constructor
  · rintro ⟨⟨⟨⟨⟨h1, h2⟩, h3⟩, h4⟩, h5⟩, h6⟩
    exact ⟨h1, h2, h3, h4, h5, h6⟩
  · rintro ⟨h1, h2, h3, h4, h5, h6⟩
    exact ⟨⟨⟨⟨⟨h1, h2⟩, h3⟩, h4⟩, h5⟩, h6⟩

theorem is_floor_accessible_iff (f w l : Int) :
    is_floor_accessible f w l = true ↔ accessible_spec f w l := by
  unfold accessible_spec
  by_cases hv : is_valid_position f w l = true
  · have hb := (is_valid_position_iff f w l).mp hv
    unfold is_floor_accessible
    simp only [hv, Bool.not_true, Bool.false_eq_true, if_false, true_and]
    split_ifs <;> simp only [decide_eq_true_eq, true_iff, false_iff, Bool.false_eq_true] <;>
      omega
  · have : is_floor_accessible f w l = false := by
      unfold is_floor_accessible
      simp [hv]
    simp [this, hv]

set_option maxRecDepth 100000 in
theorem accessible_cells_card :
    (accessible_cells 0).card = 250 ∧ (accessible_cells 1).card = 196 ∧
    (accessible_cells 2).card = 90 := by
  decide

/-- C22: `is_floor_accessible` holds exactly when the position is valid and lies
in the footprint of its floor; validity is necessary and not sufficient, as
(2,0,0) and (1,0,10) show; floors 0, 1, 2 have 250, 196 and 90 accessible
cells. -/
theorem C22_accessible_iff_footprint :
    (∀ f w l : Int, is_floor_accessible f w l = true ↔
      (is_valid_position f w l = true ∧
        (f = 0 ∨ (f = 1 ∧ (l ≤ 7 ∨ l ≥ 17 ∨ (3 ≤ w ∧ w ≤ 6))) ∨
          (f = 2 ∧ 8 ≤ l ∧ l ≤ 16)))) ∧
    (∀ f w l : Int, is_floor_accessible f w l = true → is_valid_position f w l = true) ∧
    (is_valid_position 2 0 0 = true ∧ is_floor_accessible 2 0 0 = false) ∧
    (is_valid_position 1 0 10 = true ∧ is_floor_accessible 1 0 10 = false) ∧
    (accessible_cells 0).card = 250 ∧ (accessible_cells 1).card = 196 ∧
    (accessible_cells 2).card = 90 := by
  refine ⟨is_floor_accessible_iff, fun f w l h => ((is_floor_accessible_iff f w l).mp h).1,
    by decide, by decide, accessible_cells_card⟩

/-! ## The balance check: one transport at most -/

theorem bawana_switch_points_ge_ten (effect : BawanaEffect) (p : Player) (v : Nat) (r : Rng) :
    10 ≤ (bawana_switch effect (transport_place p v) r).1.movement_points ∧
    (bawana_switch effect (transport_place p v) r).1.movement_points ≤ 210 := by
  have h1 := bawana_switch_points_ge effect (transport_place p v) r
  have h2 := bawana_switch_points_le effect (transport_place p v) r
  rw [transport_place_points] at h1 h2
  exact ⟨h1, by omega⟩

/-- The balance after a transport lies between 10 and 210. -/
theorem transport_to_bawana_points (maze : Maze) (p : Player) (r : Rng) :
    10 ≤ (transport_to_bawana maze p r).1.movement_points ∧
    (transport_to_bawana maze p r).1.movement_points ≤ 210 := by
  rw [transport_to_bawana_eq]
  have h := bawana_switch_points_ge_ten
    (maze 0 (transport_place p (rand r).1).width
      (transport_place p (rand r).1).length).bawana_effect p (rand r).1 (rand r).2
  rw [cap_points_of_le _ (by unfold MAX_MOVEMENT_POINTS; omega)]
  exact h

/-- C21: the three mutually recursive functions are total, and a transport is
not followed by a second one: the player handed to the nested
`check_and_cap_movement_points` has a balance of at least 10, so that call
returns it as it is; `transport_to_bawana` returns the result of the recovery
switch with `in_bawana` cleared and a balance of at least 10; and
`check_and_cap_movement_points` transports only a balance that is not
positive. -/
theorem C21_single_transport (maze : Maze) (p : Player) (r : Rng) :
    (∃ c : Int × Int, bawana_positions.get? ((rand r).1 % 20) = some c ∧
      10 ≤ (bawana_switch (maze 0 c.1 c.2).bawana_effect
          { p with
              floor := 0, width := c.1, length := c.2, in_bawana := true,
              movement_points := 10 } (rand r).2).1.movement_points ∧
      check_and_cap_movement_points maze
          (bawana_switch (maze 0 c.1 c.2).bawana_effect
            { p with
                floor := 0, width := c.1, length := c.2, in_bawana := true,
                movement_points := 10 } (rand r).2).1
          (bawana_switch (maze 0 c.1 c.2).bawana_effect
            { p with
                floor := 0, width := c.1, length := c.2, in_bawana := true,
                movement_points := 10 } (rand r).2).2 =
        bawana_switch (maze 0 c.1 c.2).bawana_effect
            { p with
                floor := 0, width := c.1, length := c.2, in_bawana := true,
                movement_points := 10 } (rand r).2 ∧
      transport_to_bawana maze p r =
        ({ (bawana_switch (maze 0 c.1 c.2).bawana_effect
              { p with
                  floor := 0, width := c.1, length := c.2, in_bawana := true,
                  movement_points := 10 } (rand r).2).1 with in_bawana := false },
          (bawana_switch (maze 0 c.1 c.2).bawana_effect
              { p with
                  floor := 0, width := c.1, length := c.2, in_bawana := true,
                  movement_points := 10 } (rand r).2).2)) ∧
    10 ≤ (transport_to_bawana maze p r).1.movement_points ∧
    check_and_cap_movement_points maze p r =
      (if p.movement_points ≤ 0 then transport_to_bawana maze p r
       else ({ p with movement_points := min p.movement_points 1000 }, r)) := by
  refine ⟨?_, (transport_to_bawana_points maze p r).1, ?_⟩
  · have hlt : (rand r).1 % 20 < bawana_positions.length := Nat.mod_lt _ (by decide)
    have hten := bawana_switch_points_ge_ten
      (maze 0 (transport_place p (rand r).1).width
        (transport_place p (rand r).1).length).bawana_effect p (rand r).1 (rand r).2
    refine ⟨((transport_place p (rand r).1).width, (transport_place p (rand r).1).length),
      ?_, hten.1, ?_, ?_⟩
    · rw [List.get?_eq_get hlt]
      simp [transport_place, List.getD_eq_getElem?_getD, List.getElem?_eq_getElem hlt]
    · show check_and_cap_movement_points maze
          (bawana_switch _ (transport_place p (rand r).1) (rand r).2).1
          (bawana_switch _ (transport_place p (rand r).1) (rand r).2).2 = _
      rw [check_and_cap_of_pos _ _ _ (lt_of_lt_of_le (by decide : (0 : Int) < 10) hten.1),
        cap_points_of_le _ (le_trans hten.2 (by unfold MAX_MOVEMENT_POINTS; decide))]
      rfl
    · rw [transport_to_bawana_eq,
        cap_points_of_le _ (le_trans hten.2 (by unfold MAX_MOVEMENT_POINTS; decide))]
      rfl
  · split
    · rename_i h
      exact check_and_cap_of_nonpos maze p r h
    · rename_i h
      rw [check_and_cap_of_pos maze p r (by omega), cap_points_eq_min]

/-! ## Cell effects before the balance check -/

/-- C27: at a valid position `apply_cell_effects` hands to the balance check the
balance `b - v` (cost `v`) for a consume cell, `b + v` (cost 0) for an add cell,
and for a multiply cell `b * v` when `b ≤ 100` and `b + 20 * v` otherwise (cost
0); at a position that is not valid it reports cost 0 and changes nothing. -/
theorem C27_cell_effect_arithmetic (maze : Maze) (p : Player) (f w l : Int) (r : Rng) :
    (is_valid_position f w l = true →
      (maze f w l).effect_type = .EFFECT_CONSUMABLE →
      apply_cell_effects maze p f w l r =
        ((check_and_cap_movement_points maze
            { p with movement_points := p.movement_points - (maze f w l).effect_value } r).1,
          (maze f w l).effect_value,
          (check_and_cap_movement_points maze
            { p with movement_points := p.movement_points - (maze f w l).effect_value }
            r).2)) ∧
    (is_valid_position f w l = true →
      (maze f w l).effect_type = .EFFECT_BONUS_ADD →
      apply_cell_effects maze p f w l r =
        ((check_and_cap_movement_points maze
            { p with movement_points := p.movement_points + (maze f w l).effect_value } r).1,
          0,
          (check_and_cap_movement_points maze
            { p with movement_points := p.movement_points + (maze f w l).effect_value }
            r).2)) ∧
    (is_valid_position f w l = true →
      (maze f w l).effect_type = .EFFECT_BONUS_MULTIPLY →
      p.movement_points ≤ 100 →
      apply_cell_effects maze p f w l r =
        ((check_and_cap_movement_points maze
            { p with movement_points := p.movement_points * (maze f w l).effect_value } r).1,
          0,
          (check_and_cap_movement_points maze
            { p with movement_points := p.movement_points * (maze f w l).effect_value }
            r).2)) ∧
    (is_valid_position f w l = true →
      (maze f w l).effect_type = .EFFECT_BONUS_MULTIPLY →
      100 < p.movement_points →
      apply_cell_effects maze p f w l r =
        ((check_and_cap_movement_points maze
            { p with movement_points := p.movement_points + 20 * (maze f w l).effect_value }
            r).1,
          0,
          (check_and_cap_movement_points maze
            { p with movement_points := p.movement_points + 20 * (maze f w l).effect_value }
            r).2)) ∧
    (is_valid_position f w l = false → apply_cell_effects maze p f w l r = (p, 0, r)) := by
  refine ⟨?_, ?_, ?_, ?_, ?_⟩
  · intro hv ht
    unfold apply_cell_effects
    simp only [hv, Bool.not_true, Bool.false_eq_true, if_false, ht]
  · intro hv ht
    unfold apply_cell_effects
    simp only [hv, Bool.not_true, Bool.false_eq_true, if_false, ht]
  · intro hv ht hb
    unfold apply_cell_effects
    simp only [hv, Bool.not_true, Bool.false_eq_true, if_false, ht, hb, if_true]
  · intro hv ht hb
    unfold apply_cell_effects
    have hb1 : ¬ p.movement_points ≤ 100 := by omega
    simp only [hv, Bool.not_true, Bool.false_eq_true, if_false, ht, hb1]
    rw [mul_comm]
  · intro hv
    unfold apply_cell_effects
    simp only [hv, Bool.not_false, if_true]

/-- The witness of C27: balance 1 on the valid cell (0,3,4), which consumes 1. -/
theorem C27_cell_effect_arithmetic_witness :
    is_valid_position 0 3 4 = true ∧
    (demo_maze 0 3 4).effect_type = .EFFECT_CONSUMABLE ∧
    (apply_cell_effects demo_maze demo_player 0 3 4 zero_rng).2.1 =
      (demo_maze 0 3 4).effect_value :=
  ⟨by decide, rfl,
   congrArg (fun x => x.2.1)
     ((C27_cell_effect_arithmetic demo_maze demo_player 0 3 4 zero_rng).1 (by decide) rfl)⟩

/-! ## Setup of the cell table: effect buckets -/

theorem init_cell_step_keeps_pred (P : Cell → Prop) (hP : ∀ r, P (draw_cell r).1)
    (f w : Nat) (s : Maze × Rng) (l : Nat) (f1 w1 l1 : Int) (h : P (s.1 f1 w1 l1)) :
    P ((init_cell_step f w s l).1 f1 w1 l1) := by
  unfold init_cell_step set_cell
  dsimp only
  split
  · exact hP _
  · exact h

theorem init_cell_step_sets_pred (P : Cell → Prop) (hP : ∀ r, P (draw_cell r).1)
    (f w : Nat) (s : Maze × Rng) (l : Nat) :
    P ((init_cell_step f w s l).1 f w l) := by
  unfold init_cell_step set_cell
  simp only [and_self, if_true]
  exact hP _

/-- After `initialize_maze_cells` every cell of the grid satisfies every
property that all drawn cells have. -/
theorem initialize_maze_cells_pred (P : Cell → Prop) (hP : ∀ r, P (draw_cell r).1)
    (maze : Maze) (r : Rng) (f w l : Nat) (hf : f < 3) (hw : w < 10) (hl : l < 25) :
    P ((initialize_maze_cells maze r).1 f w l) := by
  unfold initialize_maze_cells
  refine foldl_establishes _ (fun (s : Maze × Rng) => P (s.1 (f : Int) w l))
    (fun a => a = f) ?_ ?_ _ _ ⟨f, List.mem_range.mpr hf, rfl⟩
  · intro s a hs
    refine foldl_invariant _ (fun (s : Maze × Rng) => P (s.1 (f : Int) w l)) ?_ _ _ hs
    intro s b hs
    refine foldl_invariant _ (fun (s : Maze × Rng) => P (s.1 (f : Int) w l)) ?_ _ _ hs
    intro s c hs
    exact init_cell_step_keeps_pred P hP _ _ _ _ _ _ _ hs
  · intro s a ha
    subst ha
    refine foldl_establishes _ (fun (s : Maze × Rng) => P (s.1 (a : Int) w l))
      (fun b => b = w) ?_ ?_ _ _ ⟨w, List.mem_range.mpr hw, rfl⟩
    · intro s b hs
      refine foldl_invariant _ (fun (s : Maze × Rng) => P (s.1 (a : Int) w l)) ?_ _ _ hs
      intro s c hs
      exact init_cell_step_keeps_pred P hP _ _ _ _ _ _ _ hs
    · intro s b hb
      subst hb
      refine foldl_establishes _ (fun (s : Maze × Rng) => P (s.1 (a : Int) b l))
        (fun c => c = l) ?_ ?_ _ _ ⟨l, List.mem_range.mpr hl, rfl⟩
      · intro s c hs
        exact init_cell_step_keeps_pred P hP _ _ _ _ _ _ _ hs
      · intro s c hc
        subst hc
        exact init_cell_step_sets_pred P hP _ _ _ _

/-- The cell drawn in each bucket. -/
theorem draw_cell_by_bucket (r : Rng) :
    (draw_bucket ((rand r).1 % 100) = 0 →
      (draw_cell r).1.effect_type = .EFFECT_CONSUMABLE ∧ (draw_cell r).1.effect_value = 0) ∧
    (draw_bucket ((rand r).1 % 100) = 1 →
      (draw_cell r).1.effect_type = .EFFECT_CONSUMABLE ∧
      1 ≤ (draw_cell r).1.effect_value ∧ (draw_cell r).1.effect_value ≤ 4) ∧
    (draw_bucket ((rand r).1 % 100) = 2 →
      (draw_cell r).1.effect_type = .EFFECT_BONUS_ADD ∧
      1 ≤ (draw_cell r).1.effect_value ∧ (draw_cell r).1.effect_value ≤ 2) ∧
    (draw_bucket ((rand r).1 % 100) = 3 →
      (draw_cell r).1.effect_type = .EFFECT_BONUS_ADD ∧
      3 ≤ (draw_cell r).1.effect_value ∧ (draw_cell r).1.effect_value ≤ 5) ∧
    (draw_bucket ((rand r).1 % 100) = 4 →
      (draw_cell r).1.effect_type = .EFFECT_BONUS_MULTIPLY ∧
      2 ≤ (draw_cell r).1.effect_value ∧ (draw_cell r).1.effect_value ≤ 3) := by
  unfold draw_cell draw_bucket
  dsimp only
  split_ifs <;> simp <;> omega

theorem draw_bucket_lt (b : Nat) : draw_bucket b < 5 := by
  unfold draw_bucket
  split_ifs <;> decide

theorem draw_cell_in_ranges (r : Rng) :
    (draw_cell r).1.effect_type ≠ .EFFECT_NONE ∧ cell_in_setup_ranges (draw_cell r).1 := by
  have h := draw_cell_by_bucket r
  have hlt := draw_bucket_lt ((rand r).1 % 100)
  unfold cell_in_setup_ranges
  generalize draw_bucket ((rand r).1 % 100) = k at h hlt
  interval_cases k
  · have := h.1 rfl
    exact ⟨by rw [this.1]; decide, Or.inl ⟨this.1, by omega, by omega⟩⟩
  · have := h.2.1 rfl
    exact ⟨by rw [this.1]; decide, Or.inl ⟨this.1, by omega, by omega⟩⟩
  · have := h.2.2.1 rfl
    exact ⟨by rw [this.1]; decide, Or.inr (Or.inl ⟨this.1, by omega, by omega⟩)⟩
  · have := h.2.2.2.1 rfl
    exact ⟨by rw [this.1]; decide, Or.inr (Or.inl ⟨this.1, by omega, by omega⟩)⟩
  · have := h.2.2.2.2 rfl
    exact ⟨by rw [this.1]; decide, Or.inr (Or.inr ⟨this.1, by omega, by omega⟩)⟩

/-- C28: of the 100 values of the bucket draw, 25, 35, 25, 10 and 5 take the five
branches; the branches give consume 0, consume 1..4, add 1..2, add 3..5 and
multiply 2..3; hence after `initialize_maze_cells`, for every previous table and
random source, no cell of the grid has effect `EFFECT_NONE` and every value lies
in the range of its kind. -/
theorem C28_effect_buckets :
    ((Finset.range 100).filter (fun b => draw_bucket b = 0)).card = 25 ∧
    ((Finset.range 100).filter (fun b => draw_bucket b = 1)).card = 35 ∧
    ((Finset.range 100).filter (fun b => draw_bucket b = 2)).card = 25 ∧
    ((Finset.range 100).filter (fun b => draw_bucket b = 3)).card = 10 ∧
    ((Finset.range 100).filter (fun b => draw_bucket b = 4)).card = 5 ∧
    (∀ r : Rng,
      (draw_bucket ((rand r).1 % 100) = 0 →
        (draw_cell r).1.effect_type = .EFFECT_CONSUMABLE ∧
        (draw_cell r).1.effect_value = 0) ∧
      (draw_bucket ((rand r).1 % 100) = 1 →
        (draw_cell r).1.effect_type = .EFFECT_CONSUMABLE ∧
        1 ≤ (draw_cell r).1.effect_value ∧ (draw_cell r).1.effect_value ≤ 4) ∧
      (draw_bucket ((rand r).1 % 100) = 2 →
        (draw_cell r).1.effect_type = .EFFECT_BONUS_ADD ∧
        1 ≤ (draw_cell r).1.effect_value ∧ (draw_cell r).1.effect_value ≤ 2) ∧
      (draw_bucket ((rand r).1 % 100) = 3 →
        (draw_cell r).1.effect_type = .EFFECT_BONUS_ADD ∧
        3 ≤ (draw_cell r).1.effect_value ∧ (draw_cell r).1.effect_value ≤ 5) ∧
      (draw_bucket ((rand r).1 % 100) = 4 →
        (draw_cell r).1.effect_type = .EFFECT_BONUS_MULTIPLY ∧
        2 ≤ (draw_cell r).1.effect_value ∧ (draw_cell r).1.effect_value ≤ 3)) ∧
    (∀ (maze : Maze) (r : Rng) (f w l : Nat), f < 3 → w < 10 → l < 25 →
      ((initialize_maze_cells maze r).1 f w l).effect_type ≠ .EFFECT_NONE ∧
      cell_in_setup_ranges ((initialize_maze_cells maze r).1 f w l)) := by
  refine ⟨by decide, by decide, by decide, by decide, by decide, draw_cell_by_bucket, ?_⟩
  intro maze r f w l hf hw hl
  exact initialize_maze_cells_pred
    (fun c => c.effect_type ≠ .EFFECT_NONE ∧ cell_in_setup_ranges c)
    draw_cell_in_ranges maze r f w l hf hw hl

/-- The witness of C28: the cell (1,2,3) after the setup from `demo_maze` with the
random source that always returns 0. -/
theorem C28_effect_buckets_witness :
    ((initialize_maze_cells demo_maze zero_rng).1 (1 : Nat) (2 : Nat) (3 : Nat)).effect_type ≠
      .EFFECT_NONE :=
  (C28_effect_buckets.2.2.2.2.2.2 demo_maze zero_rng 1 2 3 (by decide) (by decide)
    (by decide)).1

/-! ## Fields of the mover that a move keeps -/

theorem mover_kept_refl (p : Player) : mover_kept p p := ⟨rfl, rfl, rfl, fun h => h⟩

theorem mover_kept_trans {p q s : Player} (h1 : mover_kept p q) (h2 : mover_kept q s) :
    mover_kept p s :=
  ⟨h2.1.trans h1.1, h2.2.1.trans h1.2.1, h2.2.2.1.trans h1.2.2.1,
    fun h => h2.2.2.2 (h1.2.2.2 h)⟩

theorem cap_points_kept (p : Player) : mover_kept p (cap_points p) := by
  unfold cap_points
  split
  · exact ⟨rfl, rfl, rfl, fun h => h⟩
  · exact mover_kept_refl p

theorem bawana_switch_kept (e : BawanaEffect) (p : Player) (r : Rng) :
    mover_kept p (bawana_switch e p r).1 := by
  cases e <;> exact ⟨rfl, rfl, rfl, fun h => by first | exact h | rfl⟩

theorem transport_place_kept (p : Player) (v : Nat) : mover_kept p (transport_place p v) :=
  ⟨rfl, rfl, rfl, fun h => h⟩

theorem transport_to_bawana_kept (maze : Maze) (p : Player) (r : Rng) :
    mover_kept p (transport_to_bawana maze p r).1 := by
  rw [transport_to_bawana_eq]
  have h1 := transport_place_kept p (rand r).1
  have h2 := bawana_switch_kept
    (maze 0 (transport_place p (rand r).1).width
      (transport_place p (rand r).1).length).bawana_effect
    (transport_place p (rand r).1) (rand r).2
  have h3 := cap_points_kept (bawana_switch
    (maze 0 (transport_place p (rand r).1).width
      (transport_place p (rand r).1).length).bawana_effect
    (transport_place p (rand r).1) (rand r).2).1
  have h := mover_kept_trans h1 (mover_kept_trans h2 h3)
  exact ⟨h.1, h.2.1, h.2.2.1, h.2.2.2⟩

theorem check_and_cap_kept (maze : Maze) (p : Player) (r : Rng) :
    mover_kept p (check_and_cap_movement_points maze p r).1 := by
  by_cases h : 0 < p.movement_points
  · rw [check_and_cap_of_pos _ _ _ h]
    exact cap_points_kept p
  · rw [check_and_cap_of_nonpos _ _ _ (by omega)]
    exact transport_to_bawana_kept maze p r

theorem apply_bawana_effect_kept (maze : Maze) (p : Player) (r : Rng) :
    mover_kept p (apply_bawana_effect maze p r).1 := by
  rw [apply_bawana_effect]
  split
  · exact mover_kept_refl p
  · have h1 := bawana_switch_kept (maze 0 p.width p.length).bawana_effect p r
    have h2 := check_and_cap_kept maze
      (bawana_switch (maze 0 p.width p.length).bawana_effect p r).1
      (bawana_switch (maze 0 p.width p.length).bawana_effect p r).2
    have h := mover_kept_trans h1 h2
    exact ⟨h.1, h.2.1, h.2.2.1, h.2.2.2⟩

theorem apply_cell_effects_kept (maze : Maze) (p : Player) (f w l : Int) (r : Rng) :
    mover_kept p (apply_cell_effects maze p f w l r).1 := by
  unfold apply_cell_effects
  split
  · exact mover_kept_refl p
  · dsimp only
    split
    · exact mover_kept_trans (q := { p with movement_points := _ }) ⟨rfl, rfl, rfl, fun h => h⟩
        (check_and_cap_kept _ _ _)
    · exact mover_kept_trans (q := { p with movement_points := _ }) ⟨rfl, rfl, rfl, fun h => h⟩
        (check_and_cap_kept _ _ _)
    · refine mover_kept_trans ?_ (check_and_cap_kept _ _ _)
      split <;> exact ⟨rfl, rfl, rfl, fun h => h⟩
    · exact check_and_cap_kept _ _ _

theorem check_and_use_stairs_poles_kept (stairs : List Stair) (poles : List Pole) (p : Player) :
    mover_kept p (check_and_use_stairs_poles stairs poles p).1 := by
  have heq : check_and_use_stairs_poles stairs poles p =
      first_match_transition stairs poles p := use_stairs_eq stairs poles p
  rw [heq]
  unfold first_match_transition
  cases stairs.find? (fun s => stair_matches s p) with
  | some s =>
    unfold stair_transition
    dsimp only
    split <;> exact ⟨rfl, rfl, rfl, fun h => h⟩
  | none =>
    cases poles.find? (fun q => pole_matches q p) with
    | some q => exact ⟨rfl, rfl, rfl, fun h => h⟩
    | none => exact mover_kept_refl p

theorem move_loop_kept (p0 : Player) (recur : Game → Rng → Int → Option MoveResult)
    (idx : Fin 3) (dir : Direction) (eff : Int)
    (hrec : ∀ g2 r2 s2 res2, mover_kept p0 (g2.players idx) →
      recur g2 r2 s2 = some res2 → mover_kept p0 (res2.1.players idx))
    (n : Nat) : ∀ (step : Int) (g1 : Game) (r : Rng) (moved : Nat) (res : MoveResult),
      mover_kept p0 (g1.players idx) →
      move_loop recur idx dir eff n step g1 r moved = some res →
      mover_kept p0 (res.1.players idx) := by
  induction n with
  | zero =>
    intro step g1 r moved res hg h
    unfold move_loop at h
    rw [← Option.some.inj h]
    simp only [capture_scan_mover]
    exact hg
  | succ n ih =>
    intro step g1 r moved res hg h
    unfold move_loop at h
    cases hdir : step_offset dir with
    | none =>
      simp only [hdir] at h
      rw [← Option.some.inj h]
      exact hg
    | some d =>
      simp only [hdir] at h
      have hstep : mover_kept p0
          { g1.players idx with
              width := (g1.players idx).width + d.1,
              length := (g1.players idx).length + d.2 } :=
        mover_kept_trans hg ⟨rfl, rfl, rfl, fun h => h⟩
      have heff := mover_kept_trans hstep (apply_cell_effects_kept g1.maze
          { g1.players idx with
              width := (g1.players idx).width + d.1,
              length := (g1.players idx).length + d.2 }
          (g1.players idx).floor ((g1.players idx).width + d.1)
          ((g1.players idx).length + d.2) r)
      have hsp := mover_kept_trans heff (check_and_use_stairs_poles_kept g1.stairs g1.poles _)
      have hbw := mover_kept_trans hsp (apply_bawana_effect_kept g1.maze _
        (apply_cell_effects g1.maze
          { g1.players idx with
              width := (g1.players idx).width + d.1,
              length := (g1.players idx).length + d.2 }
          (g1.players idx).floor ((g1.players idx).width + d.1)
          ((g1.players idx).length + d.2) r).2.2)
      split at h
      · split at h
        · rw [← Option.some.inj h]
          simp only [capture_scan_mover, setPlayer_players_same]
          exact mover_kept_trans
            (mover_kept_trans hg (q := { g1.players idx with movement_points := _ })
              ⟨rfl, rfl, rfl, fun h => h⟩)
            (check_and_cap_kept _ _ _)
        · rw [← Option.some.inj h]
          simp only [capture_scan_mover]
          exact hg
      · split at h
        · rw [← Option.some.inj h]
          show mover_kept p0 ((Game.setPlayer g1 idx _).players idx)
          rw [setPlayer_players_same]
          exact heff
        · split at h
          · rw [← Option.some.inj h]
            simp only [capture_scan_mover, setPlayer_players_same]
            exact heff
          · split at h
            · rw [← Option.some.inj h]
              show mover_kept p0 ((Game.setPlayer g1 idx _).players idx)
              rw [setPlayer_players_same]
              exact hsp
            · split at h
              · rw [Option.map_eq_some'] at h
                obtain ⟨res2, hr, hres⟩ := h
                have hres1 : res.1 = res2.1 := by rw [← hres]
                rw [hres1]
                exact hrec _ _ _ res2 (by simp only [setPlayer_players_same]; exact hsp) hr
              · split at h
                · rw [← Option.some.inj h]
                  simp only [capture_scan_mover, setPlayer_players_same]
                  exact hbw
                · exact ih _ _ _ _ res (by simp only [setPlayer_players_same]; exact hsp) h

/-- The mover's name, `in_maze` and throw count are the same after
`move_player_with_effects`, and a mover that was triggered is still triggered. -/
theorem move_player_with_effects_kept (idx : Fin 3) (dir : Direction) (fuel : Nat) :
    ∀ (p0 : Player) (g : Game) (r : Rng) (steps : Int) (res : MoveResult),
      mover_kept p0 (g.players idx) →
      move_player_with_effects fuel g r idx dir steps = some res →
      mover_kept p0 (res.1.players idx) := by
  induction fuel with
  | zero =>
    intro p0 g r steps res _ h
    exact Option.noConfusion h
  | succ fuel ih =>
    intro p0 g r steps res hg h
    unfold move_player_with_effects at h
    exact move_loop_kept p0 _ idx dir _
      (fun g2 r2 s2 res2 hg2 hr => ih p0 g2 r2 s2 res2 hg2 hr) _ _ g r 0 res hg h

/-! ## Movement resolver: the flag after a transition -/

/-- The balance is positive on return from `check_and_cap_movement_points`. -/
theorem check_and_cap_points_pos (maze : Maze) (p : Player) (r : Rng) :
    0 < (check_and_cap_movement_points maze p r).1.movement_points := by
  by_cases h : 0 < p.movement_points
  · rw [check_and_cap_of_pos _ _ _ h]
    exact cap_points_pos p h
  · rw [check_and_cap_of_nonpos _ _ _ (by omega)]
    have := (transport_to_bawana_points maze p r).1
    omega

/-- At a valid position the balance is positive on return from
`apply_cell_effects`. -/
theorem apply_cell_effects_points_pos (maze : Maze) (p : Player) (f w l : Int) (r : Rng)
    (hv : is_valid_position f w l = true) :
    0 < (apply_cell_effects maze p f w l r).1.movement_points := by
  unfold apply_cell_effects
  simp only [hv, Bool.not_true, Bool.false_eq_true, if_false]
  split <;> exact check_and_cap_points_pos _ _ _

theorem can_move_single_step_valid (walls : List Wall) (f w l w1 l1 : Int)
    (h : can_move_single_step walls f w l w1 l1 = true) : is_valid_position f w1 l1 = true := by
  unfold can_move_single_step at h
  by_cases ha : is_floor_accessible f w1 l1 = true
  · exact ((is_floor_accessible_iff f w1 l1).mp ha).1
  · simp [ha] at h

/-- One iteration of the step loop in which the committed step is followed by a
transition onto the flag. -/
theorem move_loop_transition_onto_flag (recur : Game → Rng → Int → Option MoveResult)
    (idx : Fin 3) (dir : Direction) (eff : Int) (n : Nat) (step : Int) (g : Game) (r : Rng)
    (moved : Nat) (dw dl cost : Int) (p2 p3 : Player) (r2 : Rng)
    (hdir : step_offset dir = some (dw, dl))
    (hmove : can_move_single_step g.walls (g.players idx).floor (g.players idx).width
      (g.players idx).length ((g.players idx).width + dw) ((g.players idx).length + dl) = true)
    (heff : apply_cell_effects g.maze
      { g.players idx with
          width := (g.players idx).width + dw, length := (g.players idx).length + dl }
      (g.players idx).floor ((g.players idx).width + dw) ((g.players idx).length + dl) r =
      (p2, cost, r2))
    (hnf : at_flag g p2 = false)
    (hsp : check_and_use_stairs_poles g.stairs g.poles p2 = (p3, true))
    (hfl : at_flag g p3 = true) :
    move_loop recur idx dir eff (n + 1) step g r moved =
      some ({ g.setPlayer idx p3 with game_over := true, winner := p3.name }, r2,
        moved + 1) := by
  have hpos : 0 < p2.movement_points := by
    have := apply_cell_effects_points_pos g.maze
      { g.players idx with
          width := (g.players idx).width + dw, length := (g.players idx).length + dl }
      (g.players idx).floor ((g.players idx).width + dw) ((g.players idx).length + dl) r
      (can_move_single_step_valid _ _ _ _ _ _ hmove)
    rw [heff] at this
    exact this
  unfold move_loop
  simp only [hdir, hmove, Bool.not_true, Bool.false_eq_true, if_false, heff, hnf, hsp, hfl,
    and_self, if_true]
  rw [if_neg (by omega)]

/-- C29: when the stair or pole transition taken after a committed step puts the
mover on the flag, the step loop returns at once with `game_over = true` and
`winner` the mover's name, whatever the resumption would do; in particular so
does the call when this happens on its first step. -/
theorem C29_flag_after_transition (fuel : Nat) (recur : Game → Rng → Int → Option MoveResult)
    (idx : Fin 3) (dir : Direction) (eff steps : Int) (n : Nat) (step : Int) (g : Game)
    (r : Rng) (moved : Nat) (dw dl cost : Int) (p2 p3 : Player) (r2 : Rng)
    (hdir : step_offset dir = some (dw, dl))
    (hmove : can_move_single_step g.walls (g.players idx).floor (g.players idx).width
      (g.players idx).length ((g.players idx).width + dw) ((g.players idx).length + dl) = true)
    (heff : apply_cell_effects g.maze
      { g.players idx with
          width := (g.players idx).width + dw, length := (g.players idx).length + dl }
      (g.players idx).floor ((g.players idx).width + dw) ((g.players idx).length + dl) r =
      (p2, cost, r2))
    (hnf : at_flag g p2 = false)
    (hsp : check_and_use_stairs_poles g.stairs g.poles p2 = (p3, true))
    (hfl : at_flag g p3 = true) :
    move_loop recur idx dir eff (n + 1) step g r moved =
      some ({ g.setPlayer idx p3 with game_over := true, winner := p3.name }, r2,
        moved + 1) ∧
    p3.name = (g.players idx).name ∧
    (1 ≤ steps →
      move_player_with_effects (fuel + 1) g r idx dir steps =
        some ({ g.setPlayer idx p3 with game_over := true, winner := p3.name }, r2, 1)) := by
  refine ⟨move_loop_transition_onto_flag recur idx dir eff n step g r moved dw dl cost p2 p3 r2
    hdir hmove heff hnf hsp hfl, ?_, ?_⟩
  · have h1 := apply_cell_effects_kept g.maze
      { g.players idx with
          width := (g.players idx).width + dw, length := (g.players idx).length + dl }
      (g.players idx).floor ((g.players idx).width + dw) ((g.players idx).length + dl) r
    rw [heff] at h1
    have h2 := check_and_use_stairs_poles_kept g.stairs g.poles p2
    rw [hsp] at h2
    exact h2.1.trans h1.1
  · intro hs
    unfold move_player_with_effects
    obtain ⟨k, hk⟩ : ∃ k,
        (if (g.players idx).triggered = true then steps * 2 else steps).toNat = k + 1 := by
      refine Nat.exists_eq_succ_of_ne_zero ?_
      split <;> omega
    simp only [hk]
    exact move_loop_transition_onto_flag _ idx dir _ k 0 g r 0 dw dl cost p2 p3 r2
      hdir hmove heff hnf hsp hfl

/-- The witness of C29: the first step leads to the stair that ends on the flag
cell (2,5,10). -/
theorem C29_flag_after_transition_witness :
    ∃ res : MoveResult,
      move_player_with_effects 1 stair_flag_game zero_rng 0 .EAST 3 = some res ∧
      res.1.game_over = true ∧ res.1.winner = 'A' ∧ res.2.2 = 1 := by
  have h := (C29_flag_after_transition 0 (fun _ _ _ => none) 0 .EAST 3 3 2 0 stair_flag_game
    zero_rng 0 1 0 0
    ⟨'A', 0, 1, 5, .EAST, true, 1, 100, 0, 0, false, false, .NORTH⟩
    ⟨'A', 2, 5, 10, .EAST, true, 1, 100, 0, 0, false, false, .NORTH⟩ zero_rng rfl
    (by decide)
    (by simp [stair_flag_game, apply_cell_effects, is_valid_position, MAX_FLOORS, MAZE_WIDTH,
          MAZE_LENGTH, free_maze, demo_tags, check_and_cap_of_pos, cap_points,
          MAX_MOVEMENT_POINTS])
    (by decide) (by decide) (by decide)).2.2 (by decide)
  exact ⟨_, h, rfl, rfl, rfl⟩

/-! ## Turn controller: poisoned and waiting players -/

/-- Closed form of `transport_to_bawana`: the recovery switch of the drawn cell,
applied to the player placed there with balance 10, with `in_bawana` cleared. -/
theorem transport_to_bawana_closed (maze : Maze) (p : Player) (r : Rng) :
    ∃ c : Int × Int, bawana_positions.get? ((rand r).1 % 20) = some c ∧
      transport_to_bawana maze p r =
        ({ (bawana_switch (maze 0 c.1 c.2).bawana_effect
              { p with
                  floor := 0, width := c.1, length := c.2, in_bawana := true,
                  movement_points := 10 } (rand r).2).1 with in_bawana := false },
          (bawana_switch (maze 0 c.1 c.2).bawana_effect
              { p with
                  floor := 0, width := c.1, length := c.2, in_bawana := true,
                  movement_points := 10 } (rand r).2).2) := by
  have hlt : (rand r).1 % 20 < bawana_positions.length := Nat.mod_lt _ (by decide)
  have hten := bawana_switch_points_ge_ten
    (maze 0 (transport_place p (rand r).1).width
      (transport_place p (rand r).1).length).bawana_effect p (rand r).1 (rand r).2
  refine ⟨((transport_place p (rand r).1).width, (transport_place p (rand r).1).length),
    ?_, ?_⟩
  · rw [List.get?_eq_get hlt]
    simp [transport_place, List.getD_eq_getElem?_getD, List.getElem?_eq_getElem hlt]
  · rw [transport_to_bawana_eq,
      cap_points_of_le _ (le_trans hten.2 (by unfold MAX_MOVEMENT_POINTS; decide))]
    rfl

theorem bawana_switch_poisoning_turns (e : BawanaEffect) (p : Player) (r : Rng) :
    (bawana_switch e p r).1.food_poisoning_turns =
      if e = .BAWANA_FOOD_POISONING then 3 else p.food_poisoning_turns := by
  cases e <;> rfl

/-- C23: a poisoned player's turn rolls no die.  With at least 2 turns left the
whole state changes only in `food_poisoning_turns`, which drops by 1; with 1 turn
left the counter reaches 0 and the player is transported: placed on the drawn
recovery cell with balance 10, given that cell's recovery effect, so that the
counter ends as 3 on a poisoning cell and as 0 otherwise; no other player
changes. -/
theorem C23_poisoned_turn (fuel : Nat) (g : Game) (r : Rng) (idx : Fin 3)
    (hn : 0 < (g.players idx).food_poisoning_turns) :
    (2 ≤ (g.players idx).food_poisoning_turns →
      play_turn fuel g r idx =
        some (g.setPlayer idx
          { g.players idx with
              food_poisoning_turns := (g.players idx).food_poisoning_turns - 1 }, r)) ∧
    ((g.players idx).food_poisoning_turns = 1 →
      ∃ c : Int × Int, bawana_positions.get? ((rand r).1 % 20) = some c ∧
        play_turn fuel g r idx =
          some (g.setPlayer idx
            { (bawana_switch (g.maze 0 c.1 c.2).bawana_effect
                { g.players idx with
                    food_poisoning_turns := 0, floor := 0, width := c.1, length := c.2,
                    in_bawana := true, movement_points := 10 } (rand r).2).1 with
              in_bawana := false },
            (bawana_switch (g.maze 0 c.1 c.2).bawana_effect
                { g.players idx with
                    food_poisoning_turns := 0, floor := 0, width := c.1, length := c.2,
                    in_bawana := true, movement_points := 10 } (rand r).2).2) ∧
        (bawana_switch (g.maze 0 c.1 c.2).bawana_effect
            { g.players idx with
                food_poisoning_turns := 0, floor := 0, width := c.1, length := c.2,
                in_bawana := true, movement_points := 10 } (rand r).2).1.food_poisoning_turns =
          (if (g.maze 0 c.1 c.2).bawana_effect = .BAWANA_FOOD_POISONING then 3 else 0)) ∧
    (∀ s : Game × Rng, play_turn fuel g r idx = some s →
      ∀ j, j ≠ idx → s.1.players j = g.players j) := by
  refine ⟨?_, ?_, ?_⟩
  · intro h2
    unfold play_turn
    simp only [gt_iff_lt]
    rw [if_pos hn, if_neg (by
      show ¬ (g.players idx).food_poisoning_turns - 1 = 0
      omega)]
  · intro h1
    obtain ⟨c, hc, ht⟩ := transport_to_bawana_closed g.maze
      { g.players idx with food_poisoning_turns := 0 } r
    refine ⟨c, hc, ?_, ?_⟩
    · have hpt : play_turn fuel g r idx =
          some (g.setPlayer idx (transport_to_bawana g.maze
            { g.players idx with food_poisoning_turns := 0 } r).1,
            (transport_to_bawana g.maze
              { g.players idx with food_poisoning_turns := 0 } r).2) := by
        unfold play_turn
        simp only [gt_iff_lt]
        rw [if_pos hn, if_pos (by
          show (g.players idx).food_poisoning_turns - 1 = 0
          omega)]
        simp only [h1, sub_self]
      rw [hpt, ht]
    · rw [bawana_switch_poisoning_turns]
  · intro s hs j hj
    unfold play_turn at hs
    simp only [gt_iff_lt] at hs
    rw [if_pos hn] at hs
    split at hs
    · rw [← Option.some.inj hs]
      exact setPlayer_players_other _ _ _ _ hj
    · rw [← Option.some.inj hs]
      exact setPlayer_players_other _ _ _ _ hj

/-- The witness of C23: player `A` with one poisoned turn left. -/
theorem C23_poisoned_turn_witness :
    (0 : Int) < (poisoned_game.players 0).food_poisoning_turns ∧
    ∃ c : Int × Int, bawana_positions.get? ((rand zero_rng).1 % 20) = some c ∧
      play_turn 0 poisoned_game zero_rng 0 =
        some (poisoned_game.setPlayer 0
          { (bawana_switch (poisoned_game.maze 0 c.1 c.2).bawana_effect
              { poisoned_game.players 0 with
                  food_poisoning_turns := 0, floor := 0, width := c.1, length := c.2,
                  in_bawana := true, movement_points := 10 } (rand zero_rng).2).1 with
            in_bawana := false },
          (bawana_switch (poisoned_game.maze 0 c.1 c.2).bawana_effect
              { poisoned_game.players 0 with
                  food_poisoning_turns := 0, floor := 0, width := c.1, length := c.2,
                  in_bawana := true, movement_points := 10 } (rand zero_rng).2).2) := by
  obtain ⟨c, hc, h, _⟩ :=
    (C23_poisoned_turn 0 poisoned_game zero_rng 0 (by decide)).2.1 (by decide)
  exact ⟨by decide, c, hc, h⟩

theorem entry_cell_kept (p : Player) : mover_kept p (entry_cell p) := by
  unfold entry_cell
  split_ifs <;> exact ⟨rfl, rfl, rfl, fun h => h⟩

/-- C24: a player that is not poisoned, not flagged `in_bawana` and not in the
maze rolls the entry die `rand() % 6 + 1`.  On 6 the player gets `in_maze`, throw
count 1 and its entry cell (A:(5,12), B:(9,7), C:(9,17)), and
`apply_cell_effects` is applied at that cell; `in_maze` and the throw count are
still so on return.  On another value `in_maze` and the throw count are
unchanged and the balance check receives the balance less 2; when the balance
exceeded 2 the position is unchanged and the balance is `min (b - 2) 1000`. -/
theorem C24_entry_roll (fuel : Nat) (g : Game) (r : Rng) (idx : Fin 3)
    (hp : (g.players idx).food_poisoning_turns ≤ 0)
    (hb : (g.players idx).in_bawana = false)
    (hm : (g.players idx).in_maze = false) :
    ((rand r).1 % 6 + 1 = 6 →
      play_turn fuel g r idx =
        some (g.setPlayer idx
          (apply_cell_effects g.maze
            (entry_cell { g.players idx with in_maze := true, dice_throw_count := 1 })
            (g.players idx).floor
            (entry_cell { g.players idx with in_maze := true, dice_throw_count := 1 }).width
            (entry_cell { g.players idx with in_maze := true, dice_throw_count := 1 }).length
            (rand r).2).1,
          (apply_cell_effects g.maze
            (entry_cell { g.players idx with in_maze := true, dice_throw_count := 1 })
            (g.players idx).floor
            (entry_cell { g.players idx with in_maze := true, dice_throw_count := 1 }).width
            (entry_cell { g.players idx with in_maze := true, dice_throw_count := 1 }).length
            (rand r).2).2.2) ∧
      ∀ s : Game × Rng, play_turn fuel g r idx = some s →
        (s.1.players idx).in_maze = true ∧ (s.1.players idx).dice_throw_count = 1) ∧
    ((rand r).1 % 6 + 1 ≠ 6 →
      play_turn fuel g r idx =
        some (g.setPlayer idx
          (check_and_cap_movement_points g.maze
            { g.players idx with movement_points := (g.players idx).movement_points - 2 }
            (rand r).2).1,
          (check_and_cap_movement_points g.maze
            { g.players idx with movement_points := (g.players idx).movement_points - 2 }
            (rand r).2).2) ∧
      (∀ s : Game × Rng, play_turn fuel g r idx = some s →
        (s.1.players idx).in_maze = false ∧
        (s.1.players idx).dice_throw_count = (g.players idx).dice_throw_count) ∧
      (2 < (g.players idx).movement_points →
        play_turn fuel g r idx =
          some (g.setPlayer idx
            { g.players idx with
                movement_points := min ((g.players idx).movement_points - 2) 1000 },
            (rand r).2))) ∧
    (∀ p : Player,
      (p.name = 'A' → (entry_cell p).width = 5 ∧ (entry_cell p).length = 12) ∧
      (p.name = 'B' → (entry_cell p).width = 9 ∧ (entry_cell p).length = 7) ∧
      (p.name = 'C' → (entry_cell p).width = 9 ∧ (entry_cell p).length = 17) ∧
      (entry_cell p).floor = p.floor) := by
  have hp1 : ¬ (g.players idx).food_poisoning_turns > 0 := by omega
  have hb1 : ¬ (g.players idx).in_bawana = true := by rw [hb]; decide
  have hfloor : ∀ p : Player, (entry_cell p).floor = p.floor := by
    intro p
    unfold entry_cell
    split_ifs <;> rfl
  refine ⟨?_, ?_, ?_⟩
  · intro h6
    have h6i : (roll_movement_dice r).1 = 6 := by
      show (((rand r).1 % 6 + 1 : Nat) : Int) = 6
      rw [h6]; rfl
    have heq : play_turn fuel g r idx =
        some (g.setPlayer idx
          (apply_cell_effects g.maze
            (entry_cell { g.players idx with in_maze := true, dice_throw_count := 1 })
            (g.players idx).floor
            (entry_cell { g.players idx with in_maze := true, dice_throw_count := 1 }).width
            (entry_cell { g.players idx with in_maze := true, dice_throw_count := 1 }).length
            (rand r).2).1,
          (apply_cell_effects g.maze
            (entry_cell { g.players idx with in_maze := true, dice_throw_count := 1 })
            (g.players idx).floor
            (entry_cell { g.players idx with in_maze := true, dice_throw_count := 1 }).width
            (entry_cell { g.players idx with in_maze := true, dice_throw_count := 1 }).length
            (rand r).2).2.2) := by
      unfold play_turn
      simp only []
      rw [if_neg hp1, if_neg hb1, if_pos hm, if_pos h6i, hfloor]
      rfl
    refine ⟨heq, ?_⟩
    intro s hs
    rw [heq] at hs
    rw [← Option.some.inj hs]
    simp only [setPlayer_players_same]
    have hk := mover_kept_trans
      (entry_cell_kept { g.players idx with in_maze := true, dice_throw_count := 1 })
      (apply_cell_effects_kept g.maze
        (entry_cell { g.players idx with in_maze := true, dice_throw_count := 1 })
        (g.players idx).floor
        (entry_cell { g.players idx with in_maze := true, dice_throw_count := 1 }).width
        (entry_cell { g.players idx with in_maze := true, dice_throw_count := 1 }).length
        (rand r).2)
    exact ⟨hk.2.1, hk.2.2.1⟩
  · intro h6
    have h6i : ¬ (roll_movement_dice r).1 = 6 := by
      show ¬ (((rand r).1 % 6 + 1 : Nat) : Int) = 6
      omega
    have heq : play_turn fuel g r idx =
        some (g.setPlayer idx
          (check_and_cap_movement_points g.maze
            { g.players idx with movement_points := (g.players idx).movement_points - 2 }
            (rand r).2).1,
          (check_and_cap_movement_points g.maze
            { g.players idx with movement_points := (g.players idx).movement_points - 2 }
            (rand r).2).2) := by
      unfold play_turn
      simp only []
      rw [if_neg hp1, if_neg hb1, if_pos hm, if_neg h6i]
      rfl
    refine ⟨heq, ?_, ?_⟩
    · intro s hs
      rw [heq] at hs
      rw [← Option.some.inj hs]
      simp only [setPlayer_players_same]
      have hk := check_and_cap_kept g.maze
        { g.players idx with movement_points := (g.players idx).movement_points - 2 }
        (rand r).2
      exact ⟨hk.2.1.trans hm, hk.2.2.1⟩
    · intro h2
      rw [heq, check_and_cap_of_pos _ _ _ (by
        show 0 < (g.players idx).movement_points - 2
        omega), cap_points_eq_min]
  · intro p
    refine ⟨?_, ?_, ?_, hfloor p⟩
    · intro h; unfold entry_cell; rw [if_pos h]; exact ⟨rfl, rfl⟩
    · intro h
      unfold entry_cell
      rw [if_neg (by rw [h]; decide), if_pos h]
      exact ⟨rfl, rfl⟩
    · intro h
      unfold entry_cell
      rw [if_neg (by rw [h]; decide), if_neg (by rw [h]; decide), if_pos h]
      exact ⟨rfl, rfl⟩

/-- The witness of C24: player `A` waiting on its start pad rolls 1 and pays 2
points. -/
theorem C24_entry_roll_witness :
    (start_game.players 0).food_poisoning_turns ≤ 0 ∧
    (start_game.players 0).in_bawana = false ∧ (start_game.players 0).in_maze = false ∧
    (rand zero_rng).1 % 6 + 1 ≠ 6 ∧ 2 < (start_game.players 0).movement_points ∧
    play_turn 0 start_game zero_rng 0 =
      some (start_game.setPlayer 0
        { start_game.players 0 with
            movement_points := min ((start_game.players 0).movement_points - 2) 1000 },
        (rand zero_rng).2) :=
  ⟨by decide, rfl, rfl, by decide, by decide,
   ((C24_entry_roll 0 start_game zero_rng 0 (by decide) rfl rfl).2.1 (by decide)).2.2
     (by decide)⟩

/-! ## Turn controller: the in-maze branch -/

theorem guarded_move_kept (fuel : Nat) (g : Game) (r : Rng) (idx : Fin 3) (dir : Direction)
    (roll : Int) (p0 : Player) (s : Game × Rng) (hg : mover_kept p0 (g.players idx))
    (h : guarded_move fuel g r idx dir roll = some s) : mover_kept p0 (s.1.players idx) := by
  unfold guarded_move at h
  simp only [] at h
  split at h
  · rw [← Option.some.inj h]
    simp only [setPlayer_players_same]
    exact mover_kept_trans (mover_kept_trans hg ⟨rfl, rfl, rfl, fun h => h⟩)
      (check_and_cap_kept _ _ _)
  · cases hmv : move_player_with_effects fuel g r idx dir roll with
    | none => rw [hmv] at h; exact Option.noConfusion h
    | some res =>
      rw [hmv] at h
      rw [← Option.some.inj h]
      exact move_player_with_effects_kept idx dir fuel p0 g r roll res hg hmv

theorem in_maze_turn_kept (fuel : Nat) (g : Game) (r : Rng) (idx : Fin 3) (s : Game × Rng)
    (h : in_maze_turn fuel g r idx = some s) :
    mover_kept { g.players idx with dice_throw_count := (g.players idx).dice_throw_count + 1 }
      (s.1.players idx) := by
  unfold in_maze_turn at h
  simp only [] at h
  split at h
  · cases hmv : move_player_with_effects fuel
        (g.setPlayer idx
          { g.players idx with
              dice_throw_count := (g.players idx).dice_throw_count + 1,
              disoriented_turns := (g.players idx).disoriented_turns - 1 })
        (get_random_direction (roll_movement_dice r).2).2 idx
        (get_random_direction (roll_movement_dice r).2).1 (roll_movement_dice r).1 with
    | none => rw [hmv] at h; exact Option.noConfusion h
    | some res =>
      rw [hmv] at h
      rw [← Option.some.inj h]
      refine move_player_with_effects_kept idx _ fuel _ _ _ _ res ?_ hmv
      rw [setPlayer_players_same]
      exact ⟨rfl, rfl, rfl, fun h => h⟩
  · split at h
    · split at h
      · refine guarded_move_kept fuel _ _ idx _ _ _ s ?_ h
        rw [setPlayer_players_same]
        exact ⟨rfl, rfl, rfl, fun h => h⟩
      · refine guarded_move_kept fuel _ _ idx _ _ _ s ?_ h
        rw [setPlayer_players_same]
        exact ⟨rfl, rfl, rfl, fun h => h⟩
    · refine guarded_move_kept fuel _ _ idx _ _ _ s ?_ h
      rw [setPlayer_players_same]
      exact ⟨rfl, rfl, rfl, fun h => h⟩

/-- The in-maze branch is the one `play_turn` takes for a player that is not
poisoned, not flagged `in_bawana` and in the maze. -/
theorem play_turn_in_maze (fuel : Nat) (g : Game) (r : Rng) (idx : Fin 3)
    (hp : (g.players idx).food_poisoning_turns ≤ 0)
    (hb : (g.players idx).in_bawana = false)
    (hm : (g.players idx).in_maze = true) :
    play_turn fuel g r idx = (in_maze_turn fuel g r idx).map (clear_trigger idx) := by
  unfold play_turn
  simp only []
  rw [if_neg (by omega), if_neg (by rw [hb]; decide), if_neg (by rw [hm]; decide)]

theorem clear_trigger_of_multiple (idx : Fin 3) (s : Game × Rng)
    (h : (s.1.players idx).dice_throw_count % 4 = 0) :
    ((clear_trigger idx s).1.players idx).triggered = false := by
  unfold clear_trigger
  split
  · simp only [setPlayer_players_same]
  · rename_i hc
    cases ht : (s.1.players idx).triggered with
    | false => rfl
    | true => exact absurd ⟨ht, h⟩ hc

theorem clear_trigger_of_not_multiple (idx : Fin 3) (s : Game × Rng)
    (h : (s.1.players idx).dice_throw_count % 4 ≠ 0) : clear_trigger idx s = s := by
  unfold clear_trigger
  rw [if_neg (fun hc => h hc.2)]

/-- C26: in a turn of the in-maze branch of `play_turn` (player not poisoned,
not flagged `in_bawana`, in the maze) that returns, the triggered flag is false
on return when the incremented throw count is a multiple of 4; when it is not a
multiple of 4, a player that was triggered before the turn is triggered after
it. -/
theorem C26_trigger_cleared_on_fourth_throw (fuel : Nat) (g : Game) (r : Rng) (idx : Fin 3)
    (s : Game × Rng)
    (hp : (g.players idx).food_poisoning_turns ≤ 0)
    (hb : (g.players idx).in_bawana = false)
    (hm : (g.players idx).in_maze = true)
    (hs : play_turn fuel g r idx = some s) :
    (((g.players idx).dice_throw_count + 1) % 4 = 0 → (s.1.players idx).triggered = false) ∧
    (((g.players idx).dice_throw_count + 1) % 4 ≠ 0 → (g.players idx).triggered = true →
      (s.1.players idx).triggered = true) := by
  rw [play_turn_in_maze fuel g r idx hp hb hm] at hs
  cases hmv : in_maze_turn fuel g r idx with
  | none => rw [hmv] at hs; exact Option.noConfusion hs
  | some s1 =>
    rw [hmv] at hs
    have hk := in_maze_turn_kept fuel g r idx s1 hmv
    have hc : (s1.1.players idx).dice_throw_count = (g.players idx).dice_throw_count + 1 :=
      hk.2.2.1
    rw [← Option.some.inj hs]
    constructor
    · intro h4
      exact clear_trigger_of_multiple idx s1 (by rw [hc]; exact h4)
    · intro h4 ht
      rw [clear_trigger_of_not_multiple idx s1 (by rw [hc]; exact h4)]
      exact hk.2.2.2 ht

/-- The witness of C26: the triggered mover of `trigger_game` makes its fourth
throw against the wall and returns with the flag cleared. -/
theorem C26_trigger_cleared_on_fourth_throw_witness :
    ∃ s : Game × Rng, play_turn 0 trigger_game zero_rng 0 = some s ∧
      (trigger_game.players 0).triggered = true ∧
      ((trigger_game.players 0).dice_throw_count + 1) % 4 = 0 ∧
      (s.1.players 0).triggered = false := by
  have hev : ∃ s : Game × Rng, play_turn 0 trigger_game zero_rng 0 = some s := by
    rw [play_turn_in_maze 0 trigger_game zero_rng 0 (by decide) rfl rfl]
    simp [in_maze_turn, guarded_move, trigger_game, roll_movement_dice, roll_direction_dice,
      direction_face, rand, zero_rng, step_offset, can_move_single_step,
      is_path_blocked_by_wall, is_valid_position, is_floor_accessible, row_wall,
      wall_blocks, MAX_FLOORS, MAZE_WIDTH, MAZE_LENGTH, setPlayer_players_same]
  obtain ⟨s, hs⟩ := hev
  exact ⟨s, hs, rfl, by decide,
    (C26_trigger_cleared_on_fourth_throw 0 trigger_game zero_rng 0 s (by decide) rfl rfl hs).1
      (by decide)⟩

/-- The closed form of `change_stair_directions`: the list keeps its length, the
`i`-th stair keeps its cells and gets the flag `draw % 2 = 0` for the `i`-th
draw from the source, and one draw is made per stair. -/
theorem change_stair_directions_spec (l : List Stair) :
    ∀ r : Rng,
      (change_stair_directions l r).1.length = l.length ∧
      (change_stair_directions l r).2 = { r with pos := r.pos + l.length } ∧
      ∀ (i : Nat) (s : Stair), l.get? i = some s →
        (change_stair_directions l r).1.get? i =
          some { s with up_direction := decide (r.stream (r.pos + i) % 2 = 0) } := by
  induction l with
  | nil =>
    intro r
    refine ⟨rfl, rfl, ?_⟩
    intro i s h
    simp at h
  | cons a rest ih =>
    intro r
    obtain ⟨h1, h2, h3⟩ := ih (rand r).2
    refine ⟨?_, ?_, ?_⟩
    · simp only [change_stair_directions, List.length_cons, h1]
    · show (change_stair_directions rest (rand r).2).2 = _
      rw [h2]
      show ({ stream := r.stream, pos := r.pos + 1 + rest.length } : Rng) =
        { stream := r.stream, pos := r.pos + (rest.length + 1) }
      rw [Nat.add_assoc, Nat.add_comm 1]
    · intro i s h
      cases i with
      | zero =>
        simp only [List.get?_cons_zero, Option.some.injEq] at h
        simp only [change_stair_directions, List.get?_cons_zero, rand, h, Nat.add_zero]
      | succ j =>
        simp only [List.get?_cons_succ] at h
        simp only [change_stair_directions, List.get?_cons_succ]
        rw [h3 j s h]
        simp only [rand]
        simp only [Nat.add_assoc, Nat.add_comm 1 j]

/-- The loop over the seats runs the turns of a prefix of the seats in order and
stops at the first state with `game_over` set. -/
theorem play_seats_prefix (fuel : Nat) (seats : List (Fin 3)) :
    ∀ s s1 : Game × Rng, s.1.game_over = false → play_seats fuel seats s = some s1 →
      ∃ k : Nat, k ≤ seats.length ∧ turns_in_order fuel (seats.take k) s = some s1 ∧
        (s1.1.game_over = false → k = seats.length) ∧
        ∀ j : Nat, j < k → ∀ sj : Game × Rng,
          turns_in_order fuel (seats.take j) s = some sj → sj.1.game_over = false := by
  induction seats with
  | nil =>
    intro s s1 hg h
    refine ⟨0, le_refl _, ?_, fun _ => rfl, fun j hj => absurd hj (Nat.not_lt_zero j)⟩
    simpa [play_seats, turns_in_order] using h
  | cons i rest ih =>
    intro s s1 hg h
    unfold play_seats at h
    rw [if_neg (by rw [hg]; decide)] at h
    cases ht : play_turn fuel s.1 s.2 i with
    | none => rw [ht] at h; exact Option.noConfusion h
    | some s2 =>
      rw [ht] at h
      simp only [] at h
      by_cases hover : s2.1.game_over = true
      · rw [if_pos hover] at h
        have hs : s2 = s1 := Option.some.inj h
        refine ⟨1, by simp, ?_, ?_, ?_⟩
        · simp [turns_in_order, ht, hs]
        · intro hf
          rw [← hs, hover] at hf
          exact Bool.noConfusion hf
        · intro j hj sj hsj
          have hj0 : j = 0 := by omega
          subst hj0
          simp only [List.take_zero, turns_in_order, Option.some.injEq] at hsj
          rw [← hsj]; exact hg
      · rw [if_neg hover] at h
        have hg2 : s2.1.game_over = false := by
          cases hb : s2.1.game_over with
          | false => rfl
          | true => exact absurd hb hover
        obtain ⟨k, hk, hrun, hfull, hpre⟩ := ih s2 s1 hg2 h
        refine ⟨k + 1, by simp only [List.length_cons]; omega, ?_, ?_, ?_⟩
        · simp only [List.take_succ_cons, turns_in_order, ht, Option.some_bind, hrun]
        · intro hf
          simp only [List.length_cons, hfull hf]
        · intro j hj sj hsj
          cases j with
          | zero =>
            simp only [List.take_zero, turns_in_order, Option.some.injEq] at hsj
            rw [← hsj]; exact hg
          | succ j1 =>
            simp only [List.take_succ_cons, turns_in_order, ht, Option.some_bind] at hsj
            exact hpre j1 (by omega) sj hsj

/-- The head of a round leaves `game_over` as it was. -/
theorem round_start_game_over (g : Game) (r : Rng) :
    (round_start g r).1.game_over = g.game_over := by
  unfold round_start
  simp only []
  split <;> rfl

/-- The loop of `play_game` returns at once on a game that is over. -/
theorem play_game_of_over (fuel rounds : Nat) (g : Game) (r : Rng) (h : g.game_over = true) :
    play_game fuel rounds g r = some (g, r) := by
  cases rounds with
  | zero => unfold play_game; rw [if_pos h]
  | succ n => unfold play_game; rw [if_pos h]

/-- The three turns of a round written out: seat 0, then seat 1 unless
`game_over` is set, then seat 2 unless `game_over` is set. -/
theorem play_seats_three (fuel : Nat) (s : Game × Rng) (hg : s.1.game_over = false) :
    play_seats fuel [0, 1, 2] s =
      (play_turn fuel s.1 s.2 0).bind (fun s1 =>
        if s1.1.game_over = true then some s1
        else (play_turn fuel s1.1 s1.2 1).bind (fun s2 =>
          if s2.1.game_over = true then some s2 else play_turn fuel s2.1 s2.2 2)) := by
  unfold play_seats
  rw [if_neg (by rw [hg]; decide)]
  cases h0 : play_turn fuel s.1 s.2 0 with
  | none => rfl
  | some s1 =>
    simp only [Option.some_bind]
    by_cases h1 : s1.1.game_over = true
    · rw [if_pos h1, if_pos h1]
    · rw [if_neg h1, if_neg h1]
      unfold play_seats
      rw [if_neg h1]
      cases h2 : play_turn fuel s1.1 s1.2 1 with
      | none => rfl
      | some s2 =>
        simp only [Option.some_bind]
        by_cases h3 : s2.1.game_over = true
        · rw [if_pos h3, if_pos h3]
        · rw [if_neg h3, if_neg h3]
          unfold play_seats
          rw [if_neg h3]
          cases h4 : play_turn fuel s2.1 s2.2 2 with
          | none => rfl
          | some s3 =>
            simp only []
            by_cases h5 : s3.1.game_over = true
            · rw [if_pos h5]
            · rw [if_neg h5]; rfl

/-- C30: a round of `play_game` on a game that is not over adds 1 to
`round_count`; when the new count is not a multiple of 5 nothing else changes at
the start of the round (stairs and random source are as before), and when it is,
every stair keeps its cells and gets the flag `draw % 2 = 0` from its own draw;
then the turns of seats 0, 1, 2 run in that order, each at most once, the round
ending with the first state in which `game_over` is set; a round that ends with
`game_over` set is the result of `play_game`, and `play_game` on a game that is
over runs no round. -/
theorem C30_round_schedule (fuel : Nat) (g : Game) (r : Rng) (hg : g.game_over = false) :
    (round_start g r).1.round_count = g.round_count + 1 ∧
    ((g.round_count + 1) % 5 ≠ 0 →
      round_start g r = ({ g with round_count := g.round_count + 1 }, r)) ∧
    ((g.round_count + 1) % 5 = 0 →
      round_start g r =
        ({ g with
            round_count := g.round_count + 1,
            stairs := (change_stair_directions g.stairs r).1 },
         { r with pos := r.pos + g.stairs.length }) ∧
      (change_stair_directions g.stairs r).1.length = g.stairs.length ∧
      ∀ (i : Nat) (s : Stair), g.stairs.get? i = some s →
        (change_stair_directions g.stairs r).1.get? i =
          some { s with up_direction := decide (r.stream (r.pos + i) % 2 = 0) }) ∧
    play_round fuel g r =
      (play_turn fuel (round_start g r).1 (round_start g r).2 0).bind (fun s1 =>
        if s1.1.game_over = true then some s1
        else (play_turn fuel s1.1 s1.2 1).bind (fun s2 =>
          if s2.1.game_over = true then some s2 else play_turn fuel s2.1 s2.2 2)) ∧
    (∀ s1 : Game × Rng, play_round fuel g r = some s1 →
      ∃ k : Nat, k ≤ 3 ∧
        turns_in_order fuel ([0, 1, 2].take k) (round_start g r) = some s1 ∧
        (s1.1.game_over = false → k = 3) ∧
        ∀ j : Nat, j < k → ∀ sj : Game × Rng,
          turns_in_order fuel ([0, 1, 2].take j) (round_start g r) = some sj →
          sj.1.game_over = false) ∧
    (∀ (rounds : Nat) (s1 : Game × Rng), play_round fuel g r = some s1 →
      s1.1.game_over = true → play_game fuel (rounds + 1) g r = some s1) ∧
    (∀ (rounds : Nat) (s1 : Game × Rng), play_round fuel g r = some s1 →
      s1.1.game_over = false →
      play_game fuel (rounds + 1) g r = play_game fuel rounds s1.1 s1.2) ∧
    (∀ (rounds : Nat) (g1 : Game) (r1 : Rng), g1.game_over = true →
      play_game fuel rounds g1 r1 = some (g1, r1)) := by
  have hstart : (round_start g r).1.game_over = false := by
    rw [round_start_game_over]; exact hg
  have hstep : ∀ (rounds : Nat) (s1 : Game × Rng), play_round fuel g r = some s1 →
      play_game fuel (rounds + 1) g r = play_game fuel rounds s1.1 s1.2 := by
    intro rounds s1 h
    rw [play_game, if_neg (by rw [hg]; decide), h]
  refine ⟨?_, ?_, ?_, ?_, ?_, ?_, ?_, ?_⟩
  · unfold round_start
    simp only []
    split <;> rfl
  · intro h5
    unfold round_start
    simp only []
    rw [if_neg (by unfold STAIR_DIRECTION_CHANGE_ROUNDS; exact h5)]
  · intro h5
    obtain ⟨h1, h2, h3⟩ := change_stair_directions_spec g.stairs r
    refine ⟨?_, h1, h3⟩
    unfold round_start
    simp only []
    rw [if_pos (by unfold STAIR_DIRECTION_CHANGE_ROUNDS; exact h5), h2]
  · exact play_seats_three fuel (round_start g r) hstart
  · intro s1 h
    exact play_seats_prefix fuel [0, 1, 2] (round_start g r) s1 hstart h
  · intro rounds s1 h hover
    rw [hstep rounds s1 h, play_game_of_over fuel rounds s1.1 s1.2 hover]
  · intro rounds s1 h _
    exact hstep rounds s1 h
  · intro rounds g1 r1 h
    exact play_game_of_over fuel rounds g1 r1 h

/-- The witness of C30: the fifth round of `fifth_round_game` draws 0 for its
stair, whose flag becomes true. -/
theorem C30_round_schedule_witness :
    fifth_round_game.game_over = false ∧ (fifth_round_game.round_count + 1) % 5 = 0 ∧
    (round_start fifth_round_game zero_rng).1.round_count = 5 ∧
    (change_stair_directions fifth_round_game.stairs zero_rng).1.get? 0 =
      some ⟨0, 1, 5, 1, 0, 5, true⟩ :=
  ⟨rfl, by decide, (C30_round_schedule 0 fifth_round_game zero_rng rfl).1,
   ((C30_round_schedule 0 fifth_round_game zero_rng rfl).2.2.1 (by decide)).2.2 0
     ⟨0, 1, 5, 1, 0, 5, false⟩ rfl⟩

/-! ## Walls: diagonal segments, floors without walls, and the step test -/

/-- A wall does not block a segment whose endpoints differ in width and in
length. -/
theorem wall_blocks_diagonal (wall : Wall) (floor start_w start_l end_w end_l : Int)
    (hw : start_w ≠ end_w) (hl : start_l ≠ end_l) :
    wall_blocks wall floor start_w start_l end_w end_l = false := by
  unfold wall_blocks
  split
  · rfl
  · rw [if_neg (by
      intro h
      rcases h with h | h
      · exact hw h.1
      · exact hl h.1)]

/-- A wall on another floor does not block. -/
theorem wall_blocks_other_floor (wall : Wall) (floor start_w start_l end_w end_l : Int)
    (hf : wall.floor ≠ floor) :
    wall_blocks wall floor start_w start_l end_w end_l = false := by
  unfold wall_blocks
  rw [if_pos hf]

/-- No wall of the list blocks: the loop returns false. -/
theorem is_path_blocked_by_wall_of_none (walls : List Wall)
    (floor start_w start_l end_w end_l : Int)
    (h : ∀ wall ∈ walls, wall_blocks wall floor start_w start_l end_w end_l = false) :
    is_path_blocked_by_wall walls floor start_w start_l end_w end_l = false := by
  cases hb : is_path_blocked_by_wall walls floor start_w start_l end_w end_l with
  | false => rfl
  | true =>
    obtain ⟨wall, hmem, hwall⟩ := (is_path_blocked_by_wall_iff _ _ _ _ _ _).mp hb
    rw [h wall hmem] at hwall
    exact Bool.noConfusion hwall

/-- C33: for every wall list and floor, `is_path_blocked_by_wall` returns false
for a segment whose endpoints differ in both width and length, and returns false
when no wall of the list is on that floor. -/
theorem C33_diagonal_or_empty_floor_not_blocked (walls : List Wall)
    (floor start_w start_l end_w end_l : Int) :
    (start_w ≠ end_w → start_l ≠ end_l →
      is_path_blocked_by_wall walls floor start_w start_l end_w end_l = false) ∧
    ((∀ wall ∈ walls, wall.floor ≠ floor) →
      is_path_blocked_by_wall walls floor start_w start_l end_w end_l = false) := by
  constructor
  · intro hw hl
    exact is_path_blocked_by_wall_of_none _ _ _ _ _ _
      (fun wall _ => wall_blocks_diagonal wall _ _ _ _ _ hw hl)
  · intro hf
    exact is_path_blocked_by_wall_of_none _ _ _ _ _ _
      (fun wall hmem => wall_blocks_other_floor wall _ _ _ _ _ (hf wall hmem))

/-- The witness of C33: the diagonal from (3,9) to (4,10) across the wall
`row_wall` on floor 0, and the step along that wall's line taken on floor 1. -/
theorem C33_diagonal_or_empty_floor_not_blocked_witness :
    ((3 : Int) ≠ 4 ∧ (9 : Int) ≠ 10 ∧ is_path_blocked_by_wall [row_wall] 0 3 9 4 10 = false) ∧
    ((∀ wall ∈ [row_wall], wall.floor ≠ 1) ∧
      is_path_blocked_by_wall [row_wall] 1 3 10 4 10 = false) :=
  ⟨⟨by decide, by decide,
    (C33_diagonal_or_empty_floor_not_blocked [row_wall] 0 3 9 4 10).1 (by decide) (by decide)⟩,
   ⟨by decide,
    (C33_diagonal_or_empty_floor_not_blocked [row_wall] 1 3 10 4 10).2 (by decide)⟩⟩

/-! ## Root variant: the generated flag -/

/-- Every flag drawn by one iteration is floor-accessible. -/
theorem root_draw_flag_accessible (r : Rng) :
    is_floor_accessible (root_draw_flag r).1.1 (root_draw_flag r).1.2.1
      (root_draw_flag r).1.2.2 = true := by
  rw [is_floor_accessible_iff]
  unfold accessible_spec root_draw_flag
  simp only [is_valid_position_iff]
  split_ifs <;> simp only [] <;> omega

/-- C32: whenever the `do ... while` loop of the root variant's
`initialize_game` exits, the flag it leaves is floor-accessible and is not a
cell of the recovery area on floor 0. -/
theorem C32_root_flag_accessible_outside_recovery (fuel : Nat) :
    ∀ (r : Rng) (res : (Int × Int × Int) × Rng), root_generate_flag fuel r = some res →
      is_floor_accessible res.1.1 res.1.2.1 res.1.2.2 = true ∧
      ¬ (res.1.1 = 0 ∧ is_in_bawana res.1.2.1 res.1.2.2 = true) := by
  induction fuel with
  | zero =>
    intro r res h
    exact Option.noConfusion h
  | succ fuel ih =>
    intro r res h
    unfold root_generate_flag at h
    simp only [] at h
    split at h
    · exact ih _ res h
    · rename_i hexit
      rw [← Option.some.inj h]
      exact ⟨root_draw_flag_accessible r, hexit⟩

/-- The witness of C32: on the source that always returns 0 the loop exits
after one iteration with the flag (0,0,0). -/
theorem C32_root_flag_accessible_outside_recovery_witness :
    root_generate_flag 1 zero_rng = some ((0, 0, 0), ⟨fun _ => 0, 3⟩) ∧
    is_floor_accessible 0 0 0 = true ∧ ¬ ((0 : Int) = 0 ∧ is_in_bawana 0 0 = true) :=
  ⟨rfl,
   C32_root_flag_accessible_outside_recovery 1 zero_rng ((0, 0, 0), ⟨fun _ => 0, 3⟩) rfl⟩

/-! ## Root variant: the reads of `effects` in the assignment loop -/

theorem root_initial_effects_length : root_initial_effects.length = BAWANA_CELLS := by decide

/-- With 16 entries in `effects` the unguarded assignment loop over the 20
recovery cells reads outside the array. -/
theorem root_assignment_faults (effects : List BawanaEffect) (h : effects.length = 16)
    (maze : Maze) :
    assignment_cells.foldl (root_assign_step effects) (some (maze, 0)) = none := by
  obtain ⟨a0, a1, a2, a3, a4, a5, a6, a7, a8, a9, a10, a11, a12, a13, a14, a15, rfl⟩ :=
    list_of_length_sixteen effects h
  rw [assignment_cells_eq]
  simp [bawana_positions, root_assign_step]

/-- C35 (code of the root variant, every run): the assignment loop of
`initialize_bawana_area` reads `effects[idx]` for `idx` = 0, 1, ..., 19, the 16
entries of the array and four places past its end, for every cell table and
every random sequence; the first read past the end is the one for the cell
(9,21). -/
theorem C35_root_assignment_reads_past_end :
    root_read_indices = List.range 20 ∧
    (∃ idx ∈ root_read_indices, ¬ idx < BAWANA_CELLS) ∧
    assignment_cells.get? 16 = some (9, 21) ∧
    ∀ (maze : Maze) (r : Rng),
      (shuffle_effects root_initial_effects r).1.length = BAWANA_CELLS ∧
      root_initialize_bawana_area maze r = none := by
  refine ⟨by decide, ⟨16, by decide, by decide⟩, by decide, ?_⟩
  intro maze r
  have hlen := (shuffle_effects_invariant root_initial_effects r root_initial_effects_length).1
  refine ⟨hlen, ?_⟩
  unfold root_initialize_bawana_area
  simp only []
  rw [root_assignment_faults _ hlen maze]
  rfl

/-! ## Frames and invariants of a turn: the movement resolver -/

theorem turn_closed_refl {g : Game} {R : Player → Player → Prop} (hR : turn_closed g R)
    (p : Player) : R p p :=
  hR.fields p p rfl rfl rfl rfl rfl rfl

theorem linked_refl {g : Game} {R : Player → Player → Prop} (hR : turn_closed g R) :
    linked g R g :=
  ⟨⟨rfl, rfl, rfl, rfl, rfl, rfl, rfl, rfl⟩, rfl, rfl, fun _ => turn_closed_refl hR _⟩

theorem linked_setPlayer {g h : Game} {R : Player → Player → Prop} (hR : turn_closed g R)
    (hl : linked g R h) (i : Fin 3) (q : Player) (hq : R (h.players i) q) :
    linked g R (h.setPlayer i q) := by
  refine ⟨hl.1, hl.2.1, hl.2.2.1, ?_⟩
  intro j
  by_cases hj : j = i
  · subst hj
    rw [setPlayer_players_same]
    exact hR.chain _ _ _ (hl.2.2.2 j) hq
  · rw [setPlayer_players_other _ _ _ _ hj]
    exact hl.2.2.2 j

theorem capture_scan_cases (g : Game) (idx : Fin 3) :
    capture_scan g idx = g ∨
      ∃ i : Fin 3, capture_scan g idx = g.setPlayer i (capture_reset (g.players i)) := by
  unfold capture_scan
  rw [capture_scan_from_eq]
  cases [(0 : Fin 3), 1, 2].find? (fun i =>
        decide (i ≠ idx ∧ (g.players i).in_maze = true ∧
          (g.players i).floor = (g.players idx).floor ∧
          (g.players i).width = (g.players idx).width ∧
          (g.players i).length = (g.players idx).length)) with
  | none => exact Or.inl rfl
  | some i => exact Or.inr ⟨i, rfl⟩

theorem linked_capture_scan {g h : Game} {R : Player → Player → Prop} (hR : turn_closed g R)
    (hl : linked g R h) (idx : Fin 3) : linked g R (capture_scan h idx) := by
  rcases capture_scan_cases h idx with hc | ⟨i, hc⟩
  · rw [hc]; exact hl
  · rw [hc]; exact linked_setPlayer hR hl i _ (hR.reset _)

theorem linked_result {g h : Game} {R : Player → Player → Prop} (hl : linked g R h)
    (idx : Fin 3) : turn_result g R idx h :=
  ⟨hl.1, hl.2.2.2, Or.inl ⟨hl.2.1, hl.2.2.1⟩⟩

theorem linked_flag {g h : Game} {R : Player → Player → Prop} (hR : turn_closed g R)
    (hl : linked g R h) (idx : Fin 3) (q : Player) (hq : R (h.players idx) q)
    (hf : at_flag h q = true) :
    turn_result g R idx { h.setPlayer idx q with game_over := true, winner := q.name } := by
  have hs := linked_setPlayer hR hl idx q hq
  refine ⟨hs.1, hs.2.2.2, Or.inr ⟨rfl, ?_, ?_⟩⟩
  · show q.name = ((Game.setPlayer h idx q).players idx).name
    rw [setPlayer_players_same]
  · show at_flag h ((Game.setPlayer h idx q).players idx) = true
    rw [setPlayer_players_same]
    exact hf

theorem can_move_single_step_accessible (walls : List Wall) (f fw fl tw tl : Int)
    (h : can_move_single_step walls f fw fl tw tl = true) :
    is_floor_accessible f tw tl = true := by
  unfold can_move_single_step at h
  cases ha : is_floor_accessible f tw tl with
  | true => rfl
  | false => simp [ha] at h

/-- The step loop keeps the board and relates every player to the one before;
when it sets `game_over` the mover is on the flag and is the winner. -/
theorem move_loop_closed (g : Game) (R : Player → Player → Prop) (hR : turn_closed g R)
    (recur : Game → Rng → Int → Option MoveResult) (idx : Fin 3) (dir : Direction) (eff : Int)
    (hrec : ∀ g2 r2 s2 res2, linked g R g2 → recur g2 r2 s2 = some res2 →
      turn_result g R idx res2.1)
    (n : Nat) : ∀ (step : Int) (g1 : Game) (r : Rng) (moved : Nat) (res : MoveResult),
      linked g R g1 → move_loop recur idx dir eff n step g1 r moved = some res →
      turn_result g R idx res.1 := by
  induction n with
  | zero =>
    intro step g1 r moved res hl h
    unfold move_loop at h
    rw [← Option.some.inj h]
    exact linked_result (linked_capture_scan hR hl idx) idx
  | succ n ih =>
    intro step g1 r moved res hl h
    have hmz : g1.maze = g.maze := hl.1.2.2.2.1
    have hst : g1.stairs = g.stairs := hl.1.1
    have hpo : g1.poles = g.poles := hl.1.2.1
    have hpen : ∀ (p : Player) (r1 : Rng),
        R p (check_and_cap_movement_points g1.maze
          { p with movement_points := p.movement_points - 2 } r1).1 := by
      rw [hmz]; exact hR.penalty
    have hrecov : ∀ (p : Player) (r1 : Rng), R p (apply_bawana_effect g1.maze p r1).1 := by
      rw [hmz]; exact hR.recovery
    unfold move_loop at h
    cases hdir : step_offset dir with
    | none =>
      simp only [hdir] at h
      rw [← Option.some.inj h]
      exact linked_result hl idx
    | some d =>
      simp only [hdir] at h
      split at h
      · split at h
        · rw [← Option.some.inj h]
          exact linked_result
            (linked_capture_scan hR (linked_setPlayer hR hl idx _ (hpen _ _)) idx) idx
        · rw [← Option.some.inj h]
          exact linked_result (linked_capture_scan hR hl idx) idx
      · rename_i hcan
        have hacc : is_floor_accessible (g1.players idx).floor
            ((g1.players idx).width + d.1) ((g1.players idx).length + d.2) = true := by
          refine can_move_single_step_accessible g1.walls _ (g1.players idx).width
            (g1.players idx).length _ _ ?_
          cases hc : can_move_single_step g1.walls (g1.players idx).floor
              (g1.players idx).width (g1.players idx).length
              ((g1.players idx).width + d.1) ((g1.players idx).length + d.2) with
          | true => rfl
          | false => rw [hc] at hcan; exact absurd rfl hcan
        have heff : R (g1.players idx)
            (apply_cell_effects g1.maze
              { g1.players idx with
                  width := (g1.players idx).width + d.1,
                  length := (g1.players idx).length + d.2 }
              (g1.players idx).floor ((g1.players idx).width + d.1)
              ((g1.players idx).length + d.2) r).1 := by
          rw [hmz]
          exact hR.chain _ _ _ (hR.walk _ _ _ hacc)
            (hR.effect
              { g1.players idx with
                  width := (g1.players idx).width + d.1,
                  length := (g1.players idx).length + d.2 } r)
        have hsp : R (g1.players idx)
            (check_and_use_stairs_poles g1.stairs g1.poles
              (apply_cell_effects g1.maze
                { g1.players idx with
                    width := (g1.players idx).width + d.1,
                    length := (g1.players idx).length + d.2 }
                (g1.players idx).floor ((g1.players idx).width + d.1)
                ((g1.players idx).length + d.2) r).1).1 := by
          rw [hst, hpo]
          exact hR.chain _ _ _ heff (hR.transition _)
        split at h
        · rename_i hfl
          rw [← Option.some.inj h]
          exact linked_flag hR hl idx _ heff hfl
        · split at h
          · rw [← Option.some.inj h]
            exact linked_result (linked_capture_scan hR (linked_setPlayer hR hl idx _ heff) idx)
              idx
          · split at h
            · rename_i hfl
              rw [← Option.some.inj h]
              exact linked_flag hR hl idx _ hsp hfl.2
            · split at h
              · rw [Option.map_eq_some'] at h
                obtain ⟨res2, hr, hres⟩ := h
                have hres1 : res.1 = res2.1 := by rw [← hres]
                rw [hres1]
                exact hrec _ _ _ res2 (linked_setPlayer hR hl idx _ hsp) hr
              · split at h
                · rw [← Option.some.inj h]
                  exact linked_result
                    (linked_capture_scan hR
                      (linked_setPlayer hR hl idx _ (hR.chain _ _ _ hsp (hrecov _ _))) idx) idx
                · exact ih _ _ _ _ res (linked_setPlayer hR hl idx _ hsp) h

/-- The frame and invariant theorem of `move_player_with_effects`: for every
bound, a call that returns keeps the board and relates every player to the one
before; when it sets `game_over` the mover is on the flag and is the winner. -/
theorem move_player_with_effects_closed (g : Game) (R : Player → Player → Prop)
    (hR : turn_closed g R) (idx : Fin 3) (dir : Direction) (fuel : Nat) :
    ∀ (g1 : Game) (r : Rng) (steps : Int) (res : MoveResult), linked g R g1 →
      move_player_with_effects fuel g1 r idx dir steps = some res →
      turn_result g R idx res.1 := by
  induction fuel with
  | zero =>
    intro g1 r steps res _ h
    exact Option.noConfusion h
  | succ fuel ih =>
    intro g1 r steps res hl h
    unfold move_player_with_effects at h
    exact move_loop_closed g R hR _ idx dir _
      (fun g2 r2 s2 res2 hl2 hr => ih g2 r2 s2 res2 hl2 hr) _ _ g1 r 0 res hl h

/-! ## Frames and invariants of a turn: the turn controller -/

theorem turn_result_setPlayer {g h : Game} {R : Player → Player → Prop} (hR : turn_closed g R)
    (idx : Fin 3) (ht : turn_result g R idx h) (q : Player)
    (hname : q.name = (h.players idx).name) (hfloor : q.floor = (h.players idx).floor)
    (hwidth : q.width = (h.players idx).width) (hlength : q.length = (h.players idx).length)
    (hpoints : q.movement_points = (h.players idx).movement_points)
    (hflag : q.in_bawana = (h.players idx).in_bawana) :
    turn_result g R idx (h.setPlayer idx q) := by
  refine ⟨ht.1, ?_, ?_⟩
  · intro j
    by_cases hj : j = idx
    · subst hj
      rw [setPlayer_players_same]
      exact hR.chain _ _ _ (ht.2.1 j)
        (hR.fields _ q hname hfloor hwidth hlength hpoints hflag)
    · rw [setPlayer_players_other _ _ _ _ hj]
      exact ht.2.1 j
  · rcases ht.2.2 with hk | ⟨hover, hwin, hat⟩
    · exact Or.inl hk
    · refine Or.inr ⟨hover, ?_, ?_⟩
      · show h.winner = ((Game.setPlayer h idx q).players idx).name
        rw [setPlayer_players_same, hname]
        exact hwin
      · show at_flag h ((Game.setPlayer h idx q).players idx) = true
        rw [setPlayer_players_same]
        unfold at_flag at hat ⊢
        rw [hfloor, hwidth, hlength]
        exact hat

theorem guarded_move_closed (g : Game) (R : Player → Player → Prop) (hR : turn_closed g R)
    (fuel : Nat) (g1 : Game) (r : Rng) (idx : Fin 3) (dir : Direction) (roll : Int)
    (s : Game × Rng) (hl : linked g R g1)
    (h : guarded_move fuel g1 r idx dir roll = some s) : turn_result g R idx s.1 := by
  have hmz : g1.maze = g.maze := hl.1.2.2.2.1
  unfold guarded_move at h
  simp only [] at h
  split at h
  · rw [← Option.some.inj h]
    refine linked_result (linked_setPlayer hR hl idx _ ?_) idx
    rw [hmz]
    exact hR.penalty _ _
  · cases hmv : move_player_with_effects fuel g1 r idx dir roll with
    | none => rw [hmv] at h; exact Option.noConfusion h
    | some res =>
      rw [hmv] at h
      rw [← Option.some.inj h]
      exact move_player_with_effects_closed g R hR idx dir fuel g1 r roll res hl hmv

theorem in_maze_turn_closed (g : Game) (R : Player → Player → Prop) (hR : turn_closed g R)
    (fuel : Nat) (r : Rng) (idx : Fin 3) (s : Game × Rng)
    (h : in_maze_turn fuel g r idx = some s) : turn_result g R idx s.1 := by
  have hset : ∀ q : Player, q.name = (g.players idx).name → q.floor = (g.players idx).floor →
      q.width = (g.players idx).width → q.length = (g.players idx).length →
      q.movement_points = (g.players idx).movement_points →
      q.in_bawana = (g.players idx).in_bawana → linked g R (g.setPlayer idx q) :=
    fun q h1 h2 h3 h4 h5 h6 =>
      linked_setPlayer hR (linked_refl hR) idx q (hR.fields _ q h1 h2 h3 h4 h5 h6)
  unfold in_maze_turn at h
  simp only [] at h
  split at h
  · cases hmv : move_player_with_effects fuel
        (g.setPlayer idx
          { g.players idx with
              dice_throw_count := (g.players idx).dice_throw_count + 1,
              disoriented_turns := (g.players idx).disoriented_turns - 1 })
        (get_random_direction (roll_movement_dice r).2).2 idx
        (get_random_direction (roll_movement_dice r).2).1 (roll_movement_dice r).1 with
    | none => rw [hmv] at h; exact Option.noConfusion h
    | some res =>
      rw [hmv] at h
      rw [← Option.some.inj h]
      refine move_player_with_effects_closed g R hR idx _ fuel _ _ _ res ?_ hmv
      exact hset _ rfl rfl rfl rfl rfl rfl
  · split at h
    · split at h
      · refine guarded_move_closed g R hR fuel _ _ idx _ _ s ?_ h
        exact hset _ rfl rfl rfl rfl rfl rfl
      · refine guarded_move_closed g R hR fuel _ _ idx _ _ s ?_ h
        exact hset _ rfl rfl rfl rfl rfl rfl
    · refine guarded_move_closed g R hR fuel _ _ idx _ _ s ?_ h
      exact hset _ rfl rfl rfl rfl rfl rfl

theorem clear_trigger_closed (g : Game) (R : Player → Player → Prop) (hR : turn_closed g R)
    (idx : Fin 3) (s : Game × Rng) (ht : turn_result g R idx s.1) :
    turn_result g R idx (clear_trigger idx s).1 := by
  unfold clear_trigger
  split
  · exact turn_result_setPlayer hR idx ht _ rfl rfl rfl rfl rfl rfl
  · exact ht

/-- The frame and invariant theorem of `play_turn`: for every bound, seat and
random source, a turn that returns keeps the board (stairs, poles, walls, cell
table, flag, round counter) and relates every player to the one before by any
relation closed under the operations of a turn; when it sets `game_over` the
mover is on the flag and is the winner. -/
theorem play_turn_closed (g : Game) (R : Player → Player → Prop) (hR : turn_closed g R)
    (fuel : Nat) (r : Rng) (idx : Fin 3) (s : Game × Rng)
    (h : play_turn fuel g r idx = some s) : turn_result g R idx s.1 := by
  have hset : ∀ q : Player, R (g.players idx) q → turn_result g R idx (g.setPlayer idx q) :=
    fun q hq => linked_result (linked_setPlayer hR (linked_refl hR) idx q hq) idx
  unfold play_turn at h
  simp only [] at h
  split at h
  · split at h
    · rw [← Option.some.inj h]
      exact hset _ (hR.chain _
        { g.players idx with
            food_poisoning_turns := (g.players idx).food_poisoning_turns - 1 } _
        (hR.fields _ _ rfl rfl rfl rfl rfl rfl) (hR.transport _ _))
    · rw [← Option.some.inj h]
      exact hset _ (hR.fields _ _ rfl rfl rfl rfl rfl rfl)
  · split at h
    · rw [← Option.some.inj h]
      exact hset _ (hR.recovery _ _)
    · split at h
      · split at h
        · rw [← Option.some.inj h]
          exact hset _ (hR.chain _
            (entry_cell { g.players idx with in_maze := true, dice_throw_count := 1 }) _
            (hR.chain _ { g.players idx with in_maze := true, dice_throw_count := 1 } _
              (hR.fields _ _ rfl rfl rfl rfl rfl rfl) (hR.entry _)) (hR.effect _ _))
        · rw [← Option.some.inj h]
          exact hset _ (hR.penalty _ _)
      · cases hmv : in_maze_turn fuel g r idx with
        | none => rw [hmv] at h; exact Option.noConfusion h
        | some s1 =>
          rw [hmv] at h
          rw [← Option.some.inj h]
          exact clear_trigger_closed g R hR idx s1 (in_maze_turn_closed g R hR fuel r idx s1 hmv)

/-! ## Invariants of a turn: what each operation does to balance, flag and cell -/

theorem check_and_cap_shape (maze : Maze) (p : Player) (r : Rng) :
    (check_and_cap_movement_points maze p r).1 = cap_points p ∨
    (check_and_cap_movement_points maze p r).1 = (transport_to_bawana maze p r).1 := by
  by_cases h : 0 < p.movement_points
  · left; rw [check_and_cap_of_pos maze p r h]
  · right; rw [check_and_cap_of_nonpos maze p r (by omega)]

theorem cap_points_same_cell (p : Player) :
    (cap_points p).floor = p.floor ∧ (cap_points p).width = p.width ∧
    (cap_points p).length = p.length ∧ (cap_points p).in_bawana = p.in_bawana := by
  unfold cap_points
  split <;> exact ⟨rfl, rfl, rfl, rfl⟩

theorem check_and_cap_in_range (maze : Maze) (p : Player) (r : Rng) :
    points_in_range (check_and_cap_movement_points maze p r).1 := by
  have h1 := check_and_cap_points_pos maze p r
  have h2 := check_and_cap_points_le maze p r
  unfold MAX_MOVEMENT_POINTS at h2
  exact ⟨by omega, h2⟩

theorem transport_to_bawana_flag (maze : Maze) (p : Player) (r : Rng) :
    (transport_to_bawana maze p r).1.in_bawana = false := by
  obtain ⟨c, _, h⟩ := transport_to_bawana_closed maze p r
  rw [h]

theorem bawana_cell_on_grid (w l : Int) (h : is_in_bawana w l = true) :
    is_valid_position 0 w l = true := by
  rw [is_valid_position_iff]
  simp only [is_in_bawana, ge_iff_le, Bool.and_eq_true, decide_eq_true_eq] at h
  omega

theorem transport_to_bawana_on_grid (maze : Maze) (p : Player) (r : Rng) :
    on_grid (transport_to_bawana maze p r).1 := by
  obtain ⟨c, hc, h⟩ := transport_to_bawana_closed maze p r
  have hmem : (c.1, c.2) ∈ bawana_positions := List.get?_mem hc
  have hin := (mem_bawana_positions_iff c.1 c.2).mp hmem
  have hv := bawana_cell_on_grid c.1 c.2 hin
  unfold on_grid
  rw [h]
  rcases bawana_switch_position (maze 0 c.1 c.2).bawana_effect
      { p with
          floor := 0, width := c.1, length := c.2, in_bawana := true,
          movement_points := 10 } (rand r).2 with ⟨h1, h2, h3⟩ | ⟨h1, h2, h3⟩
  · show is_valid_position (bawana_switch _ _ _).1.floor (bawana_switch _ _ _).1.width
      (bawana_switch _ _ _).1.length = true
    rw [h1, h2, h3]
    exact hv
  · show is_valid_position (bawana_switch _ _ _).1.floor (bawana_switch _ _ _).1.width
      (bawana_switch _ _ _).1.length = true
    rw [h1, h2, h3]
    decide

theorem check_and_cap_flag (maze : Maze) (p : Player) (r : Rng) (h : p.in_bawana = false) :
    (check_and_cap_movement_points maze p r).1.in_bawana = false := by
  rcases check_and_cap_shape maze p r with hc | hc
  · rw [hc, (cap_points_same_cell p).2.2.2]; exact h
  · rw [hc]; exact transport_to_bawana_flag maze p r

theorem check_and_cap_on_grid (maze : Maze) (p : Player) (r : Rng) (h : on_grid p) :
    on_grid (check_and_cap_movement_points maze p r).1 := by
  rcases check_and_cap_shape maze p r with hc | hc
  · unfold on_grid
    rw [hc, (cap_points_same_cell p).1, (cap_points_same_cell p).2.1,
      (cap_points_same_cell p).2.2.1]
    exact h
  · rw [hc]; exact transport_to_bawana_on_grid maze p r

theorem apply_bawana_effect_in_range (maze : Maze) (p : Player) (r : Rng)
    (h : points_in_range p) : points_in_range (apply_bawana_effect maze p r).1 := by
  rw [apply_bawana_effect]
  split
  · exact h
  · exact check_and_cap_in_range maze _ _

theorem apply_bawana_effect_flag (maze : Maze) (p : Player) (r : Rng)
    (h : p.in_bawana = false) : (apply_bawana_effect maze p r).1.in_bawana = false := by
  rw [apply_bawana_effect]
  split
  · exact h
  · rfl

theorem bawana_switch_on_grid (e : BawanaEffect) (p : Player) (r : Rng) (h : on_grid p) :
    on_grid (bawana_switch e p r).1 := by
  unfold on_grid at h ⊢
  rcases bawana_switch_position e p r with ⟨h1, h2, h3⟩ | ⟨h1, h2, h3⟩
  · rw [h1, h2, h3]; exact h
  · rw [h1, h2, h3]; decide

theorem apply_bawana_effect_on_grid (maze : Maze) (p : Player) (r : Rng) (h : on_grid p) :
    on_grid (apply_bawana_effect maze p r).1 := by
  rw [apply_bawana_effect]
  split
  · exact h
  · exact check_and_cap_on_grid maze _ _ (bawana_switch_on_grid _ p r h)

theorem apply_cell_effects_in_range (maze : Maze) (p : Player) (f w l : Int) (r : Rng)
    (h : points_in_range p) : points_in_range (apply_cell_effects maze p f w l r).1 := by
  unfold apply_cell_effects
  split
  · exact h
  · dsimp only
    split <;> exact check_and_cap_in_range maze _ _

theorem apply_cell_effects_flag (maze : Maze) (p : Player) (f w l : Int) (r : Rng)
    (h : p.in_bawana = false) : (apply_cell_effects maze p f w l r).1.in_bawana = false := by
  unfold apply_cell_effects
  split
  · exact h
  · dsimp only
    split
    · exact check_and_cap_flag maze _ _ h
    · exact check_and_cap_flag maze _ _ h
    · refine check_and_cap_flag maze _ _ ?_
      split <;> exact h
    · exact check_and_cap_flag maze _ _ h

theorem apply_cell_effects_on_grid (maze : Maze) (p : Player) (f w l : Int) (r : Rng)
    (h : on_grid p) : on_grid (apply_cell_effects maze p f w l r).1 := by
  unfold apply_cell_effects
  split
  · exact h
  · dsimp only
    split
    · exact check_and_cap_on_grid maze _ _ h
    · exact check_and_cap_on_grid maze _ _ h
    · refine check_and_cap_on_grid maze _ _ ?_
      split <;> exact h
    · exact check_and_cap_on_grid maze _ _ h

theorem check_and_use_stairs_poles_same (stairs : List Stair) (poles : List Pole) (p : Player) :
    (check_and_use_stairs_poles stairs poles p).1.movement_points = p.movement_points ∧
    (check_and_use_stairs_poles stairs poles p).1.in_bawana = p.in_bawana := by
  have heq : check_and_use_stairs_poles stairs poles p =
      first_match_transition stairs poles p := use_stairs_eq stairs poles p
  rw [heq]
  unfold first_match_transition
  cases stairs.find? (fun s => stair_matches s p) with
  | some s =>
    unfold stair_transition
    dsimp only
    split <;> exact ⟨rfl, rfl⟩
  | none =>
    cases poles.find? (fun q => pole_matches q p) with
    | some q => exact ⟨rfl, rfl⟩
    | none => exact ⟨rfl, rfl⟩

theorem check_and_use_stairs_poles_on_grid (stairs : List Stair) (poles : List Pole)
    (hob : obstacles_on_grid stairs poles) (p : Player) (h : on_grid p) :
    on_grid (check_and_use_stairs_poles stairs poles p).1 := by
  have heq : check_and_use_stairs_poles stairs poles p =
      first_match_transition stairs poles p := use_stairs_eq stairs poles p
  rw [heq]
  unfold first_match_transition
  cases hs : stairs.find? (fun s => stair_matches s p) with
  | some s =>
    have hmem : s ∈ stairs := List.mem_of_find?_eq_some hs
    unfold stair_transition on_grid
    dsimp only
    split
    · exact (hob.1 s hmem).2
    · exact (hob.1 s hmem).1
  | none =>
    cases hq : poles.find? (fun q => pole_matches q p) with
    | some q =>
      have hmem : q ∈ poles := List.mem_of_find?_eq_some hq
      have hm := List.find?_some hq
      simp only [pole_matches, decide_eq_true_eq] at hm
      unfold pole_transition on_grid
      dsimp only
      rw [hm.1, hm.2.1]
      exact hob.2 q hmem
    | none => exact h

theorem capture_reset_same (p : Player) :
    (capture_reset p).movement_points = p.movement_points ∧
    (capture_reset p).in_bawana = false ∧ (capture_reset p).name = p.name := by
  unfold capture_reset
  dsimp only
  split_ifs <;> exact ⟨rfl, rfl, rfl⟩

theorem capture_reset_on_grid (p : Player) (h : on_grid p) : on_grid (capture_reset p) := by
  unfold on_grid at h ⊢
  rw [is_valid_position_iff] at h ⊢
  unfold capture_reset
  dsimp only
  split_ifs <;> dsimp only <;> omega

theorem entry_cell_same (p : Player) :
    (entry_cell p).movement_points = p.movement_points ∧
    (entry_cell p).in_bawana = p.in_bawana ∧ (entry_cell p).name = p.name := by
  unfold entry_cell
  split_ifs <;> exact ⟨rfl, rfl, rfl⟩

theorem entry_cell_on_grid (p : Player) (h : on_grid p) : on_grid (entry_cell p) := by
  unfold on_grid at h ⊢
  rw [is_valid_position_iff] at h ⊢
  unfold entry_cell
  split_ifs <;> first | omega | (dsimp only; omega)

/-! ## Invariants of a turn: the three closed relations -/

theorem turn_closed_trivial (g : Game) : turn_closed g (fun _ _ => True) :=
  ⟨fun _ _ _ _ _ => trivial, fun _ _ _ _ _ _ _ _ => trivial, fun _ _ => trivial,
   fun _ _ _ _ => trivial, fun _ _ => trivial, fun _ => trivial, fun _ _ => trivial,
   fun _ _ => trivial, fun _ => trivial, fun _ => trivial⟩

theorem turn_closed_points (g : Game) :
    turn_closed g (fun p q => points_in_range p → points_in_range q) := by
  refine ⟨fun _ _ _ h1 h2 h => h2 (h1 h), ?_, fun _ _ _ => check_and_cap_in_range _ _ _,
    fun _ _ _ _ h => h, fun p r h => apply_cell_effects_in_range _ p _ _ _ r h, ?_,
    fun p r h => apply_bawana_effect_in_range _ p r h, ?_, ?_, ?_⟩
  · intro p q _ _ _ _ hp _ h
    unfold points_in_range at h ⊢
    rw [hp]; exact h
  · intro p h
    unfold points_in_range at h ⊢
    rw [(check_and_use_stairs_poles_same g.stairs g.poles p).1]; exact h
  · intro p r _
    have h := transport_to_bawana_points g.maze p r
    unfold points_in_range
    omega
  · intro p h
    unfold points_in_range at h ⊢
    rw [(capture_reset_same p).1]; exact h
  · intro p h
    unfold points_in_range at h ⊢
    rw [(entry_cell_same p).1]; exact h

theorem turn_closed_flag (g : Game) :
    turn_closed g (fun p q => p.in_bawana = false → q.in_bawana = false) := by
  refine ⟨fun _ _ _ h1 h2 h => h2 (h1 h), ?_, fun p r h => check_and_cap_flag _ _ r h,
    fun _ _ _ _ h => h, fun p r h => apply_cell_effects_flag _ p _ _ _ r h, ?_,
    fun p r h => apply_bawana_effect_flag _ p r h,
    fun p r _ => transport_to_bawana_flag _ p r, fun p _ => (capture_reset_same p).2.1, ?_⟩
  · intro p q _ _ _ _ _ hf h
    rw [hf]; exact h
  · intro p h
    rw [(check_and_use_stairs_poles_same g.stairs g.poles p).2]; exact h
  · intro p h
    rw [(entry_cell_same p).2.1]; exact h

theorem is_floor_accessible_valid (f w l : Int) (h : is_floor_accessible f w l = true) :
    is_valid_position f w l = true := by
  unfold is_floor_accessible at h
  cases hv : is_valid_position f w l with
  | true => rfl
  | false => simp [hv] at h

theorem turn_closed_grid (g : Game) (hob : obstacles_on_grid g.stairs g.poles) :
    turn_closed g (fun p q => on_grid p → on_grid q) := by
  refine ⟨fun _ _ _ h1 h2 h => h2 (h1 h), ?_, fun p r h => check_and_cap_on_grid _ _ r h,
    fun p w l ha _ => is_floor_accessible_valid p.floor w l ha,
    fun p r h => apply_cell_effects_on_grid _ p _ _ _ r h,
    fun p h => check_and_use_stairs_poles_on_grid _ _ hob p h,
    fun p r h => apply_bawana_effect_on_grid _ p r h,
    fun p r _ => transport_to_bawana_on_grid _ p r, capture_reset_on_grid, entry_cell_on_grid⟩
  intro p q _ hf hw hl _ _ h
  unfold on_grid at h ⊢
  rw [hf, hw, hl]; exact h

/-! ## The board is read-only during a turn -/

/-- C31: a `play_turn` that returns leaves walls, poles, stairs (cells and
flags), the cell table, the flag position and `round_count` as they were, for
every game, seat and random source, and so does every returning
`move_player_with_effects` (the cell effect, the recovery effect and the
transport act on the player only); `change_stair_directions` keeps the number
of stairs and the cells of each, and sets the flag of stair `i` to whether the
`i`-th draw is even. -/
theorem C31_turn_keeps_board (fuel : Nat) (g : Game) (r : Rng) (idx : Fin 3) (s : Game × Rng)
    (h : play_turn fuel g r idx = some s) :
    (s.1.walls = g.walls ∧ s.1.poles = g.poles ∧ s.1.stairs = g.stairs ∧ s.1.maze = g.maze ∧
      s.1.flag_floor = g.flag_floor ∧ s.1.flag_width = g.flag_width ∧
      s.1.flag_length = g.flag_length ∧ s.1.round_count = g.round_count) ∧
    (∀ (dir : Direction) (steps : Int) (res : MoveResult),
      move_player_with_effects fuel g r idx dir steps = some res →
      res.1.walls = g.walls ∧ res.1.poles = g.poles ∧ res.1.stairs = g.stairs ∧
      res.1.maze = g.maze ∧ res.1.flag_floor = g.flag_floor ∧
      res.1.flag_width = g.flag_width ∧ res.1.flag_length = g.flag_length ∧
      res.1.round_count = g.round_count) ∧
    (∀ r1 : Rng,
      (change_stair_directions g.stairs r1).1.length = g.stairs.length ∧
      ∀ (i : Nat) (st : Stair), g.stairs.get? i = some st →
        (change_stair_directions g.stairs r1).1.get? i =
          some { st with up_direction := decide (r1.stream (r1.pos + i) % 2 = 0) }) := by
  have hb := (play_turn_closed g _ (turn_closed_trivial g) fuel r idx s h).1
  refine ⟨⟨hb.2.2.1, hb.2.1, hb.1, hb.2.2.2.1, hb.2.2.2.2.1, hb.2.2.2.2.2.1,
    hb.2.2.2.2.2.2.1, hb.2.2.2.2.2.2.2⟩, ?_, ?_⟩
  · intro dir steps res hm
    have hm1 := (move_player_with_effects_closed g _ (turn_closed_trivial g) idx dir fuel g r
      steps res (linked_refl (turn_closed_trivial g)) hm).1
    exact ⟨hm1.2.2.1, hm1.2.1, hm1.1, hm1.2.2.2.1, hm1.2.2.2.2.1, hm1.2.2.2.2.2.1,
      hm1.2.2.2.2.2.2.1, hm1.2.2.2.2.2.2.2⟩
  · intro r1
    obtain ⟨h1, _, h3⟩ := change_stair_directions_spec g.stairs r1
    exact ⟨h1, h3⟩

/-- The witness of C31: the turn of the mover of `wall_game` against the wall
returns and leaves the wall list as it was. -/
theorem C31_turn_keeps_board_witness :
    ∃ s : Game × Rng, play_turn 0 wall_game zero_rng 0 = some s ∧
      s.1.walls = [row_wall] ∧ s.1.round_count = 0 := by
  have hev : ∃ s : Game × Rng, play_turn 0 wall_game zero_rng 0 = some s := by
    rw [play_turn_in_maze 0 wall_game zero_rng 0 (by decide) rfl rfl]
    simp [in_maze_turn, guarded_move, wall_game, roll_movement_dice, roll_direction_dice,
      direction_face, rand, zero_rng, step_offset, can_move_single_step,
      is_path_blocked_by_wall, is_valid_position, is_floor_accessible, row_wall,
      wall_blocks, MAX_FLOORS, MAZE_WIDTH, MAZE_LENGTH, setPlayer_players_same]
  obtain ⟨s, hs⟩ := hev
  exact ⟨s, hs, (C31_turn_keeps_board 0 wall_game zero_rng 0 s hs).1.1,
    (C31_turn_keeps_board 0 wall_game zero_rng 0 s hs).1.2.2.2.2.2.2.2⟩

/-! ## Invariants of a turn: balance, recovery flag, positions -/

/-- C36: when every player's balance is in [1, 1000] before `play_turn`, every
player's balance is in [1, 1000] after a turn that returns, for every seat,
board and random source; such a player's balance is positive on return from
`apply_cell_effects`, and at a valid position it is positive whatever it was
before, so the test `movement_points <= 0` that follows the call in the step
loop is false. -/
theorem C36_balance_invariant (fuel : Nat) (g : Game) (r : Rng) (idx : Fin 3) (s : Game × Rng)
    (hinv : ∀ j, 1 ≤ (g.players j).movement_points ∧ (g.players j).movement_points ≤ 1000)
    (h : play_turn fuel g r idx = some s) :
    (∀ j, 1 ≤ (s.1.players j).movement_points ∧ (s.1.players j).movement_points ≤ 1000) ∧
    (∀ (p : Player) (f w l : Int) (r1 : Rng),
      (1 ≤ p.movement_points ∧ p.movement_points ≤ 1000) →
      ¬ (apply_cell_effects g.maze p f w l r1).1.movement_points ≤ 0) ∧
    (∀ (p : Player) (f w l : Int) (r1 : Rng), is_valid_position f w l = true →
      ¬ (apply_cell_effects g.maze p f w l r1).1.movement_points ≤ 0) := by
  refine ⟨?_, ?_, ?_⟩
  · intro j
    exact (play_turn_closed g _ (turn_closed_points g) fuel r idx s h).2.1 j (hinv j)
  · intro p f w l r1 hp
    have := (apply_cell_effects_in_range g.maze p f w l r1 hp).1
    omega
  · intro p f w l r1 hv
    have := apply_cell_effects_points_pos g.maze p f w l r1 hv
    omega

/-- The witness of C36: the three players of `start_game` have balance 100, and
after the turn of seat 0 every balance is in [1, 1000]. -/
theorem C36_balance_invariant_witness :
    (∀ j, 1 ≤ (start_game.players j).movement_points ∧
      (start_game.players j).movement_points ≤ 1000) ∧
    ∃ s : Game × Rng, play_turn 0 start_game zero_rng 0 = some s ∧
      ∀ j, 1 ≤ (s.1.players j).movement_points ∧ (s.1.players j).movement_points ≤ 1000 := by
  have hinv : ∀ j, 1 ≤ (start_game.players j).movement_points ∧
      (start_game.players j).movement_points ≤ 1000 := by
    intro j
    fin_cases j <;> decide
  exact ⟨hinv, _, rfl, (C36_balance_invariant 0 start_game zero_rng 0 _ hinv rfl).1⟩

/-- C37: `in_bawana = false` for every player holds after `initialize_players`,
and when it holds before `play_turn` it holds after a turn that returns, for
every seat and random source; hence it holds in every state reached from an
initial one by turns and heads of rounds, where the test `player->in_bawana` at
the start of `play_turn` is false for every seat. -/
theorem C37_recovery_flag_invariant (fuel : Nat) (g : Game) (r : Rng) (idx : Fin 3)
    (s : Game × Rng) (hinv : ∀ j, (g.players j).in_bawana = false)
    (h : play_turn fuel g r idx = some s) :
    (∀ j, (s.1.players j).in_bawana = false) ∧
    (∀ (g0 : Game) (j : Fin 3), ((initialize_players g0).players j).in_bawana = false) ∧
    (∀ (g0 : Game) (r0 : Rng) (s1 : Game × Rng),
      after_turns (initialize_players g0, r0) s1 →
      ∀ j, (s1.1.players j).in_bawana = false) := by
  have hinit : ∀ (g0 : Game) (j : Fin 3),
      ((initialize_players g0).players j).in_bawana = false := by
    intro g0 j
    unfold initialize_players
    dsimp only
    split_ifs <;> rfl
  refine ⟨?_, hinit, ?_⟩
  · intro j
    exact (play_turn_closed g _ (turn_closed_flag g) fuel r idx s h).2.1 j (hinv j)
  · intro g0 r0 s1 hreach
    induction hreach with
    | start => exact hinit g0
    | turn s2 s3 fuel1 idx1 _ hturn ih =>
      intro j
      exact (play_turn_closed s2.1 _ (turn_closed_flag s2.1) fuel1 s2.2 idx1 s3 hturn).2.1 j
        (ih j)
    | round s2 _ ih =>
      intro j
      have hp : (round_start s2.1 s2.2).1.players = s2.1.players := by
        unfold round_start
        dsimp only
        split <;> rfl
      rw [hp]
      exact ih j

/-- The witness of C37: no player of `poisoned_game` is flagged, and none is
after the turn in which seat 0 is transported to the recovery area. -/
theorem C37_recovery_flag_invariant_witness :
    (∀ j, (poisoned_game.players j).in_bawana = false) ∧
    ∃ s : Game × Rng, play_turn 0 poisoned_game zero_rng 0 = some s ∧
      ∀ j, (s.1.players j).in_bawana = false := by
  have hinv : ∀ j, (poisoned_game.players j).in_bawana = false := by
    intro j
    fin_cases j <;> rfl
  exact ⟨hinv, _, rfl,
    (C37_recovery_flag_invariant 0 poisoned_game zero_rng 0 _ hinv rfl).1⟩

/-- C38: when both end cells of every stair and the cell of every pole on its
end floor are valid positions, and every player's cell is a valid position
before `play_turn`, every player's cell is a valid position after a turn that
returns; `apply_cell_effects` reads the cell table only at a valid position, and
`apply_bawana_effect` reads `maze[0][width][length]` only inside the recovery
rectangle, which lies inside the grid. -/
theorem C38_position_safety (fuel : Nat) (g : Game) (r : Rng) (idx : Fin 3) (s : Game × Rng)
    (hstairs : ∀ st ∈ g.stairs,
      is_valid_position st.start_floor st.start_width st.start_length = true ∧
      is_valid_position st.end_floor st.end_width st.end_length = true)
    (hpoles : ∀ q ∈ g.poles, is_valid_position q.end_floor q.width q.length = true)
    (hinv : ∀ j, is_valid_position (g.players j).floor (g.players j).width
      (g.players j).length = true)
    (h : play_turn fuel g r idx = some s) :
    (∀ j, is_valid_position (s.1.players j).floor (s.1.players j).width
      (s.1.players j).length = true) ∧
    (∀ (maze : Maze) (p : Player) (f w l : Int) (r1 : Rng), is_valid_position f w l = false →
      apply_cell_effects maze p f w l r1 = (p, 0, r1)) ∧
    (∀ (maze : Maze) (p : Player) (r1 : Rng), is_in_bawana p.width p.length = false →
      apply_bawana_effect maze p r1 = (p, r1)) ∧
    (∀ w l : Int, is_in_bawana w l = true → is_valid_position 0 w l = true) := by
  refine ⟨?_, ?_, apply_bawana_effect_outside, bawana_cell_on_grid⟩
  · intro j
    exact (play_turn_closed g _ (turn_closed_grid g ⟨hstairs, hpoles⟩) fuel r idx s h).2.1 j
      (hinv j)
  · intro maze p f w l r1 hv
    unfold apply_cell_effects
    rw [hv]
    rfl

/-- The witness of C38: the game `stair_game` has one stair with valid end
cells and no pole, its players stand on valid positions, and they do after the
turn of seat 1. -/
theorem C38_position_safety_witness :
    (∀ j, is_valid_position (stair_game.players j).floor (stair_game.players j).width
      (stair_game.players j).length = true) ∧
    ∃ s : Game × Rng, play_turn 0 stair_game zero_rng 1 = some s ∧
      ∀ j, is_valid_position (s.1.players j).floor (s.1.players j).width
        (s.1.players j).length = true := by
  have hinv : ∀ j, is_valid_position (stair_game.players j).floor (stair_game.players j).width
      (stair_game.players j).length = true := by
    intro j
    fin_cases j <;> decide
  exact ⟨hinv, _, rfl,
    (C38_position_safety 0 stair_game zero_rng 1 _ (by decide) (by decide) hinv rfl).1⟩

/-! ## Win state -/

theorem turn_closed_names (g : Game) : turn_closed g (fun p q => q.name = p.name) := by
  refine ⟨fun _ _ _ h1 h2 => h2.trans h1, fun _ _ hn _ _ _ _ _ => hn,
    fun p r => (check_and_cap_kept g.maze
      { p with movement_points := p.movement_points - 2 } r).1,
    fun _ _ _ _ => rfl, fun p r => (apply_cell_effects_kept g.maze p _ _ _ r).1,
    fun p => (check_and_use_stairs_poles_kept g.stairs g.poles p).1,
    fun p r => (apply_bawana_effect_kept g.maze p r).1,
    fun p r => (transport_to_bawana_kept g.maze p r).1,
    fun p => (capture_reset_same p).2.2, fun p => (entry_cell_same p).2.2⟩

theorem at_flag_iff (g : Game) (p : Player) :
    at_flag g p = true ↔
      p.floor = g.flag_floor ∧ p.width = g.flag_width ∧ p.length = g.flag_length := by
  simp only [at_flag, Bool.and_eq_true, decide_eq_true_eq, and_assoc]

/-- A turn keeps every name; it keeps the equivalence between `game_over` and
`winner` being a player's name; and when it sets `game_over` the winner is the
mover, who stands on the flag. -/
theorem play_turn_win_state (fuel : Nat) (g : Game) (r : Rng) (idx : Fin 3) (s : Game × Rng)
    (h : play_turn fuel g r idx = some s) :
    (∀ j, (s.1.players j).name = (g.players j).name) ∧
    ((g.game_over = true ↔ ∃ j, g.winner = (g.players j).name) →
      (s.1.game_over = true ↔ ∃ j, s.1.winner = (s.1.players j).name)) ∧
    (g.game_over = false → s.1.game_over = true →
      s.1.winner = (g.players idx).name ∧
      (s.1.players idx).floor = s.1.flag_floor ∧ (s.1.players idx).width = s.1.flag_width ∧
      (s.1.players idx).length = s.1.flag_length) := by
  obtain ⟨_, hn, hw⟩ := play_turn_closed g _ (turn_closed_names g) fuel r idx s h
  refine ⟨hn, ?_, ?_⟩
  · intro hinv
    rcases hw with ⟨h1, h2⟩ | ⟨h1, h2, _⟩
    · rw [h1, h2, hinv]
      constructor
      · rintro ⟨j, hj⟩
        exact ⟨j, by rw [hn j]; exact hj⟩
      · rintro ⟨j, hj⟩
        exact ⟨j, by rw [← hn j]; exact hj⟩
    · exact ⟨fun _ => ⟨idx, h2⟩, fun _ => h1⟩
  · intro hno hover
    rcases hw with ⟨h1, _⟩ | ⟨_, h2, h3⟩
    · rw [h1, hno] at hover
      exact Bool.noConfusion hover
    · exact ⟨by rw [h2, hn idx], (at_flag_iff s.1 _).mp h3⟩

/-- C39: a `play_turn` that returns keeps the equivalence "`game_over` is true
if and only if `winner` is the name of a player"; when it sets `game_over` the
winner is the player whose turn it is and that player stands on the flag;
`initialize_game` leaves `game_over = false`, `winner = '\0'` and the names `A`,
`B`, `C`; hence the equivalence holds in every state reached by turns and heads
of rounds from `initialize_game` followed by the loaders of `main`. -/
theorem C39_win_state_consistency (fuel : Nat) (g : Game) (r : Rng) (idx : Fin 3)
    (s : Game × Rng)
    (hinv : g.game_over = true ↔ ∃ j, g.winner = (g.players j).name)
    (h : play_turn fuel g r idx = some s) :
    (s.1.game_over = true ↔ ∃ j, s.1.winner = (s.1.players j).name) ∧
    (g.game_over = false → s.1.game_over = true →
      s.1.winner = (g.players idx).name ∧
      (s.1.players idx).floor = s.1.flag_floor ∧ (s.1.players idx).width = s.1.flag_width ∧
      (s.1.players idx).length = s.1.flag_length) ∧
    (∀ (g0 : Game) (r0 : Rng),
      (initialize_game g0 r0).1.game_over = false ∧
      (initialize_game g0 r0).1.winner = '\x00' ∧
      ((initialize_game g0 r0).1.players 0).name = 'A' ∧
      ((initialize_game g0 r0).1.players 1).name = 'B' ∧
      ((initialize_game g0 r0).1.players 2).name = 'C') ∧
    (∀ (g0 gl : Game) (r0 rl : Rng) (s1 : Game × Rng),
      loaded_from (initialize_game g0 r0).1 gl → after_turns (gl, rl) s1 →
      (s1.1.game_over = true ↔ ∃ j, s1.1.winner = (s1.1.players j).name)) := by
  have hturn := play_turn_win_state fuel g r idx s h
  refine ⟨hturn.2.1 hinv, hturn.2.2, fun g0 r0 => ⟨rfl, rfl, rfl, rfl, rfl⟩, ?_⟩
  intro g0 gl r0 rl s1 hload hreach
  induction hreach with
  | start =>
    obtain ⟨hp, _, hover, hwin, _⟩ := hload
    show gl.game_over = true ↔ ∃ j, gl.winner = (gl.players j).name
    rw [hover, hwin, hp]
    constructor
    · intro hf
      exact Bool.noConfusion hf
    · rintro ⟨j, hj⟩
      fin_cases j
      · exact absurd (show ('\x00' : Char) = 'A' from hj) (by decide)
      · exact absurd (show ('\x00' : Char) = 'B' from hj) (by decide)
      · exact absurd (show ('\x00' : Char) = 'C' from hj) (by decide)
  | turn s2 s3 fuel1 idx1 _ hstep ih =>
    exact (play_turn_win_state fuel1 s2.1 s2.2 idx1 s3 hstep).2.1 ih
  | round s2 _ ih =>
    have hp : (round_start s2.1 s2.2).1.players = s2.1.players ∧
        (round_start s2.1 s2.2).1.game_over = s2.1.game_over ∧
        (round_start s2.1 s2.2).1.winner = s2.1.winner := by
      unfold round_start
      dsimp only
      split <;> exact ⟨rfl, rfl, rfl⟩
    rw [hp.1, hp.2.1, hp.2.2]
    exact ih

/-- The witness of C39: the turn of seat 0 in `win_game` steps onto the flag;
it sets `game_over` with winner `A`, who stands on the flag cell. -/
theorem C39_win_state_consistency_witness :
    (win_game.game_over = true ↔ ∃ j, win_game.winner = (win_game.players j).name) ∧
    win_game.game_over = false ∧
    ∃ s : Game × Rng, play_turn 1 win_game zero_rng 0 = some s ∧ s.1.game_over = true ∧
      s.1.winner = (win_game.players 0).name ∧
      (s.1.players 0).floor = s.1.flag_floor ∧ (s.1.players 0).width = s.1.flag_width ∧
      (s.1.players 0).length = s.1.flag_length := by
  have hinv : win_game.game_over = true ↔ ∃ j, win_game.winner = (win_game.players j).name := by
    constructor
    · intro hf
      exact Bool.noConfusion hf
    · rintro ⟨j, hj⟩
      fin_cases j
      · exact absurd hj (by decide)
      · exact absurd hj (by decide)
      · exact absurd hj (by decide)
  have hev : ∃ s : Game × Rng, play_turn 1 win_game zero_rng 0 = some s ∧
      s.1.game_over = true := by
    rw [play_turn_in_maze 1 win_game zero_rng 0 (by decide) rfl rfl]
    simp [in_maze_turn, guarded_move, clear_trigger, win_game, roll_movement_dice,
      roll_direction_dice, direction_face, move_player_with_effects, move_loop, step_offset,
      can_move_single_step, is_floor_accessible, is_valid_position, is_path_blocked_by_wall,
      MAX_FLOORS, MAZE_WIDTH, MAZE_LENGTH, apply_cell_effects, demo_maze, demo_tags,
      check_and_cap_of_pos, cap_points, MAX_MOVEMENT_POINTS, rand, zero_rng, at_flag,
      Game.setPlayer, idle_B, idle_C]
  obtain ⟨s, hs, hover⟩ := hev
  exact ⟨hinv, rfl, s, hs, hover,
    (C39_win_state_consistency 1 win_game zero_rng 0 s hinv hs).2.1 rfl hover⟩

/-! ## Cell exclusivity -/

/-- No player is flagged `in_bawana` in a state reached from `initialize_players`
by turns and heads of rounds. -/
theorem after_turns_flag (g0 : Game) (r0 : Rng) (s : Game × Rng)
    (hreach : after_turns (initialize_players g0, r0) s) :
    ∀ j, (s.1.players j).in_bawana = false := by
  induction hreach with
  | start =>
    intro j
    show ((initialize_players g0).players j).in_bawana = false
    unfold initialize_players
    dsimp only
    split_ifs <;> rfl
  | turn s2 s3 fuel1 idx1 _ hturn ih =>
    intro j
    exact (play_turn_closed s2.1 _ (turn_closed_flag s2.1) fuel1 s2.2 idx1 s3 hturn).2.1 j
      (ih j)
  | round s2 _ ih =>
    intro j
    have hp : (round_start s2.1 s2.2).1.players = s2.1.players := by
      unfold round_start
      dsimp only
      split <;> rfl
    rw [hp]
    exact ih j

/-- C18: for a player in the recovery rectangle with balance `b`, `0 < b ≤ 1000`,
`apply_bawana_effect` applies the branch of the cell's tag (and clears
`in_bawana`): poisoning sets 3 turns and changes neither balance nor position;
disoriented gives `min (b+50) 1000`, 4 turns, position (0,9,19), facing NORTH;
triggered gives `min (b+50) 1000`, `triggered`, position (0,9,19), facing NORTH;
happy gives `min (b+200) 1000`, position (0,9,19), facing NORTH, no status
change; random-points, and every tag that is none of the four above, gives
`min (b+k) 1000` with `k = rand() % 91 + 10`, `10 ≤ k ≤ 100`, and no relocation.
The entrance (0,9,19) is outside the rectangle.  The bound `b ≤ 1000` holds at
every call: `transport_to_bawana` passes balance 10, the step loop passes the
balance left by `apply_cell_effects` at a valid position, which is in
[1, 1000] and which a stair or pole does not change, and `play_turn` calls only
for a flagged player, which no reached state has. -/
theorem C18_recovery_branches (maze : Maze) (p : Player) (r : Rng)
    (hb : 0 < p.movement_points) (hle : p.movement_points ≤ 1000)
    (hin : is_in_bawana p.width p.length = true) :
    ((maze 0 p.width p.length).bawana_effect = .BAWANA_FOOD_POISONING →
      apply_bawana_effect maze p r =
        ({ p with food_poisoning_turns := 3, in_bawana := false }, r)) ∧
    ((maze 0 p.width p.length).bawana_effect = .BAWANA_DISORIENTED →
      apply_bawana_effect maze p r =
        ({ p with
            movement_points := min (p.movement_points + 50) 1000, disoriented_turns := 4,
            floor := 0, width := 9, length := 19, direction := .NORTH,
            in_bawana := false }, r)) ∧
    ((maze 0 p.width p.length).bawana_effect = .BAWANA_TRIGGERED →
      apply_bawana_effect maze p r =
        ({ p with
            movement_points := min (p.movement_points + 50) 1000, triggered := true,
            floor := 0, width := 9, length := 19, direction := .NORTH,
            in_bawana := false }, r)) ∧
    ((maze 0 p.width p.length).bawana_effect = .BAWANA_HAPPY →
      apply_bawana_effect maze p r =
        ({ p with
            movement_points := min (p.movement_points + 200) 1000,
            floor := 0, width := 9, length := 19, direction := .NORTH,
            in_bawana := false }, r)) ∧
    ((maze 0 p.width p.length).bawana_effect ≠ .BAWANA_FOOD_POISONING →
      (maze 0 p.width p.length).bawana_effect ≠ .BAWANA_DISORIENTED →
      (maze 0 p.width p.length).bawana_effect ≠ .BAWANA_TRIGGERED →
      (maze 0 p.width p.length).bawana_effect ≠ .BAWANA_HAPPY →
      ∃ k : Int, k = (((rand r).1 % 91 + 10 : Nat) : Int) ∧ 10 ≤ k ∧ k ≤ 100 ∧
        apply_bawana_effect maze p r =
          ({ p with
              movement_points := min (p.movement_points + k) 1000,
              in_bawana := false }, (rand r).2)) ∧
    is_in_bawana 9 19 = false ∧
    (∀ (q : Player) (v : Nat), (transport_place q v).movement_points = 10) ∧
    (∀ (stairs : List Stair) (poles : List Pole) (q : Player) (f w l : Int) (r1 : Rng),
      is_valid_position f w l = true →
      0 < (check_and_use_stairs_poles stairs poles
            (apply_cell_effects maze q f w l r1).1).1.movement_points ∧
      (check_and_use_stairs_poles stairs poles
            (apply_cell_effects maze q f w l r1).1).1.movement_points ≤ 1000) ∧
    (∀ (g0 : Game) (r0 : Rng) (s : Game × Rng),
      after_turns (initialize_players g0, r0) s → ∀ j, (s.1.players j).in_bawana = false) := by
  have hmax : p.movement_points ≤ MAX_MOVEMENT_POINTS := by
    unfold MAX_MOVEMENT_POINTS; exact hle
  rw [apply_bawana_effect_of_pos maze p r hb hin]
  refine ⟨?_, ?_, ?_, ?_, ?_, by decide, fun _ _ => rfl, ?_, after_turns_flag⟩
  · intro ht
    rw [ht]
    simp only [bawana_switch]
    rw [cap_points_of_le { p with food_poisoning_turns := 3 } hmax]
  · intro ht
    rw [ht, cap_points_eq_min]
    rfl
  · intro ht
    rw [ht, cap_points_eq_min]
    rfl
  · intro ht
    rw [ht, cap_points_eq_min]
    rfl
  · intro h1 h2 h3 h4
    cases ht : (maze 0 p.width p.length).bawana_effect with
    | BAWANA_FOOD_POISONING => exact absurd ht h1
    | BAWANA_DISORIENTED => exact absurd ht h2
    | BAWANA_TRIGGERED => exact absurd ht h3
    | BAWANA_HAPPY => exact absurd ht h4
    | BAWANA_RANDOM_POINTS =>
      refine ⟨_, rfl, by omega, by omega, ?_⟩
      rw [cap_points_eq_min]
      rfl
  · intro stairs poles q f w l r1 hv
    rw [(check_and_use_stairs_poles_same stairs poles _).1]
    refine ⟨apply_cell_effects_points_pos maze q f w l r1 hv, ?_⟩
    unfold apply_cell_effects
    simp only [hv, Bool.not_true, Bool.false_eq_true, if_false]
    split <;> exact (check_and_cap_in_range maze _ _).2

/-- The witness of C18: balance 1000 on the poisoning cell (6,21); the balance
and the position are as before, 3 turns are set. -/
theorem C18_recovery_branches_witness :
    (0 : Int) < 1000 ∧ (1000 : Int) ≤ 1000 ∧ is_in_bawana 6 21 = true ∧
    (demo_maze 0 6 21).bawana_effect = .BAWANA_FOOD_POISONING ∧
    apply_bawana_effect demo_maze
        { demo_player with width := 6, length := 21, movement_points := 1000 } zero_rng =
      ({ demo_player with
          width := 6, length := 21, movement_points := 1000, food_poisoning_turns := 3,
          in_bawana := false }, zero_rng) :=
  ⟨by decide, by decide, by decide, by decide,
   (C18_recovery_branches demo_maze
      { demo_player with width := 6, length := 21, movement_points := 1000 } zero_rng
      (by decide) (by decide) (by decide)).1 (by decide)⟩

/-! ## The wall query leaves the game as it is -/

/-- The loop from `i` on returns the game it got, with the answer of the scan of
the walls from index `i`. -/
theorem wall_scan_call_eq (floor start_w start_l end_w end_l : Int) (n : Nat) :
    ∀ (i : Nat) (g : Game), n = g.walls.length - i →
      wall_scan_call floor start_w start_l end_w end_l n i g =
        (is_path_blocked_by_wall (g.walls.drop i) floor start_w start_l end_w end_l, g) := by
  induction n with
  | zero =>
    intro i g hn
    unfold wall_scan_call
    rw [List.drop_eq_nil_of_le (by omega)]
    rfl
  | succ n ih =>
    intro i g hn
    have hi : i < g.walls.length := by omega
    unfold wall_scan_call
    rw [List.get?_eq_get hi]
    dsimp only
    rw [List.drop_eq_getElem_cons hi]
    unfold is_path_blocked_by_wall
    by_cases hb : wall_blocks (g.walls.get ⟨i, hi⟩) floor start_w start_l end_w end_l = true
    · simp only [List.get_eq_getElem] at hb
      simp only [List.get_eq_getElem, hb, if_true]
    · simp only [List.get_eq_getElem] at hb
      simp only [List.get_eq_getElem, hb, if_false]
      rw [ih (i + 1) g (by omega)]
      simp only [Bool.false_eq_true, if_false]

theorem is_path_blocked_by_wall_call_eq (g : Game) (floor start_w start_l end_w end_l : Int) :
    is_path_blocked_by_wall_call g floor start_w start_l end_w end_l =
      (is_path_blocked_by_wall g.walls floor start_w start_l end_w end_l, g) := by
  unfold is_path_blocked_by_wall_call
  rw [wall_scan_call_eq floor start_w start_l end_w end_l g.walls.length 0 g (by omega)]
  rfl

theorem can_move_single_step_call_eq (g : Game) (floor from_w from_l to_w to_l : Int) :
    can_move_single_step_call g floor from_w from_l to_w to_l =
      (can_move_single_step g.walls floor from_w from_l to_w to_l, g) := by
  unfold can_move_single_step_call can_move_single_step
  rw [is_path_blocked_by_wall_call_eq]
  dsimp only
  split
  · rfl
  · split <;> rfl

/-- C34: a call of `is_path_blocked_by_wall` returns the game it was given, with
every field as before, so a second call with the same arguments on the game
left by the first gives the same answer; the same holds for
`can_move_single_step`, whose answer is `is_floor_accessible` of the destination
and not the answer of `is_path_blocked_by_wall` for the step.  The answers are
those of the queries used in the step loop. -/
theorem C34_wall_query_leaves_game (g : Game) (floor from_w from_l to_w to_l : Int) :
    (is_path_blocked_by_wall_call g floor from_w from_l to_w to_l).2 = g ∧
    is_path_blocked_by_wall_call
        (is_path_blocked_by_wall_call g floor from_w from_l to_w to_l).2
        floor from_w from_l to_w to_l =
      is_path_blocked_by_wall_call g floor from_w from_l to_w to_l ∧
    (can_move_single_step_call g floor from_w from_l to_w to_l).2 = g ∧
    can_move_single_step_call
        (can_move_single_step_call g floor from_w from_l to_w to_l).2
        floor from_w from_l to_w to_l =
      can_move_single_step_call g floor from_w from_l to_w to_l ∧
    (can_move_single_step_call g floor from_w from_l to_w to_l).1 =
      (is_floor_accessible floor to_w to_l &&
        !(is_path_blocked_by_wall_call g floor from_w from_l to_w to_l).1) ∧
    (is_path_blocked_by_wall_call g floor from_w from_l to_w to_l).1 =
      is_path_blocked_by_wall g.walls floor from_w from_l to_w to_l ∧
    (can_move_single_step_call g floor from_w from_l to_w to_l).1 =
      can_move_single_step g.walls floor from_w from_l to_w to_l := by
  rw [is_path_blocked_by_wall_call_eq, can_move_single_step_call_eq]
  refine ⟨rfl, ?_, rfl, ?_, ?_, rfl, rfl⟩
  · rw [is_path_blocked_by_wall_call_eq]
  · rw [can_move_single_step_call_eq]
  · unfold can_move_single_step
    cases is_floor_accessible floor to_w to_l <;>
      cases is_path_blocked_by_wall g.walls floor from_w from_l to_w to_l <;> rfl

end MazeGame
